import Mathlib

/-!
# Resource naming tool: the template resolution engine

A shallow embedding of `generateResourceName`
(`internal/provider/zz_generate_resource_name_function.go`) together with the
value types it reads (`componentvalue_type.go`,
`resourcenamingparameters_type.go`, `provider.go`, `config_manager.go`).

Modelling conventions.

* A Go `string` is a byte sequence; bytes are natural numbers below 256.
  `len` is `List.length`, `s[0]` is the head byte, `s[:3]` is `List.take 3`.
* A Go `map[string]V` held by a framework value is a key-unique association
  list (`GoMap`).  Maps built inside a function are association lists updated
  with `mapSet`.  Where the source ranges over a map whose iteration order can
  influence the outcome, the order is supplied by a `RangeOrder`.
* Framework values carry their null / unknown / known state.  Component
  objects are typed by their schema: the attributes `fullname`, `shortcode`
  and `char` are always strings, so the type assertion `attrVal.(types.String)`
  in `GetComponentValue` (componentvalue_type.go:162) cannot fail and the
  getters return no diagnostics.
* Diagnostics returned by `generateResourceName` are all of error severity.
-/

namespace ResourceNamingTool

/-! ## Go strings -/

/-- A Go string: a sequence of bytes, each a natural number below 256. -/
abbrev GoString := List Nat

/-- UTF-8 encoding of a code point, as performed by the Go conversion
`string(r)` of an integer value. -/
def encodeRune (c : Nat) : GoString :=
  if c < 128 then [c]
  else if c < 2048 then [192 + c / 64, 128 + c % 64]
  else if c < 65536 then [224 + c / 4096, 128 + c / 64 % 64, 128 + c % 64]
  else [240 + c / 262144, 128 + c / 4096 % 64, 128 + c / 64 % 64, 128 + c % 64]

/-- The bytes of a string literal of the source (UTF-8). -/
def str (s : String) : GoString :=
  s.toList.flatMap (fun c => encodeRune c.toNat)

/-- The byte of an opening brace. -/
abbrev lbrace : Nat := 123

/-- The byte of a closing brace. -/
abbrev rbrace : Nat := 125

/-- The byte of a dot. -/
abbrev dot : Nat := 46

/-- Go `strings.HasPrefix s p`. -/
def startsWith : GoString → GoString → Bool
  | _, [] => true
  | [], _ :: _ => false
  | c :: s, p :: ps => if c = p then startsWith s ps else false

/-- Go `strings.Contains s sub`. -/
def contains : GoString → GoString → Bool
  | [], sub => startsWith [] sub
  | c :: s, sub => if startsWith (c :: s) sub then true else contains s sub

/-- Scanning loop of `strings.ReplaceAll`: `skip` counts the bytes of the
current match that are still to be consumed. -/
def replaceAux (old new : GoString) : Nat → GoString → GoString
  | _, [] => []
  | skip + 1, _ :: s => replaceAux old new skip s
  | 0, c :: s =>
    if startsWith (c :: s) old then new ++ replaceAux old new (old.length - 1) s
    else c :: replaceAux old new 0 s

/-- Go `strings.ReplaceAll s old new` for a non-empty `old`: the non-overlapping
occurrences of `old` are replaced from left to right.  Every key of the
placeholder map of `generateResourceName` starts with an opening brace, so the
empty-`old` case of the library function is never exercised; it is mapped to
the identity here. -/
def replaceAll (s old new : GoString) : GoString :=
  if old = [] then s else replaceAux old new 0 s

/-- Go `strings.Split s sep` for a one-byte separator. -/
def splitByte (sep : Nat) : GoString → List GoString
  | [] => [[]]
  | c :: s =>
    if c = sep then [] :: splitByte sep s
    else
      match splitByte sep s with
      | [] => [[c]]
      | p :: ps => (c :: p) :: ps

/-! ## Go maps -/

/-- Lookup `m[k]` in an association list. -/
def mapGet {V : Type} : List (GoString × V) → GoString → Option V
  | [], _ => none
  | (k', v) :: rest, k => if k' = k then some v else mapGet rest k

/-- Assignment `m[k] = v` on an association list: an existing entry is
overwritten in place, a new key is appended. -/
def mapSet {V : Type} : List (GoString × V) → GoString → V → List (GoString × V)
  | [], k, v => [(k, v)]
  | (k', v') :: rest, k, v =>
    if k' = k then (k, v) :: rest else (k', v') :: mapSet rest k v

/-- A Go map held by a framework value: an association list with unique keys. -/
structure GoMap (V : Type) where
  entries : List (GoString × V)
  nodup : (entries.map Prod.fst).Nodup

/-- The empty map. -/
def GoMap.empty {V : Type} : GoMap V := ⟨[], List.nodup_nil⟩

/-- Lookup `m[k]`. -/
def GoMap.lookup {V : Type} (m : GoMap V) (k : GoString) : Option V :=
  mapGet m.entries k

/-- Assignment `m[k] = v` on a map held by a framework value. -/
def GoMap.set {V : Type} (m : GoMap V) (k : GoString) (v : V) : GoMap V :=
  ⟨mapSet m.entries k v, by
    have key : ∀ l : List (GoString × V),
        (∀ x, x ∈ (mapSet l k v).map Prod.fst → x = k ∨ x ∈ l.map Prod.fst) ∧
        ((l.map Prod.fst).Nodup → ((mapSet l k v).map Prod.fst).Nodup) := by
      intro l
      induction l with
      | nil => exact ⟨fun x hx => Or.inl (by simpa [mapSet] using hx), fun _ => by simp [mapSet]⟩
      | cons e rest ih =>
        by_cases h : e.1 = k
        · have hs : mapSet (e :: rest) k v = (k, v) :: rest := by
            cases e; simp only [mapSet]; rw [if_pos h]
          rw [hs]
          refine ⟨fun x hx => ?_, fun hnd => ?_⟩
          · simp only [List.map_cons, List.mem_cons] at hx ⊢
            rcases hx with hx | hx
            · exact Or.inl hx
            · exact Or.inr (Or.inr hx)
          · simp only [List.map_cons, List.nodup_cons] at hnd ⊢
            rw [← h]; exact hnd
        · have hs : mapSet (e :: rest) k v = e :: mapSet rest k v := by
            cases e; simp only [mapSet]; rw [if_neg h]
          rw [hs]
          refine ⟨fun x hx => ?_, fun hnd => ?_⟩
          · simp only [List.map_cons, List.mem_cons] at hx ⊢
            rcases hx with hx | hx
            · exact Or.inr (Or.inl hx)
            · rcases ih.1 x hx with h1 | h1
              · exact Or.inl h1
              · exact Or.inr (Or.inr h1)
          · simp only [List.map_cons, List.nodup_cons] at hnd ⊢
            refine ⟨fun hmem => ?_, ih.2 hnd.2⟩
            rcases ih.1 _ hmem with h1 | h1
            · exact h h1
            · exact hnd.1 h1
    exact (key m.entries).2 m.nodup⟩

/-- The order in which `range` visits the entries of the two maps of
`generateResourceName` whose iteration order is observable: the component
groups built from `additional_components` and the placeholder map.  Go leaves
the order unspecified; any permutation of the entries may be produced. -/
structure RangeOrder where
  groups : List (GoString × List (GoString × GoString)) →
    List (GoString × List (GoString × GoString))
  groups_perm : ∀ l, (groups l).Perm l
  placeholders : List (GoString × GoString) → List (GoString × GoString)
  placeholders_perm : ∀ l, (placeholders l).Perm l

/-- The iteration order that visits entries in insertion order. -/
def RangeOrder.insertion : RangeOrder :=
  ⟨fun l => l, fun l => List.Perm.refl l, fun l => l, fun l => List.Perm.refl l⟩

/-- The iteration order that visits entries in reverse insertion order. -/
def RangeOrder.reversed : RangeOrder :=
  ⟨fun l => l.reverse, fun l => List.reverse_perm l,
   fun l => l.reverse, fun l => List.reverse_perm l⟩

/-! ## Framework values -/

/-- A `types.String`. -/
inductive TfString where
  | null
  | unknown
  | value (s : GoString)
  deriving DecidableEq, Repr

/-- `types.String.ValueString`. -/
def TfString.ValueString : TfString → GoString
  | .value s => s
  | _ => []

/-- `ComponentValueObject` (componentvalue_type.go:90): an object with the
string attributes `fullname`, `shortcode` and `char`. -/
inductive ComponentValueObject where
  | null
  | unknown
  | known (fullname shortcode char : TfString)
  deriving DecidableEq, Repr

namespace ComponentValueObject

/-- `ComponentValueObject.IsNull` (componentvalue_type.go:117). -/
def IsNull : ComponentValueObject → Bool
  | .null => true
  | _ => false

/-- `ComponentValueObject.IsUnknown` (componentvalue_type.go:122). -/
def IsUnknown : ComponentValueObject → Bool
  | .unknown => true
  | _ => false

/-- `GetFullname` (componentvalue_type.go:132, through `GetComponentValue`,
lines 147-176): empty for a null or unknown object or attribute. -/
def GetFullname : ComponentValueObject → GoString
  | .known f _ _ => f.ValueString
  | _ => []

/-- `GetShortcode` (componentvalue_type.go:137). -/
def GetShortcode : ComponentValueObject → GoString
  | .known _ s _ => s.ValueString
  | _ => []

/-- `GetChar` (componentvalue_type.go:142). -/
def GetChar : ComponentValueObject → GoString
  | .known _ _ c => c.ValueString
  | _ => []

end ComponentValueObject

/-- An element of a `types.Map`: a string, a component object, or a value of
another Go type (named as `%T` prints it). -/
inductive MapElem where
  | string (s : TfString)
  | component (c : ComponentValueObject)
  | other (typeName : GoString)
  deriving DecidableEq, Repr

/-- A `types.Map`. -/
inductive TfMap where
  | null
  | unknown
  | known (elements : GoMap MapElem)

/-- `types.Map.Elements`: empty for a null or unknown map. -/
def TfMap.Elements : TfMap → List (GoString × MapElem)
  | .known m => m.entries
  | _ => []

/-- A plain `basetypes.ObjectValue`: null, unknown, or known with its
attributes. -/
inductive TfObject where
  | null
  | unknown
  | known (attributes : GoMap MapElem)

/-- `basetypes.ObjectValue.Attributes`: empty for a null or unknown object. -/
def TfObject.Attributes : TfObject → List (GoString × MapElem)
  | .known attrs => attrs.entries
  | _ => []

/-- The string attribute `key` of a known object as the package-level
`GetComponentValue` (componentvalue_type.go:147-176) reads it: an absent
attribute and an attribute that is no `types.String` both give the empty
string there, like a null string (the diagnostic of lines 162-168 is treated
by every caller like an empty value). -/
def TfObject.stringAttr (attrs : GoMap MapElem) (key : GoString) : TfString :=
  match attrs.lookup key with
  | some (.string s) => s
  | _ => .null

/-- `ComponentValueObject{ObjectValue: objVal}`
(resourcenamingparameters_type.go:394-396): a plain object wrapped as a
component; its getters read the attributes `fullname`, `shortcode` and
`char`. -/
def ComponentValueObject.ofObject : TfObject → ComponentValueObject
  | .null => .null
  | .unknown => .unknown
  | .known attrs =>
    .known (TfObject.stringAttr attrs (str "fullname"))
      (TfObject.stringAttr attrs (str "shortcode"))
      (TfObject.stringAttr attrs (str "char"))

/-- An attribute of the parameter object: a `ComponentValueObject`, a
`types.Map`, a value of another Go type (named as `%T` prints it), or a plain
`basetypes.ObjectValue`. -/
inductive AttrValue where
  | component (c : ComponentValueObject)
  | map (m : TfMap)
  | other (typeName : GoString)
  | object (o : TfObject)

/-- `ResourceNamingParametersValue` (resourcenamingparameters_type.go:274). -/
inductive ResourceNamingParametersValue where
  | null
  | unknown
  | known (attributes : GoMap AttrValue)

/-- An error diagnostic: summary and detail. -/
structure Diagnostic where
  summary : GoString
  detail : GoString
  deriving DecidableEq, Repr

/-- `resourcenamingtoolProviderModel` (provider.go:179). -/
structure resourcenamingtoolProviderModel where
  ProviderInstanceID : TfString
  DefaultResourceType : ComponentValueObject
  DefaultResourcePrefix : ComponentValueObject
  DefaultBasename : ComponentValueObject
  DefaultEnvironment : ComponentValueObject
  DefaultRegion : ComponentValueObject
  DefaultInstance : ComponentValueObject
  DefaultOrganization : ComponentValueObject
  DefaultBusinessUnit : ComponentValueObject
  DefaultCostCenter : ComponentValueObject
  DefaultProject : ComponentValueObject
  DefaultApplication : ComponentValueObject
  DefaultWorkload : ComponentValueObject
  DefaultSubscription : ComponentValueObject
  DefaultLocation : ComponentValueObject
  DefaultDomain : ComponentValueObject
  DefaultCriticality : ComponentValueObject
  DefaultInitiative : ComponentValueObject
  DefaultSolution : ComponentValueObject
  AdditionalComponents : TfMap
  AdditionalNamingPatterns : TfMap

/-- The body of the loop of resourcenamingparameters_type.go:322-331 over the
attributes of a plain object: an attribute that is a `types.String` (in any
state) is kept, any other attribute is dropped with a warning. -/
def objectPatternStep (elements : GoMap MapElem) (kv : GoString × MapElem) :
    GoMap MapElem :=
  match kv.2 with
  | .string strVal => elements.set kv.1 (.string strVal)
  | _ => elements

/-- The map of string elements built at resourcenamingparameters_type.go:321-331
from the attributes of a plain object. -/
def objectPatternElements (attributes : List (GoString × MapElem)) : GoMap MapElem :=
  attributes.foldl objectPatternStep GoMap.empty

namespace ResourceNamingParametersValue

/-- `Attributes()` of the parameter object: empty when null or unknown. -/
def Attributes : ResourceNamingParametersValue → List (GoString × AttrValue)
  | .known attrs => attrs.entries
  | _ => []

/-- `GetComponentValue` (resourcenamingparameters_type.go:346-406).  An error
diagnostic is returned as `Except.error`; every caller in
`generateResourceName` discards the component that accompanies it. -/
def GetComponentValue (v : ResourceNamingParametersValue) (name : GoString) :
    Except Diagnostic ComponentValueObject :=
  match v with
  | .null => .ok .null
  | .unknown => .ok .null
  | .known attrs =>
    match attrs.lookup name with
    | none =>
      match attrs.lookup (str "additional_components") with
      | some (.map (.known additionalElements)) =>
        match additionalElements.lookup name with
        | some (.component compObj) => .ok compObj
        | some (.string _) =>
          .error ⟨str "Invalid component value type in additional_components",
            str "Expected ComponentValueObject but got basetypes.StringValue"⟩
        | some (.other t) =>
          .error ⟨str "Invalid component value type in additional_components",
            str "Expected ComponentValueObject but got " ++ t⟩
        | none => .ok .null
      | _ => .ok .null
    | some (.component c) => .ok c
    | some (.map _) =>
      .error ⟨str "Invalid component value type",
        str "Expected ComponentValueObject but got basetypes.MapValue"⟩
    | some (.other t) =>
      .error ⟨str "Invalid component value type",
        str "Expected ComponentValueObject but got " ++ t⟩
    | some (.object objVal) => .ok (ComponentValueObject.ofObject objVal)

/-- `GetAdditionalNamingPatterns` (resourcenamingparameters_type.go:284-343).
A `types.Map` attribute is returned as it is (lines 311-316); a plain object
is converted to the map of its string attributes (lines 319-336; warnings are
not errors, and `types.MapValue` cannot fail on string elements); any other
attribute yields the error of lines 338-342. -/
def GetAdditionalNamingPatterns (v : ResourceNamingParametersValue) :
    Except Diagnostic TfMap :=
  match v with
  | .null => .ok .null
  | .unknown => .ok .null
  | .known attrs =>
    match attrs.lookup (str "additional_naming_patterns") with
    | none => .ok .null
    | some (.map patternsMap) => .ok patternsMap
    | some (.object objVal) => .ok (.known (objectPatternElements objVal.Attributes))
    | some (.component _) =>
      .error ⟨str "Invalid additional_naming_patterns type",
        str "Expected Map or Object but got provider.ComponentValueObject"⟩
    | some (.other t) =>
      .error ⟨str "Invalid additional_naming_patterns type",
        str "Expected Map or Object but got " ++ t⟩

end ResourceNamingParametersValue

/-! ## The naming pattern table -/

/-- `builtin_NamingPatterns` (config_manager.go:29-221): every entry of the
literal is commented out in the source, so the table is empty. -/
def builtin_NamingPatterns : GoMap GoString := GoMap.empty

/-- The loops of lines 744-752 and 759-767: copy the known string elements of
a map into `patternElements`. -/
def addPatterns (patternElements : List (GoString × GoString))
    (elements : List (GoString × MapElem)) : List (GoString × GoString) :=
  elements.foldl
    (fun acc kv =>
      match kv.2 with
      | .string (.value s) => mapSet acc kv.1 s
      | _ => acc)
    patternElements

/-- The first two stages of the consolidated pattern map (lines 732-755), over
a given built-in table: the built-in patterns overlaid with the patterns of the
provider configuration. -/
def providerPatterns (builtin : GoMap GoString)
    (config : resourcenamingtoolProviderModel) : List (GoString × GoString) :=
  let patternElements := builtin.entries.foldl (fun acc kv => mapSet acc kv.1 kv.2) []
  match config.AdditionalNamingPatterns with
  | .known m => addPatterns patternElements m.entries
  | _ => patternElements

/-- The consolidated pattern map of lines 732-783: the provider patterns
overlaid with the patterns of the function parameters. -/
def consolidatedPatterns (builtin : GoMap GoString)
    (params : ResourceNamingParametersValue)
    (config : resourcenamingtoolProviderModel) (resourceTypeFull : GoString) :
    List (GoString × GoString) :=
  let patternElements := providerPatterns builtin config
  match params.GetAdditionalNamingPatterns with
  | .ok (.known additionalPatterns) =>
    let patternElements := addPatterns patternElements additionalPatterns.entries
    match additionalPatterns.lookup resourceTypeFull with
    | some (.string (.value s)) => mapSet patternElements resourceTypeFull s
    | _ => patternElements
  | _ => patternElements

/-! ## Placeholder resolution -/

/-- The three representations of a component. -/
inductive Format where
  | full
  | short
  | char
  deriving DecidableEq, Repr

/-- An entry of the `componentTypes` table (lines 830-834). -/
structure ComponentType where
  Name : GoString
  Patterns : List GoString
  ValueType : Format
  deriving DecidableEq

/-- The `componentTypes` table (lines 835-859). -/
def componentTypes : List ComponentType :=
  [ ⟨str "resource_type", [str "{resource_type}", str "{resource_type:full}", str "{resource_type:short}", str "{resource_type:char}"], .full⟩,
    ⟨str "resource_prefix", [str "{resource_prefix}", str "{resource_prefix:full}", str "{resource_prefix:short}", str "{resource_prefix:char}"], .full⟩,
    ⟨str "basename", [str "{basename}", str "{basename:full}", str "{basename:short}", str "{basename:char}"], .full⟩,
    ⟨str "environment", [str "{environment}", str "{environment:full}", str "{environment:short}", str "{environment:char}", str "{env}", str "{e}"], .full⟩,
    ⟨str "region", [str "{region}", str "{region:full}", str "{region:short}", str "{region:char}", str "{location}", str "{loc}", str "{r}"], .full⟩,
    ⟨str "instance", [str "{instance}", str "{instance:full}", str "{instance:short}", str "{instance:char}", str "{inst}", str "{i}"], .full⟩,
    ⟨str "organization", [str "{organization}", str "{organization:full}", str "{organization:short}", str "{organization:char}", str "{org}", str "{o}"], .full⟩,
    ⟨str "business_unit", [str "{business_unit}", str "{business_unit:full}", str "{business_unit:short}", str "{business_unit:char}", str "{bu}"], .full⟩,
    ⟨str "cost_center", [str "{cost_center}", str "{cost_center:full}", str "{cost_center:short}", str "{cost_center:char}", str "{cc}"], .full⟩,
    ⟨str "project", [str "{project}", str "{project:full}", str "{project:short}", str "{project:char}", str "{proj}", str "{p}"], .full⟩,
    ⟨str "application", [str "{application}", str "{application:full}", str "{application:short}", str "{application:char}", str "{app}", str "{a}"], .full⟩,
    ⟨str "workload", [str "{workload}", str "{workload:full}", str "{workload:short}", str "{workload:char}", str "{wl}", str "{w}"], .full⟩,
    ⟨str "subscription", [str "{subscription}", str "{subscription:full}", str "{subscription:short}", str "{subscription:char}", str "{sub}", str "{s}"], .full⟩,
    ⟨str "domain", [str "{domain}", str "{domain:full}", str "{domain:short}", str "{domain:char}", str "{d}"], .full⟩,
    ⟨str "criticality", [str "{criticality}", str "{criticality:full}", str "{criticality:short}", str "{criticality:char}", str "{crit}", str "{c}"], .full⟩,
    ⟨str "initiative", [str "{initiative}", str "{initiative:full}", str "{initiative:short}", str "{initiative:char}", str "{init}"], .full⟩,
    ⟨str "solution", [str "{solution}", str "{solution:full}", str "{solution:short}", str "{solution:char}", str "{sol}"], .full⟩ ]

/-- The requested format of a placeholder (lines 872-890). -/
def placeholderFormat (valueType : Format) (placeholder : GoString) : Format :=
  if contains placeholder (str ":full") then .full
  else if contains placeholder (str ":short") then .short
  else if contains placeholder (str ":char") then .char
  else
    let format := valueType
    let format := if placeholder.length ≤ 5 then Format.short else format
    let format := if placeholder.length ≤ 4 then Format.char else format
    format

/-- The representation of the call-time component selected by the format
(lines 903-925). -/
def callTimeValue (compValue : ComponentValueObject) : Format → GoString
  | .full => compValue.GetFullname
  | .short =>
    let value := compValue.GetShortcode
    if value = [] then compValue.GetFullname else value
  | .char =>
    let value := compValue.GetChar
    if value = [] then
      match compValue.GetFullname with
      | [] => value
      | b :: _ => encodeRune b
    else value

/-- The provider default consulted for a component name: the `switch` of
lines 941-976 (and its copies at lines 998-1067 and 1081-1150).  A name
without a case leaves every value empty, which is what a null object gives. -/
def defaultComponent (config : resourcenamingtoolProviderModel) (name : GoString) :
    ComponentValueObject :=
  if name = str "resource_type" then config.DefaultResourceType
  else if name = str "resource_prefix" then config.DefaultResourcePrefix
  else if name = str "basename" then config.DefaultBasename
  else if name = str "environment" then config.DefaultEnvironment
  else if name = str "region" then config.DefaultRegion
  else if name = str "instance" then config.DefaultInstance
  else if name = str "organization" then config.DefaultOrganization
  else if name = str "business_unit" then config.DefaultBusinessUnit
  else if name = str "cost_center" then config.DefaultCostCenter
  else if name = str "project" then config.DefaultProject
  else if name = str "application" then config.DefaultApplication
  else if name = str "workload" then config.DefaultWorkload
  else if name = str "subscription" then config.DefaultSubscription
  else if name = str "domain" then config.DefaultDomain
  else if name = str "criticality" then config.DefaultCriticality
  else if name = str "initiative" then config.DefaultInitiative
  else if name = str "solution" then config.DefaultSolution
  else .null

/-- The representation of the provider default selected by the format
(lines 940-1157), for the default object `d` of the component. -/
def defaultValue (d : ComponentValueObject) : Format → GoString
  | .full => d.GetFullname
  | .short =>
    let defaultValue := d.GetFullname
    let value := if d.IsNull then [] else d.GetShortcode
    if value = [] then
      if defaultValue.length > 3 then defaultValue.take 3
      else if defaultValue.length > 0 then defaultValue
      else value
    else value
  | .char =>
    let defaultValue := d.GetFullname
    let value := if d.IsNull then [] else d.GetChar
    if value = [] then
      match defaultValue with
      | [] => value
      | b :: _ => encodeRune b
    else value

/-- The body of the placeholder loop (lines 872-1172) for one placeholder
found in the pattern: the value stored in the placeholder map, or `none`
when nothing is stored (`continue`, or an empty value). -/
def resolvePlaceholder (params : ResourceNamingParametersValue)
    (config : resourcenamingtoolProviderModel) (name : GoString)
    (valueType : Format) (placeholder : GoString) : Option GoString :=
  let format := placeholderFormat valueType placeholder
  match params.GetComponentValue name with
  | .error _ => none
  | .ok compValue =>
    let value := callTimeValue compValue format
    let value :=
      if value = [] then defaultValue (defaultComponent config name) format
      else value
    if value ≠ [] then some value else none

/-- The placeholder loop of lines 861-1175 over the `componentTypes` table. -/
def fixedPlaceholders (params : ResourceNamingParametersValue)
    (config : resourcenamingtoolProviderModel) (pattern : GoString) :
    List (GoString × GoString) :=
  componentTypes.foldl
    (fun placeholders compType =>
      compType.Patterns.foldl
        (fun placeholders placeholder =>
          if contains pattern placeholder then
            match resolvePlaceholder params config compType.Name
                compType.ValueType placeholder with
            | some value => mapSet placeholders placeholder value
            | none => placeholders
          else placeholders)
        placeholders)
    []

/-! ## Additional components -/

/-- The grouping loop of lines 1186-1206: the flattened
`componentName.attribute` entries are grouped by component name. -/
def groupAdditional (elements : List (GoString × MapElem)) :
    List (GoString × List (GoString × GoString)) :=
  elements.foldl
    (fun componentGroups kv =>
      match splitByte dot kv.1 with
      | [componentName, attrName] =>
        let componentGroups :=
          match mapGet componentGroups componentName with
          | none => mapSet componentGroups componentName []
          | some _ => componentGroups
        match kv.2 with
        | .string (.value s) =>
          mapSet componentGroups componentName
            (mapSet ((mapGet componentGroups componentName).getD []) attrName s)
        | _ => componentGroups
      | _ => componentGroups)
    []

/-- The placeholders added for one additional component (lines 1215-1239). -/
def addComponentPlaceholders (placeholders : List (GoString × GoString))
    (componentName : GoString) (attrs : List (GoString × GoString)) :
    List (GoString × GoString) :=
  let placeholders :=
    match mapGet attrs (str "fullname") with
    | some fullname =>
      if fullname ≠ [] then
        mapSet (mapSet placeholders ([lbrace] ++ componentName ++ [rbrace]) fullname)
          ([lbrace] ++ componentName ++ str ":full\x7d") fullname
      else placeholders
    | none => placeholders
  let placeholders :=
    match mapGet attrs (str "shortcode") with
    | some shortcode =>
      if shortcode ≠ [] then
        mapSet placeholders ([lbrace] ++ componentName ++ str ":short\x7d") shortcode
      else placeholders
    | none => placeholders
  match mapGet attrs (str "char") with
  | some char =>
    if char ≠ [] then
      mapSet placeholders ([lbrace] ++ componentName ++ str ":char\x7d") char
    else placeholders
  | none => placeholders

/-- The processing of `additional_components` (lines 1177-1242). -/
def additionalPlaceholders (order : RangeOrder)
    (params : ResourceNamingParametersValue)
    (placeholders : List (GoString × GoString)) : List (GoString × GoString) :=
  match mapGet params.Attributes (str "additional_components") with
  | some (.map (.known additionalMap)) =>
    (order.groups (groupAdditional additionalMap.entries)).foldl
      (fun placeholders group => addComponentPlaceholders placeholders group.1 group.2)
      placeholders
  | _ => placeholders

/-! ## Substitution and validation -/

/-- The substitution loop of lines 1258-1267 over the entries of the
placeholder map in the order given. -/
def substitute (pattern : GoString) (entries : List (GoString × GoString)) : GoString :=
  entries.foldl (fun result kv => replaceAll result kv.1 kv.2) pattern

/-- The result checks of lines 1276-1318. -/
def validateResult (result : GoString) : GoString × List Diagnostic :=
  if contains result (str "\x7b") then
    ([], [⟨str "Unresolved Components",
      str "Resource name contains unrecognized components: " ++ result⟩])
  else if result = [] then
    ([], [⟨str "Empty Name", str "Resource name cannot be empty"⟩])
  else if result.length > 90 then
    ([], [⟨str "Name Too Long", str "Resource name exceeds 90 characters: " ++ result⟩])
  else if result.length < 3 then
    ([], [⟨str "Name Too Short",
      str "Resource name must be at least 3 characters long: " ++ result⟩])
  else (result, [])

/-- The effective resource type of lines 693-726: the full name of the
call-time `resource_type`, else that of the provider default. -/
def effectiveResourceType (params : ResourceNamingParametersValue)
    (config : resourcenamingtoolProviderModel) : Except Diagnostic GoString :=
  match params.GetComponentValue (str "resource_type") with
  | .error d => .error d
  | .ok resourceTypeComp =>
    let resourceTypeFull := resourceTypeComp.GetFullname
    if resourceTypeFull = [] then
      let resourceTypeFull := config.DefaultResourceType.GetFullname
      if resourceTypeFull = [] then
        .error ⟨str "Missing Required Parameter", str "Resource type is required"⟩
      else .ok resourceTypeFull
    else .ok resourceTypeFull

/-- Lines 728-1319 of `generateResourceName`, for the effective resource type
and a given built-in table. -/
def generateForType (builtin : GoMap GoString) (order : RangeOrder)
    (params : ResourceNamingParametersValue)
    (config : resourcenamingtoolProviderModel) (resourceTypeFull : GoString) :
    GoString × List Diagnostic :=
  match mapGet (consolidatedPatterns builtin params config resourceTypeFull)
      resourceTypeFull with
  | none =>
    ([], [⟨str "Missing Pattern",
      str "No naming pattern found for resource type: " ++ resourceTypeFull⟩])
  | some pattern =>
    let placeholders := fixedPlaceholders params config pattern
    let placeholders := additionalPlaceholders order params placeholders
    validateResult (substitute pattern (order.placeholders placeholders))

/-- `generateResourceName` (lines 679-1319). -/
def generateResourceName (order : RangeOrder)
    (params : ResourceNamingParametersValue)
    (config : resourcenamingtoolProviderModel) : GoString × List Diagnostic :=
  match effectiveResourceType params config with
  | .error d => ([], [d])
  | .ok resourceTypeFull =>
    generateForType builtin_NamingPatterns order params config resourceTypeFull

/-! ## Definitions used in statements -/

/-- A parameter object with a single attribute. -/
def singleParam (name : GoString) (v : AttrValue) : ResourceNamingParametersValue :=
  .known ⟨[(name, v)], List.nodup_singleton _⟩

/-- A piece of a template: literal text or a placeholder token. -/
inductive Seg where
  | lit (s : GoString)
  | tok (k : GoString)

/-- The text of a piece as it stands in the template. -/
def Seg.text : Seg → GoString
  | .lit s => s
  | .tok k => k

/-- The template spelled by a list of pieces. -/
def flatten : List Seg → GoString
  | [] => []
  | seg :: rest => seg.text ++ flatten rest

/-- A brace token: an opening brace, a body free of braces, a closing brace. -/
def isToken : GoString → Bool
  | [] => false
  | c :: rest =>
    decide (c = lbrace) && decide (rest.getLast? = some rbrace) &&
      decide (lbrace ∉ rest.dropLast) && decide (rbrace ∉ rest.dropLast)

/-- Well-formed pieces: literal text has no opening brace, a token is a brace
token. -/
def Seg.WF : Seg → Prop
  | .lit s => lbrace ∉ s
  | .tok k => isToken k = true

/-- Simultaneous substitution on one piece: a token with an entry becomes the
text of its value. -/
def Seg.subst (entries : List (GoString × GoString)) : Seg → Seg
  | .lit s => .lit s
  | .tok k =>
    match mapGet entries k with
    | some v => .lit v
    | none => .tok k

/-- Every (component name, default value type, placeholder) of the
`componentTypes` table, in the order in which the placeholder loop visits
them. -/
def allPlaceholders : List (GoString × Format × GoString) :=
  componentTypes.flatMap (fun ct => ct.Patterns.map (fun ph => (ct.Name, ct.ValueType, ph)))

/-- The table entries whose placeholder occurs in the pattern. -/
def foundPlaceholders (pattern : GoString) : List (GoString × Format × GoString) :=
  allPlaceholders.filter (fun t => contains pattern t.2.2)

/-- One round of the placeholder loop for a placeholder found in the pattern. -/
def placeholderStep (params : ResourceNamingParametersValue)
    (config : resourcenamingtoolProviderModel) (placeholders : List (GoString × GoString))
    (t : GoString × Format × GoString) : List (GoString × GoString) :=
  match resolvePlaceholder params config t.1 t.2.1 t.2.2 with
  | some value => mapSet placeholders t.2.2 value
  | none => placeholders

/-- The known string stored under a key of a pattern map, if any. -/
def patternEntry (m : TfMap) (k : GoString) : Option GoString :=
  match m with
  | .known elements =>
    match elements.lookup k with
    | some (.string (.value s)) => some s
    | _ => none
  | _ => none

/-- The map that the loop of lines 757-783 receives from
`GetAdditionalNamingPatterns`: null when the getter reports an error. -/
def returnedPatterns (params : ResourceNamingParametersValue) : TfMap :=
  match params.GetAdditionalNamingPatterns with
  | .ok m => m
  | .error _ => .null

/-- The call-time `additional_naming_patterns` as the caller passed them, read
from the attribute of the parameter object itself and not through the getter
of the code: the map of a map attribute, the attributes of a plain object, and
nothing when the attribute is absent or is neither of the two. -/
def callTimePatterns (params : ResourceNamingParametersValue) : TfMap :=
  match mapGet params.Attributes (str "additional_naming_patterns") with
  | some (.map patterns) => patterns
  | some (.object (.known attributes)) => .known attributes
  | _ => .null

/-- Precedence between the persisted and the built-in pattern of a key, as the
specification words it: the persisted entry if present, else the built-in
entry. -/
def persistedOrBuiltin (builtin : GoMap GoString)
    (config : resourcenamingtoolProviderModel) (k : GoString) : Option GoString :=
  match patternEntry config.AdditionalNamingPatterns k with
  | some p => some p
  | none => builtin.lookup k

/-- Precedence of the three pattern sources, as the specification words it:
the call-time entry if present, else the persisted entry if present, else the
built-in entry. -/
def patternByPrecedence (builtin : GoMap GoString) (params : ResourceNamingParametersValue)
    (config : resourcenamingtoolProviderModel) (k : GoString) : Option GoString :=
  match patternEntry (callTimePatterns params) k with
  | some p => some p
  | none => persistedOrBuiltin builtin config k

/-- The `additional_naming_patterns` of the provider configuration used by the
test suite (provider_test.go:58-117). -/
def testNamingPatterns : GoMap MapElem :=
  ⟨[
     (str "azurerm_resource_group", .string (.value (str "rg-{basename}-{environment:short}-{region:short}"))),
     (str "azurerm_virtual_network", .string (.value (str "vnet-{basename}-{environment:short}-{region:short}"))),
     (str "azurerm_subnet", .string (.value (str "snet-{basename}-{environment:short}-{instance}"))),
     (str "azurerm_network_security_group", .string (.value (str "nsg-{basename}-{environment:short}-{region:short}"))),
     (str "azurerm_route_table", .string (.value (str "rt-{basename}-{environment:short}-{region:short}"))),
     (str "azurerm_virtual_machine", .string (.value (str "vm-{basename}-{environment:short}-{region:short}-{instance}"))),
     (str "azurerm_availability_set", .string (.value (str "avs-{basename}-{environment:short}-{region:short}"))),
     (str "azurerm_vm_scale_set", .string (.value (str "vmss-{basename}-{environment:short}-{region:short}"))),
     (str "azurerm_kubernetes_cluster", .string (.value (str "aks-{basename}-{environment:short}-{region:short}"))),
     (str "azurerm_storage_account", .string (.value (str "{basename}{environment:char}{region:char}{instance}"))),
     (str "azurerm_storage_container", .string (.value (str "sc-{basename}-{environment:short}"))),
     (str "azurerm_sql_server", .string (.value (str "sql-{basename}-{environment:short}-{region:short}"))),
     (str "azurerm_sql_database", .string (.value (str "sqldb-{basename}-{environment:short}"))),
     (str "azurerm_cosmosdb_account", .string (.value (str "cosmos-{basename}-{environment:short}-{region:short}"))),
     (str "azurerm_mysql_server", .string (.value (str "mysql-{basename}-{environment:short}-{region:short}"))),
     (str "azurerm_postgresql_server", .string (.value (str "psql-{basename}-{environment:short}-{region:short}"))),
     (str "azurerm_app_service", .string (.value (str "app-{basename}-{environment:short}-{region:short}"))),
     (str "azurerm_app_service_plan", .string (.value (str "plan-{basename}-{environment:short}-{region:short}"))),
     (str "azurerm_function_app", .string (.value (str "func-{basename}-{environment:short}-{region:short}"))),
     (str "azurerm_key_vault", .string (.value (str "kv-{basename}-{environment:short}-{region:short}"))),
     (str "azurerm_servicebus_namespace", .string (.value (str "sb-{basename}-{environment:short}-{region:short}"))),
     (str "azurerm_eventhub_namespace", .string (.value (str "evh-{basename}-{environment:short}-{region:short}"))),
     (str "azurerm_eventgrid_topic", .string (.value (str "evg-{basename}-{environment:short}-{region:short}"))),
     (str "azurerm_logic_app_workflow", .string (.value (str "logic-{basename}-{environment:short}"))),
     (str "azurerm_container_registry", .string (.value (str "acr{basename}{environment:char}{region:char}"))),
     (str "azurerm_container_group", .string (.value (str "aci-{basename}-{environment:short}"))),
     (str "azurerm_log_analytics_workspace", .string (.value (str "log-{basename}-{environment:short}-{region:short}"))),
     (str "azurerm_application_insights", .string (.value (str "appi-{basename}-{environment:short}-{region:short}"))),
     (str "azurerm_public_ip", .string (.value (str "pip-{basename}-{environment:short}-{region:short}"))),
     (str "azurerm_lb", .string (.value (str "lb-{basename}-{environment:short}-{region:short}"))),
     (str "azurerm_application_gateway", .string (.value (str "agw-{basename}-{environment:short}-{region:short}"))),
     (str "azurerm_network_interface", .string (.value (str "nic-{basename}-{environment:short}"))),
     (str "azurerm_private_endpoint", .string (.value (str "pe-{basename}-{environment:short}"))),
     (str "azurerm_user_assigned_identity", .string (.value (str "id-{basename}-{environment:short}-{region:short}"))),
     (str "azurerm_monitor_action_group", .string (.value (str "ag-{basename}-{environment:short}"))),
     (str "azurerm_monitor_metric_alert", .string (.value (str "ar-{basename}-{environment:short}")))],
   by decide⟩

/-- A component object with the three attributes set. -/
def componentOf (fullname shortcode char : String) : ComponentValueObject :=
  .known (.value (str fullname)) (.value (str shortcode)) (.value (str char))

/-- The provider configuration used by the test suite (provider_test.go:20-118). -/
def providerConfig : resourcenamingtoolProviderModel :=
  { ProviderInstanceID := .null
    DefaultResourceType := componentOf "azurerm_resource_group" "rg" "r"
    DefaultResourcePrefix := .null
    DefaultBasename := componentOf "example" "ex" "e"
    DefaultEnvironment := componentOf "production" "prd" "p"
    DefaultRegion := componentOf "westeurope" "we" "w"
    DefaultInstance := componentOf "00001" "001" "1"
    DefaultOrganization := .null
    DefaultBusinessUnit := .null
    DefaultCostCenter := .null
    DefaultProject := .null
    DefaultApplication := .null
    DefaultWorkload := .null
    DefaultSubscription := componentOf "prod-01" "p01" "p"
    DefaultLocation := .null
    DefaultDomain := .null
    DefaultCriticality := .null
    DefaultInitiative := .null
    DefaultSolution := .null
    AdditionalComponents := .null
    AdditionalNamingPatterns := .known testNamingPatterns }

/-- A provider configuration in which nothing is set. -/
def emptyConfig : resourcenamingtoolProviderModel :=
  { ProviderInstanceID := .null
    DefaultResourceType := .null
    DefaultResourcePrefix := .null
    DefaultBasename := .null
    DefaultEnvironment := .null
    DefaultRegion := .null
    DefaultInstance := .null
    DefaultOrganization := .null
    DefaultBusinessUnit := .null
    DefaultCostCenter := .null
    DefaultProject := .null
    DefaultApplication := .null
    DefaultWorkload := .null
    DefaultSubscription := .null
    DefaultLocation := .null
    DefaultDomain := .null
    DefaultCriticality := .null
    DefaultInitiative := .null
    DefaultSolution := .null
    AdditionalComponents := .null
    AdditionalNamingPatterns := .null }

/-- A provider configuration with a single naming pattern and nothing else. -/
def configWithPattern (resourceType pattern : String) : resourcenamingtoolProviderModel :=
  { emptyConfig with
    AdditionalNamingPatterns :=
      .known ⟨[(str resourceType, .string (.value (str pattern)))], List.nodup_singleton _⟩ }

/-- Whether `s` ends with `suffix`. -/
def endsWith (s suffix : GoString) : Bool :=
  startsWith s.reverse suffix.reverse

/-- The requested format of a placeholder spelling as the specification words
it: the explicit suffix wins; otherwise a spelling of at most 4 characters is
`char`, one of exactly 5 characters is `short`, a longer one is `full`. -/
def specFormat (placeholder : GoString) : Format :=
  if endsWith placeholder (str ":full\x7d") then .full
  else if endsWith placeholder (str ":short\x7d") then .short
  else if endsWith placeholder (str ":char\x7d") then .char
  else if placeholder.length ≤ 4 then .char
  else if placeholder.length = 5 then .short
  else .full

/-- A provider configuration whose only content is a pattern for the resource
type `t`, given as bytes. -/
def literalPatternConfig (pattern : GoString) : resourcenamingtoolProviderModel :=
  { emptyConfig with
    AdditionalNamingPatterns :=
      .known ⟨[(str "t", .string (.value pattern))], List.nodup_singleton _⟩ }

/-- The byte of a colon. -/
abbrev colon : Nat := 58

/-- The known string stored in an `additional_components` map for the
attribute `attr` of the component `name`, if any. -/
def additionalAttr (m : GoMap MapElem) (name attr : GoString) : Option GoString :=
  match m.lookup (name ++ dot :: attr) with
  | some (.string (.value s)) => some s
  | _ => none

/-- The group of a component is created when missing (lines 1197-1199). -/
def ensureGroup (componentGroups : List (GoString × List (GoString × GoString)))
    (componentName : GoString) : List (GoString × List (GoString × GoString)) :=
  match mapGet componentGroups componentName with
  | none => mapSet componentGroups componentName []
  | some _ => componentGroups

/-- A known string value is stored in the group of its component
(lines 1202-1204). -/
def storeAttr (componentGroups : List (GoString × List (GoString × GoString)))
    (componentName attrName : GoString) (val : MapElem) :
    List (GoString × List (GoString × GoString)) :=
  match val with
  | .string (.value s) =>
    mapSet componentGroups componentName
      (mapSet ((mapGet componentGroups componentName).getD []) attrName s)
  | _ => componentGroups

/-- One round of the grouping loop of lines 1189-1206. -/
def groupStep (componentGroups : List (GoString × List (GoString × GoString)))
    (kv : GoString × MapElem) : List (GoString × List (GoString × GoString)) :=
  match splitByte dot kv.1 with
  | [componentName, attrName] =>
    storeAttr (ensureGroup componentGroups componentName) componentName attrName kv.2
  | _ => componentGroups

/-- The four placeholders of an additional component, each given by the text
that follows the component name and by the attribute it is filled from
(lines 1216-1239). -/
def placeholderSuffixes : List (GoString × GoString) :=
  [([rbrace], str "fullname"), (str ":full\x7d", str "fullname"),
   (str ":short\x7d", str "shortcode"), (str ":char\x7d", str "char")]

/-- The assignments to the placeholder map made for one additional component
(lines 1215-1239), in the order in which they are made. -/
def groupWrites (componentName : GoString) (attrs : List (GoString × GoString)) :
    List (GoString × GoString) :=
  placeholderSuffixes.flatMap (fun sa =>
    match mapGet attrs sa.2 with
    | some v => if v ≠ [] then [([lbrace] ++ componentName ++ sa.1, v)] else []
    | none => [])

/-- Call-time parameters made of the resource type `t` and an
`additional_components` map. -/
def additionalParams (components : GoMap MapElem) : ResourceNamingParametersValue :=
  .known ⟨[(str "resource_type", .component (.known (.value (str "t")) .null .null)),
    (str "additional_components", .map (.known components))],
    by show [str "resource_type", str "additional_components"].Nodup; decide⟩

/-- An `additional_components` map in which one component is named `n` and
another one `n:short`. -/
def collidingComponents : GoMap MapElem :=
  ⟨[(str "n.fullname", .string (.value (str "a"))),
    (str "n:short.fullname", .string (.value (str "bcd")))], by decide⟩

/-- An `additional_components` map with the free-form component `team`, of
which only the full name is given. -/
def teamComponents : GoMap MapElem :=
  ⟨[(str "team.fullname", .string (.value (str "platform")))], by decide⟩

/-- The `additional_components` of the region override test
(zz_generate_resource_name_function_test.go:81-87). -/
def regionOverrideComponents : GoMap MapElem :=
  ⟨[(str "region.fullname", .string (.value (str "Germany West Central"))),
    (str "region.shortcode", .string (.value (str "gwc"))),
    (str "region.char", .string (.value (str "g")))], by decide⟩

/-- The parameter object of the region override test as it reaches
`generateResourceName`: the flattened `additional_components`, and the
`resource_type` that `Run` adds from the provider default (lines 343-365). -/
def regionOverrideParams : ResourceNamingParametersValue :=
  .known ⟨[(str "additional_components", .map (.known regionOverrideComponents)),
    (str "resource_type", .component providerConfig.DefaultResourceType)], by decide⟩

/-- The `additional_components` of the additional components test
(zz_generate_resource_name_function_test.go:50-54). -/
def instanceOverrideComponents : GoMap MapElem :=
  ⟨[(str "instance.fullname", .string (.value (str "00002"))),
    (str "instance.shortcode", .string (.value (str "002"))),
    (str "instance.char", .string (.value (str "2")))], by decide⟩

/-- The parameter object of the additional components test
(zz_generate_resource_name_function_test.go:44-59). -/
def instanceOverrideParams : ResourceNamingParametersValue :=
  .known ⟨[(str "resource_type", .object (.known
      ⟨[(str "name", .string .null),
        (str "fullname", .string (.value (str "azurerm_resource_group"))),
        (str "shortcode", .string (.value (str "rg"))),
        (str "char", .string (.value (str "r")))], by decide⟩)),
    (str "additional_naming_patterns", .map (.known
      ⟨[(str "azurerm_resource_group", .string (.value
          (str "{basename}-{environment:short}-{region:short}-{instance:char}")))],
        by decide⟩)),
    (str "additional_components", .map (.known instanceOverrideComponents))], by decide⟩

/-- An `additional_components` map that gives the region a short code and also
holds a component named `region:short`. -/
def shadowedRegionComponents : GoMap MapElem :=
  ⟨[(str "region.shortcode", .string (.value (str "gwc"))),
    (str "region:short.fullname", .string (.value (str "xyz")))], by decide⟩

/-- The parameter object with `shadowedRegionComponents` and the default
resource type. -/
def shadowedRegionParams : ResourceNamingParametersValue :=
  .known ⟨[(str "additional_components", .map (.known shadowedRegionComponents)),
    (str "resource_type", .component providerConfig.DefaultResourceType)], by decide⟩

/-- Boolean form of `Seg.WF`. -/
def Seg.check : Seg → Bool
  | .lit s => decide (lbrace ∉ s)
  | .tok k => isToken k

/-- Call-time parameters in which the full name of `basename` is itself the
text of a placeholder. -/
def nestedValueParams : ResourceNamingParametersValue :=
  .known ⟨[(str "resource_type", .component (.known (.value (str "t")) .null .null)),
    (str "basename", .component (.known (.value (str "{environment}")) .null .null)),
    (str "environment", .component (.known (.value (str "prod")) .null .null))], by decide⟩

/-- Call-time parameters with a `location` component, and no `region`. -/
def locationParams : ResourceNamingParametersValue :=
  .known ⟨[(str "resource_type", .component (.known (.value (str "t")) .null .null)),
    (str "location", .component (componentOf "eastus" "eus" "e"))], by decide⟩

/-- Call-time parameters with a `location` and a `region` component. -/
def locationRegionParams : ResourceNamingParametersValue :=
  .known ⟨[(str "resource_type", .component (.known (.value (str "t")) .null .null)),
    (str "location", .component (componentOf "eastus" "eus" "e")),
    (str "region", .component (componentOf "westeurope" "we" "w"))], by decide⟩

/-! ## The raw parameter set -/

/-- A value held by an innermost map of the raw parameter set: a
`types.String`, or a value of another type, given by the text that its
`String()` method prints. -/
inductive RawValue where
  | string (s : TfString)
  | other (text : GoString)

/-- The value of a component name in an element of the raw parameter set: a
`types.Map` (a null or unknown map has no elements), or a value of another Go
type (named as `%T` prints it). -/
inductive RawComponent where
  | map (elements : GoMap RawValue)
  | other (typeName : GoString)

/-- An element of the raw parameter set: a `types.Map` from component names to
values, or a value of another Go type (named as `%T` prints it). -/
inductive RawElement where
  | map (elements : GoMap RawComponent)
  | other (typeName : GoString)

/-- The variables of `setWithNestedMapsToResourceNamingParametersValue` that
the loops update (lines 413-418). -/
structure NormalizerState where
  attributes : GoMap AttrValue
  additionalComponentsMap : List (GoString × List (GoString × GoString))
  hasAdditionalComponents : Bool

/-- One round of the loop over the `additional_components` map
(lines 451-480).  A key that does not split into exactly two parts is logged
and nothing else happens. -/
def flattenStep (st : NormalizerState) (kv : GoString × RawValue) : NormalizerState :=
  match splitByte dot kv.1 with
  | [compName, attrName] =>
    let groups := ensureGroup st.additionalComponentsMap compName
    let groups :=
      match kv.2 with
      | .string (.value s) =>
        mapSet groups compName (mapSet ((mapGet groups compName).getD []) attrName s)
      | _ => groups
    { st with additionalComponentsMap := groups, hasAdditionalComponents := true }
  | _ => st

/-- The string stored for an element of `additional_naming_patterns`
(lines 500-517): a known string as it is, anything else as the text of its
`String()` method, which is `<null>` and `<unknown>` for a null and an unknown
string. -/
def patternElement : RawValue → TfString
  | .string (.value s) => .value s
  | .string .null => .value (str "<null>")
  | .string .unknown => .value (str "<unknown>")
  | .other text => .value text

/-- An attribute of the component object built at lines 555-580: the known
string under the key, else null. -/
def componentAttr (elements : GoMap RawValue) (name : GoString) : TfString :=
  match elements.lookup name with
  | some (.string (.value s)) => .value s
  | _ => .null

/-- The body of the loop over the components of one element (lines 430-611). -/
def componentStep (st : NormalizerState) (kv : GoString × RawComponent) :
    Except GoString NormalizerState :=
  match kv.2 with
  | .map elements =>
    if kv.1 = str "additional_components" then
      .ok (elements.entries.foldl flattenStep st)
    else if kv.1 = str "additional_naming_patterns" then
      .ok { st with
        attributes := st.attributes.set (str "additional_naming_patterns")
          (.map (.known (elements.entries.foldl
            (fun stringElements e => stringElements.set e.1 (.string (patternElement e.2)))
            GoMap.empty))) }
    else
      .ok { st with
        attributes := st.attributes.set kv.1
          (.object (.known ⟨[(str "name", .string (componentAttr elements (str "name"))),
            (str "fullname", .string (componentAttr elements (str "fullname"))),
            (str "shortcode", .string (componentAttr elements (str "shortcode"))),
            (str "char", .string (componentAttr elements (str "char")))], by
              show [str "name", str "fullname", str "shortcode", str "char"].Nodup
              decide⟩)) }
  | .other typeName =>
    .error (str "component " ++ kv.1 ++ str " value is not a map: " ++ typeName)

/-- The loop over the components of one element, left at the first error. -/
def forEachComponent :
    List (GoString × RawComponent) → NormalizerState → Except GoString NormalizerState
  | [], st => .ok st
  | kv :: rest, st =>
    match componentStep st kv with
    | .error e => .error e
    | .ok st => forEachComponent rest st

/-- The loop over the elements of the set (lines 421-620), left at the first
error. -/
def forEachElement :
    List RawElement → NormalizerState → Except GoString NormalizerState
  | [], st => .ok st
  | .map elements :: rest, st =>
    match forEachComponent elements.entries st with
    | .error e => .error e
    | .ok st => forEachElement rest st
  | .other typeName :: _, _ => .error (str "set element is not a map: " ++ typeName)

/-- The flattened map of lines 630-642. -/
def flattenedComponents (additionalComponentsMap : List (GoString × List (GoString × GoString))) :
    GoMap MapElem :=
  additionalComponentsMap.foldl
    (fun flattened g =>
      g.2.foldl
        (fun flattened a => flattened.set (g.1 ++ dot :: a.1) (.string (.value a.2)))
        flattened)
    GoMap.empty

/-- `setWithNestedMapsToResourceNamingParametersValue` (lines 411-676) on the
elements of the parameter set.  The maps are visited in list order; the
constructors `types.MapValue` and `types.ObjectValue` are given values of the
declared types and report no error. -/
def setWithNestedMapsToResourceNamingParametersValue (parametersSet : List RawElement) :
    Except GoString ResourceNamingParametersValue :=
  match forEachElement parametersSet ⟨GoMap.empty, [], false⟩ with
  | .error e => .error e
  | .ok st =>
    let attributes :=
      if st.hasAdditionalComponents then
        st.attributes.set (str "additional_components")
          (.map (.known (flattenedComponents st.additionalComponentsMap)))
      else st.attributes
    .ok (.known attributes)

/-- Whether a key splits on the dot into exactly two parts. -/
def validKey (key : GoString) : Bool :=
  (splitByte dot key).length == 2

/-- A map of `additional_components` without the keys that do not split into
exactly two parts. -/
def dropInvalidKeys (m : GoMap RawValue) : GoMap RawValue :=
  ⟨m.entries.filter (fun kv => validKey kv.1),
    m.nodup.sublist ((List.filter_sublist _).map _)⟩

/-- An element of the raw parameter set in which the `additional_components`
map has lost the keys that do not split into exactly two parts. -/
def RawElement.dropInvalidKeys : RawElement → RawElement
  | .map elements =>
    .map ⟨elements.entries.map (fun kv =>
        (kv.1,
          if kv.1 = str "additional_components" then
            match kv.2 with
            | .map m => RawComponent.map (ResourceNamingTool.dropInvalidKeys m)
            | c => c
          else kv.2)),
      by rw [List.map_map]; exact elements.nodup⟩
  | e => e

/-- A raw parameter set made of one element with an `additional_components`
map. -/
def rawAdditional (entries : GoMap RawValue) : List RawElement :=
  [.map ⟨[(str "additional_components", .map entries)], List.nodup_singleton _⟩]

/-! ## The snapshot document -/

/-- A JSON value inside a component object: null, a string, or anything else
(a number, a boolean, an array or an object). -/
inductive JsonAttr where
  | null
  | string (s : GoString)
  | other
  deriving DecidableEq

/-- A JSON value inside a top-level object of the snapshot. -/
inductive JsonMember where
  | null
  | string (s : GoString)
  | object (members : List (GoString × JsonAttr))
  | other
  deriving DecidableEq

/-- The JSON value of a top-level member of the snapshot. -/
inductive JsonField where
  | null
  | string (s : GoString)
  | object (members : List (GoString × JsonMember))
  | other
  deriving DecidableEq

/-- The snapshot document: the members of the top-level JSON object in the
order in which they stand in the file, a repeated name standing as often as
it is written.  The bytes on disk are abstracted to the document that
`json.Unmarshal` reads from them; strings are the strings it reads. -/
abbrev JsonDoc := List (GoString × JsonField)

/-- A UTF-8 continuation byte. -/
def isCont (b : Nat) : Bool := decide (0x80 ≤ b ∧ b ≤ 0xBF)

/-- The number of bytes of the UTF-8 encoding at the start of a string, as
`utf8.DecodeRuneInString` reports it; 0 stands for an invalid or truncated
encoding, for which the library reports `RuneError` with size 1. -/
def runeLen : GoString → Nat
  | [] => 0
  | b0 :: rest =>
    if b0 < 0x80 then 1
    else if 0xC2 ≤ b0 ∧ b0 ≤ 0xDF then
      match rest with
      | b1 :: _ => if isCont b1 then 2 else 0
      | _ => 0
    else if 0xE0 ≤ b0 ∧ b0 ≤ 0xEF then
      match rest with
      | b1 :: b2 :: _ =>
        if (if b0 = 0xE0 then decide (0xA0 ≤ b1 ∧ b1 ≤ 0xBF)
            else if b0 = 0xED then decide (0x80 ≤ b1 ∧ b1 ≤ 0x9F)
            else isCont b1) && isCont b2 then 3
        else 0
      | _ => 0
    else if 0xF0 ≤ b0 ∧ b0 ≤ 0xF4 then
      match rest with
      | b1 :: b2 :: b3 :: _ =>
        if (if b0 = 0xF0 then decide (0x90 ≤ b1 ∧ b1 ≤ 0xBF)
            else if b0 = 0xF4 then decide (0x80 ≤ b1 ∧ b1 ≤ 0x8F)
            else isCont b1) && isCont b2 && isCont b3 then 4
        else 0
      | _ => 0
    else 0

/-- Scanning loop of the string encoder of `encoding/json`: a byte that starts
no valid UTF-8 encoding is written as the escape of U+FFFD, which is read back
as the bytes `EF BF BD`; every other character is read back as it is.  `skip`
counts the bytes of the current character that are still to be copied. -/
def jsonStringAux : Nat → GoString → GoString
  | _, [] => []
  | skip + 1, b :: s => b :: jsonStringAux skip s
  | 0, b :: s =>
    match runeLen (b :: s) with
    | 0 => [0xEF, 0xBF, 0xBD] ++ jsonStringAux 0 s
    | n + 1 => b :: jsonStringAux n s

/-- The string that `json.Unmarshal` reads back from what `json.Marshal` writes
for a Go string, be it a value or the key of a map. -/
def jsonString (s : GoString) : GoString := jsonStringAux 0 s

/-- Scanning loop of `utf8.ValidString`. -/
def validUTF8Aux : Nat → GoString → Bool
  | _, [] => true
  | skip + 1, _ :: s => validUTF8Aux skip s
  | 0, b :: s =>
    match runeLen (b :: s) with
    | 0 => false
    | n + 1 => validUTF8Aux n s

/-- `utf8.ValidString`. -/
def validUTF8 (s : GoString) : Bool := validUTF8Aux 0 s

/-- Byte-wise comparison of two keys, `strings.Compare a b ≤ 0`. -/
def keyLe : GoString → GoString → Bool
  | [], _ => true
  | _ :: _, [] => false
  | a :: s, b :: t => decide (a < b) || (decide (a = b) && keyLe s t)

/-- Insertion of a member into a list sorted by key. -/
def insertMember {V : Type} (kv : GoString × V) : List (GoString × V) → List (GoString × V)
  | [] => [kv]
  | x :: rest => if keyLe kv.1 x.1 then kv :: x :: rest else x :: insertMember kv rest

/-- The order in which `json.Marshal` writes the entries of a Go map: sorted by
key. -/
def sortMembers {V : Type} (l : List (GoString × V)) : List (GoString × V) :=
  l.foldr insertMember []

/-- The Go map that `json.Unmarshal` builds from the members of a JSON object:
a repeated name keeps the value written last. -/
def rawObject {V : Type} (members : List (GoString × V)) : List (GoString × V) :=
  members.foldl (fun acc kv => mapSet acc kv.1 kv.2) []

/-- Whether a component object is neither null nor unknown. -/
def ComponentValueObject.isKnown : ComponentValueObject → Bool
  | .known _ _ _ => true
  | _ => false

/-- The members written by `ComponentValueObject.MarshalJSON`
(componentvalue_type.go:277-309) for a known object: the non-empty ones among
`fullname`, `shortcode` and `char`, which `json.Marshal` writes sorted by
name. -/
def ComponentValueObject.members (v : ComponentValueObject) : List (GoString × GoString) :=
  (if v.GetChar ≠ [] then [(str "char", jsonString v.GetChar)] else []) ++
  (if v.GetFullname ≠ [] then [(str "fullname", jsonString v.GetFullname)] else []) ++
  (if v.GetShortcode ≠ [] then [(str "shortcode", jsonString v.GetShortcode)] else [])

/-- The names of the 18 default slots in the snapshot (provider.go:184-206). -/
def slotFields : List GoString :=
  [str "DefaultResourceType", str "DefaultResourcePrefix", str "DefaultBasename",
   str "DefaultEnvironment", str "DefaultRegion", str "DefaultInstance",
   str "DefaultOrganization", str "DefaultBusinessUnit", str "DefaultCostCenter",
   str "DefaultProject", str "DefaultApplication", str "DefaultWorkload",
   str "DefaultSubscription", str "DefaultLocation", str "DefaultDomain",
   str "DefaultCriticality", str "DefaultInitiative", str "DefaultSolution"]

/-- The JSON names of the fields of the model (struct tags of
provider.go:181-210). -/
def snapshotFields : List GoString :=
  str "provider_instance_id" :: slotFields ++
    [str "AdditionalComponents", str "AdditionalNamingPatterns"]

/-- The default slot of a given JSON name (struct tags of provider.go:184-206);
any other name gives a null object. -/
def snapshotSlot (m : resourcenamingtoolProviderModel) (field : GoString) :
    ComponentValueObject :=
  if field = str "DefaultResourceType" then m.DefaultResourceType
  else if field = str "DefaultResourcePrefix" then m.DefaultResourcePrefix
  else if field = str "DefaultBasename" then m.DefaultBasename
  else if field = str "DefaultEnvironment" then m.DefaultEnvironment
  else if field = str "DefaultRegion" then m.DefaultRegion
  else if field = str "DefaultInstance" then m.DefaultInstance
  else if field = str "DefaultOrganization" then m.DefaultOrganization
  else if field = str "DefaultBusinessUnit" then m.DefaultBusinessUnit
  else if field = str "DefaultCostCenter" then m.DefaultCostCenter
  else if field = str "DefaultProject" then m.DefaultProject
  else if field = str "DefaultApplication" then m.DefaultApplication
  else if field = str "DefaultWorkload" then m.DefaultWorkload
  else if field = str "DefaultSubscription" then m.DefaultSubscription
  else if field = str "DefaultLocation" then m.DefaultLocation
  else if field = str "DefaultDomain" then m.DefaultDomain
  else if field = str "DefaultCriticality" then m.DefaultCriticality
  else if field = str "DefaultInitiative" then m.DefaultInitiative
  else if field = str "DefaultSolution" then m.DefaultSolution
  else .null

/-- The value stored for an element of `AdditionalComponents`
(provider.go:288-299): a known component object, or the text of a known string;
any other element is left out. -/
def marshalComponentElement : MapElem → Option JsonMember
  | .component c =>
    if c.isKnown then
      some (.object (c.members.map (fun kv => (kv.1, JsonAttr.string kv.2))))
    else none
  | .string (.value s) => some (.string (jsonString s))
  | _ => none

/-- The value stored for an element of `AdditionalNamingPatterns`
(provider.go:304-311): the text of a known string; any other element is left
out. -/
def marshalPatternElement : MapElem → Option JsonMember
  | .string (.value s) => some (.string (jsonString s))
  | _ => none

/-- The members that `json.Marshal` writes for one of the two maps built at
provider.go:286-312: the elements that have a value, sorted by their key, each
key written as a JSON string. -/
def marshalElements (marshalElement : MapElem → Option JsonMember)
    (elements : List (GoString × MapElem)) : List (GoString × JsonMember) :=
  (sortMembers elements).filterMap
    (fun kv => (marshalElement kv.2).map (fun j => (jsonString kv.1, j)))

/-- The value that `resourcenamingtoolProviderModel.MarshalJSON`
(provider.go:214-316) stores in `output` under a name, if any, as
`json.Marshal` writes it. -/
def marshalField (m : resourcenamingtoolProviderModel) (field : GoString) :
    Option JsonField :=
  if field = str "provider_instance_id" then
    match m.ProviderInstanceID with
    | .value s => some (.string (jsonString s))
    | _ => none
  else if field = str "AdditionalComponents" then
    match m.AdditionalComponents with
    | .known elements =>
      some (.object (marshalElements marshalComponentElement elements.entries))
    | _ => none
  else if field = str "AdditionalNamingPatterns" then
    match m.AdditionalNamingPatterns with
    | .known elements =>
      some (.object (marshalElements marshalPatternElement elements.entries))
    | _ => none
  else if field ∈ slotFields then
    if (snapshotSlot m field).isKnown then
      some (.object ((snapshotSlot m field).members.map
        (fun kv => (kv.1, JsonMember.string kv.2))))
    else none
  else none

/-- `resourcenamingtoolProviderModel.MarshalJSON` (provider.go:214-316): the
document spelled by `json.Marshal(output)`, which writes the entries of
`output` sorted by name. -/
def resourcenamingtoolProviderModel.MarshalJSON (m : resourcenamingtoolProviderModel) :
    JsonDoc :=
  sortMembers (snapshotFields.filterMap
    (fun field => (marshalField m field).map (fun j => (field, j))))

/-- The folding under which `json.Unmarshal` matches the name of a member with
the name of a struct field when no field has exactly that name: ASCII letters
are upper-cased, and the two characters outside ASCII that fold to an ASCII
letter, U+017F (bytes `C5 BF`) and U+212A (bytes `E2 84 AA`), become `S` and
`K`.  Every other character outside ASCII folds to a character outside ASCII
and is left as it is here, which makes no difference for a match with the
field names of the model, all ASCII. -/
def foldName : GoString → GoString
  | [] => []
  | 0xC5 :: 0xBF :: rest => 0x53 :: foldName rest
  | 0xE2 :: 0x84 :: 0xAA :: rest => 0x4B :: foldName rest
  | b :: rest => (if 0x61 ≤ b ∧ b ≤ 0x7A then b - 32 else b) :: foldName rest

/-- The values that `json.Unmarshal` stores, one after the other, into the
struct field with the JSON name `field`: those of the members whose name is
the name of the field or folds to it, in the order of the document.  The
folded names of the fields of the model are pairwise different, so a member
goes to one field at most. -/
def fieldMembers (doc : JsonDoc) (field : GoString) : List JsonField :=
  (doc.filter (fun kv => decide (foldName kv.1 = foldName field))).map Prod.snd

/-- The text that `json.Unmarshal` stores in a `map[string]string` for a
member: a string as it is, the empty string for null, and an error (`none`)
for anything else. -/
def stringMember : JsonMember → Option GoString
  | .string s => some s
  | .null => some []
  | _ => none

/-- `ComponentValueObject.UnmarshalJSON` (componentvalue_type.go:312-343) on a
JSON value; `none` is an error.  The members of an object are read into a
`map[string]string`, in which a repeated name keeps the value written last. -/
def unmarshalComponent : JsonField → Option ComponentValueObject
  | .null => some .null
  | .object members =>
    if members.all (fun kv => (stringMember kv.2).isSome) then
      let componentData := rawObject members
      some (.known
        (.value (((mapGet componentData (str "fullname")).bind stringMember).getD []))
        (.value (((mapGet componentData (str "shortcode")).bind stringMember).getD []))
        (.value (((mapGet componentData (str "char")).bind stringMember).getD [])))
    else none
  | _ => none

/-- The value of a default slot after `json.Unmarshal`: `UnmarshalJSON` is
called for every member that goes to the field, an error of any call is the
error of the whole, and the last call decides the value.  Without a member the
field keeps its zero value, which is the null object. -/
def unmarshalSlot (members : List JsonField) : Option ComponentValueObject :=
  members.foldl (fun acc j => acc.bind (fun _ => unmarshalComponent j)) (some .null)

/-- Whether `json.Unmarshal` accepts a value for a field of a framework struct
type without exported fields and without `UnmarshalJSON` (`types.String`,
`types.Map`): null and an object are accepted and leave the field as it is; a
string or any other value is an `UnmarshalTypeError`. -/
def structFieldAccepts : JsonField → Bool
  | .null => true
  | .object _ => true
  | _ => false

/-- `processComponentFromMap` (config_manager.go:225-231) on a member of the
raw `AdditionalComponents` object. -/
def processComponentFromMap (componentMap : List (GoString × JsonAttr)) :
    ComponentValueObject :=
  let part := fun (name : GoString) =>
    match mapGet componentMap name with
    | some (.string s) => s
    | _ => []
  .known (.value (part (str "fullname"))) (.value (part (str "shortcode")))
    (.value (part (str "char")))

/-- One round of the loop over the raw `AdditionalComponents` object
(config_manager.go:486-494): an object member becomes a component, any other
member is logged and left out. -/
def componentMemberStep (elements : GoMap MapElem) (kv : GoString × JsonMember) :
    GoMap MapElem :=
  match kv.2 with
  | .object component =>
    elements.set kv.1 (.component (processComponentFromMap (rawObject component)))
  | _ => elements

/-- The `AdditionalComponents` map rebuilt from the raw document
(config_manager.go:477-499): only a non-empty object is looked at, and only
its object members are kept. -/
def loadAdditionalComponents (doc : JsonDoc) : TfMap :=
  match mapGet (rawObject doc) (str "AdditionalComponents") with
  | some (.object (c :: components)) =>
    .known ((rawObject (c :: components)).foldl componentMemberStep GoMap.empty)
  | _ => .null

/-- One round of the loop over the raw `AdditionalNamingPatterns` object
(config_manager.go:508-513): a string member is kept, any other is left out. -/
def patternMemberStep (elements : GoMap MapElem) (kv : GoString × JsonMember) :
    GoMap MapElem :=
  match kv.2 with
  | .string strVal => elements.set kv.1 (.string (.value strVal))
  | _ => elements

/-- The `AdditionalNamingPatterns` map rebuilt from the raw document
(config_manager.go:501-526): always a known map, holding the string members. -/
def loadAdditionalNamingPatterns (doc : JsonDoc) : TfMap :=
  match mapGet (rawObject doc) (str "AdditionalNamingPatterns") with
  | some (.object patterns) =>
    .known ((rawObject patterns).foldl patternMemberStep GoMap.empty)
  | _ => .known GoMap.empty

/-- The decoding of `loadProviderConfigFromFile` (config_manager.go:463-529):
`json.Unmarshal` into the model through the struct tags, then the two maps
rebuilt from the raw document, in which names are matched exactly.  `none` is
an unmarshal error. -/
def decodeSnapshot (doc : JsonDoc) : Option resourcenamingtoolProviderModel :=
  if (fieldMembers doc (str "provider_instance_id")).all structFieldAccepts &&
      (fieldMembers doc (str "AdditionalComponents")).all structFieldAccepts &&
      (fieldMembers doc (str "AdditionalNamingPatterns")).all structFieldAccepts &&
      slotFields.all (fun field => (unmarshalSlot (fieldMembers doc field)).isSome) then
    let slot := fun (field : GoString) => (unmarshalSlot (fieldMembers doc field)).getD .null
    some
      { ProviderInstanceID := .null
        DefaultResourceType := slot (str "DefaultResourceType")
        DefaultResourcePrefix := slot (str "DefaultResourcePrefix")
        DefaultBasename := slot (str "DefaultBasename")
        DefaultEnvironment := slot (str "DefaultEnvironment")
        DefaultRegion := slot (str "DefaultRegion")
        DefaultInstance := slot (str "DefaultInstance")
        DefaultOrganization := slot (str "DefaultOrganization")
        DefaultBusinessUnit := slot (str "DefaultBusinessUnit")
        DefaultCostCenter := slot (str "DefaultCostCenter")
        DefaultProject := slot (str "DefaultProject")
        DefaultApplication := slot (str "DefaultApplication")
        DefaultWorkload := slot (str "DefaultWorkload")
        DefaultSubscription := slot (str "DefaultSubscription")
        DefaultLocation := slot (str "DefaultLocation")
        DefaultDomain := slot (str "DefaultDomain")
        DefaultCriticality := slot (str "DefaultCriticality")
        DefaultInitiative := slot (str "DefaultInitiative")
        DefaultSolution := slot (str "DefaultSolution")
        AdditionalComponents := loadAdditionalComponents doc
        AdditionalNamingPatterns := loadAdditionalNamingPatterns doc }
  else none

/-- What the claim compares on a component: null-ness, fullname, shortcode and
char. -/
def ComponentValueObject.data (v : ComponentValueObject) :
    Bool × GoString × GoString × GoString :=
  (v.IsNull, v.GetFullname, v.GetShortcode, v.GetChar)

/-- What the claim compares on an element of a map: the text of a known
string, or the data of a component. -/
def MapElem.data : MapElem → Option (GoString ⊕ (Bool × GoString × GoString × GoString))
  | .string (.value s) => some (.inl s)
  | .component c => some (.inr c.data)
  | _ => none

/-- The element kept for a member of the raw `AdditionalNamingPatterns`
object, if any: the reading of `patternMemberStep` as a partial function. -/
def patternMember : JsonMember → Option MapElem
  | .string strVal => some (.string (.value strVal))
  | _ => none

/-- The element kept for a member of the raw `AdditionalComponents` object, if
any: the reading of `componentMemberStep` as a partial function. -/
def componentMember : JsonMember → Option MapElem
  | .object component => some (.component (processComponentFromMap (rawObject component)))
  | _ => none

/-- Assignment of a value when there is one. -/
def GoMap.setOpt {V : Type} (m : GoMap V) (k : GoString) : Option V → GoMap V
  | some v => m.set k v
  | none => m

/-- A snapshot in which the basename slot is unknown. -/
def unknownSlotConfig : resourcenamingtoolProviderModel :=
  { emptyConfig with DefaultBasename := .unknown }

/-- A snapshot whose `AdditionalComponents` holds a flattened string element. -/
def flattenedElementConfig : resourcenamingtoolProviderModel :=
  { emptyConfig with
    AdditionalComponents :=
      .known ⟨[(str "team.fullname", .string (.value (str "platform")))],
        List.nodup_singleton _⟩ }

/-- A snapshot with two default slots, an additional component and a naming
pattern. -/
def sampleSnapshot : resourcenamingtoolProviderModel :=
  { emptyConfig with
    DefaultBasename := componentOf "example" "ex" "e"
    DefaultRegion := .known (.value (str "westeurope")) .null .null
    AdditionalComponents :=
      .known ⟨[(str "team", .component (componentOf "platform" "plt" "p"))],
        List.nodup_singleton _⟩
    AdditionalNamingPatterns :=
      .known ⟨[(str "azurerm_resource_group", .string (.value (str "rg-{basename}")))],
        List.nodup_singleton _⟩ }

/-- The strings of a component object are valid UTF-8. -/
def ComponentValueObject.validUTF8 (v : ComponentValueObject) : Bool :=
  ResourceNamingTool.validUTF8 v.GetFullname && ResourceNamingTool.validUTF8 v.GetShortcode &&
    ResourceNamingTool.validUTF8 v.GetChar

/-- A snapshot whose basename has a full name that is not valid UTF-8: the
single byte `C3`. -/
def invalidTextConfig : resourcenamingtoolProviderModel :=
  { emptyConfig with DefaultBasename := .known (.value [0xC3]) .null .null }

/-- A snapshot with a known instance identifier. -/
def instanceIdConfig : resourcenamingtoolProviderModel :=
  { emptyConfig with ProviderInstanceID := .value (str "abc") }

/-- A document in which the basename is written twice, the first time under a
name in lower case. -/
def repeatedMemberDoc : JsonDoc :=
  [(str "defaultbasename", .object [(str "fullname", .string (str "first"))]),
   (str "DefaultBasename", .object [(str "fullname", .string (str "second")),
     (str "fullname", .string (str "third"))])]

/-! ## The snapshot store -/

/-- The outcome of one call of `fileLock.TryLock`. -/
inductive LockAttempt where
  | acquired
  | busy
  | failed (err : GoString)
  deriving DecidableEq

/-- The lock and file operations of the store, as they appear in a trace. -/
inductive StoreEvent where
  | mkdirAll
  | mutexLock
  | mutexUnlock
  | tryLock (outcome : LockAttempt)
  | fileUnlock
  | stat
  | readFile
  | marshal
  | writeFile
  deriving DecidableEq

/-- The content of the snapshot file: the JSON document that its bytes spell,
or bytes that are not a JSON document. -/
inductive FileContent where
  | document (doc : JsonDoc)
  | malformed

/-- What the operating system answers to one call of a store operation: the
error of `os.MkdirAll`, the outcomes of the successive `TryLock` calls that
fit within `fileLockTimeout` (the timeout strikes when they are used up), the
errors of `os.Stat` (other than absence), `os.ReadFile` and
`json.MarshalIndent`, the error of `os.WriteFile` together with what the
failed write leaves on disk, and the snapshot file (`none` when it does not
exist). -/
structure StoreEnv where
  mkdirError : Option GoString
  lockAttempts : List LockAttempt
  statError : Option GoString
  readError : Option GoString
  marshalError : Option GoString
  writeError : Option (GoString × Option FileContent)
  file : Option FileContent

/-- How a call ends: it returns a value, or it never returns because it waits
for a mutex that the same call holds. -/
inductive Outcome (α : Type) where
  | returned (value : α)
  | blocked

/-- A call of a store operation: its trace, its outcome and the snapshot file
it leaves. -/
structure StoreRun (α : Type) where
  trace : List StoreEvent
  outcome : Outcome α
  file : Option FileContent

/-- `tryLockWithRetries` (config_manager.go:549-584) over the outcomes of the
`TryLock` calls that fit within the timeout: the result `(locked, err)` and the
calls made. -/
def tryLockWithRetries : List LockAttempt → (Bool × Option GoString) × List StoreEvent
  | [] => ((false, none), [])
  | .acquired :: _ => ((true, none), [.tryLock .acquired])
  | .failed err :: _ => ((false, some err), [.tryLock (.failed err)])
  | .busy :: rest =>
    ((tryLockWithRetries rest).1, .tryLock .busy :: (tryLockWithRetries rest).2)

/-- `loadProviderConfigFromFile` (config_manager.go:427-530): the loaded
snapshot, `none` for the nil pointer, and the file operations made. -/
def loadProviderConfigFromFile (env : StoreEnv) :
    Option resourcenamingtoolProviderModel × List StoreEvent :=
  match env.file with
  | none => (none, [.stat])
  | some content =>
    match env.statError with
    | some _ => (none, [.stat])
    | none =>
      match env.readError with
      | some _ => (none, [.stat, .readFile])
      | none =>
        match content with
        | .malformed => (none, [.stat, .readFile])
        | .document doc => (decodeSnapshot doc, [.stat, .readFile])

/-- `GetSharedProviderConfig` (config_manager.go:264-307).  `mutexHeld` tells
whether the caller already holds `globalConfigMutex`. -/
def GetSharedProviderConfig (env : StoreEnv) (mutexHeld : Bool) :
    StoreRun (Option resourcenamingtoolProviderModel) :=
  match env.mkdirError with
  | some _ => ⟨[.mkdirAll], .returned none, env.file⟩
  | none =>
    if mutexHeld then ⟨[.mkdirAll], .blocked, env.file⟩
    else
      match (tryLockWithRetries env.lockAttempts).1 with
      | (_, some _) =>
        ⟨[.mkdirAll, .mutexLock] ++ (tryLockWithRetries env.lockAttempts).2 ++ [.mutexUnlock],
          .returned none, env.file⟩
      | (false, none) =>
        ⟨[.mkdirAll, .mutexLock] ++ (tryLockWithRetries env.lockAttempts).2 ++ [.mutexUnlock],
          .returned none, env.file⟩
      | (true, none) =>
        ⟨[.mkdirAll, .mutexLock] ++ (tryLockWithRetries env.lockAttempts).2 ++
            (loadProviderConfigFromFile env).2 ++ [.fileUnlock, .mutexUnlock],
          .returned (loadProviderConfigFromFile env).1, env.file⟩

/-- `saveProviderConfigToFile` (config_manager.go:350-423); the value returned
is the error, `none` for nil. -/
def saveProviderConfigToFile (env : StoreEnv) (mutexHeld : Bool)
    (config : Option resourcenamingtoolProviderModel) : StoreRun (Option GoString) :=
  match config with
  | none => ⟨[], .returned (some (str "cannot save nil configuration")), env.file⟩
  | some config =>
    match env.mkdirError with
    | some err =>
      ⟨[.mkdirAll], .returned (some (str "failed to create config directory: " ++ err)),
        env.file⟩
    | none =>
      if mutexHeld then ⟨[.mkdirAll], .blocked, env.file⟩
      else
        match (tryLockWithRetries env.lockAttempts).1 with
        | (_, some err) =>
          ⟨[.mkdirAll, .mutexLock] ++ (tryLockWithRetries env.lockAttempts).2 ++
              [.mutexUnlock],
            .returned (some (str "failed to acquire lock: " ++ err)), env.file⟩
        | (false, none) =>
          ⟨[.mkdirAll, .mutexLock] ++ (tryLockWithRetries env.lockAttempts).2 ++
              [.mutexUnlock],
            .returned (some (str "timeout acquiring lock")), env.file⟩
        | (true, none) =>
          match env.marshalError with
          | some err =>
            ⟨[.mkdirAll, .mutexLock] ++ (tryLockWithRetries env.lockAttempts).2 ++
                [.marshal, .fileUnlock, .mutexUnlock],
              .returned (some (str "failed to marshal configuration: " ++ err)), env.file⟩
          | none =>
            match env.writeError with
            | some (err, left) =>
              ⟨[.mkdirAll, .mutexLock] ++ (tryLockWithRetries env.lockAttempts).2 ++
                  [.marshal, .writeFile, .fileUnlock, .mutexUnlock],
                .returned (some err), left⟩
            | none =>
              ⟨[.mkdirAll, .mutexLock] ++ (tryLockWithRetries env.lockAttempts).2 ++
                  [.marshal, .writeFile, .readFile, .fileUnlock, .mutexUnlock],
                .returned none, some (.document config.MarshalJSON)⟩

/-- `SaveSharedProviderConfig` (config_manager.go:311-346): it takes the mutex
and the file lock and then calls `saveProviderConfigToFile`, which takes them
again. -/
def SaveSharedProviderConfig (env : StoreEnv) (mutexHeld : Bool)
    (config : Option resourcenamingtoolProviderModel) : StoreRun (Option GoString) :=
  match env.mkdirError with
  | some err =>
    ⟨[.mkdirAll], .returned (some (str "failed to create config directory: " ++ err)),
      env.file⟩
  | none =>
    if mutexHeld then ⟨[.mkdirAll], .blocked, env.file⟩
    else
      match (tryLockWithRetries env.lockAttempts).1 with
      | (_, some err) =>
        ⟨[.mkdirAll, .mutexLock] ++ (tryLockWithRetries env.lockAttempts).2 ++ [.mutexUnlock],
          .returned (some (str "failed to acquire lock: " ++ err)), env.file⟩
      | (false, none) =>
        ⟨[.mkdirAll, .mutexLock] ++ (tryLockWithRetries env.lockAttempts).2 ++ [.mutexUnlock],
          .returned (some (str "timeout acquiring lock")), env.file⟩
      | (true, none) =>
        match (saveProviderConfigToFile env true config).outcome with
        | .blocked =>
          ⟨[.mkdirAll, .mutexLock] ++ (tryLockWithRetries env.lockAttempts).2 ++
              (saveProviderConfigToFile env true config).trace,
            .blocked, (saveProviderConfigToFile env true config).file⟩
        | .returned err =>
          ⟨[.mkdirAll, .mutexLock] ++ (tryLockWithRetries env.lockAttempts).2 ++
              (saveProviderConfigToFile env true config).trace ++ [.fileUnlock, .mutexUnlock],
            .returned err, (saveProviderConfigToFile env true config).file⟩

/-- `Configure` (provider.go:319-343): the configuration is loaded by a direct
call of `loadProviderConfigFromFile`; a nil result is the error
`Configuration Load Error`. -/
def Configure (env : StoreEnv) : StoreRun (Except Diagnostic resourcenamingtoolProviderModel) :=
  ⟨(loadProviderConfigFromFile env).2,
    .returned
      (match (loadProviderConfigFromFile env).1 with
      | none =>
        .error ⟨str "Configuration Load Error",
          str "Unable to load provider configuration from file. ValidateConfig should have created this file."⟩
      | some config => .ok config),
    env.file⟩

/-- The locks held after a trace, as `(mutex, file lock)`, starting from
`held`. -/
def locksAfter (held : Bool × Bool) : List StoreEvent → Bool × Bool
  | [] => held
  | .mutexLock :: rest => locksAfter (true, held.2) rest
  | .mutexUnlock :: rest => locksAfter (false, held.2) rest
  | .tryLock .acquired :: rest => locksAfter (held.1, true) rest
  | .fileUnlock :: rest => locksAfter (held.1, false) rest
  | _ :: rest => locksAfter held rest

/-- Whether every `ReadFile` and `WriteFile` of a trace happens while both the
mutex and the file lock are held, starting from `held`. -/
def accessesLocked (held : Bool × Bool) : List StoreEvent → Bool
  | [] => true
  | .readFile :: rest => held.1 && held.2 && accessesLocked held rest
  | .writeFile :: rest => held.1 && held.2 && accessesLocked held rest
  | e :: rest => accessesLocked (locksAfter held [e]) rest

/-- An environment in which the directory exists, the first `TryLock`
succeeds, nothing fails and there is no snapshot file. -/
def readyEnv : StoreEnv :=
  { mkdirError := none
    lockAttempts := [.acquired]
    statError := none
    readError := none
    marshalError := none
    writeError := none
    file := none }

/-- The names of the call-time additional components: the groups that the
grouping loop builds, none unless the attribute is a known map. -/
def additionalNames (params : ResourceNamingParametersValue) : List GoString :=
  match mapGet params.Attributes (str "additional_components") with
  | some (.map (.known additionalMap)) =>
    (groupAdditional additionalMap.entries).map Prod.fst
  | _ => []

/-- Call-time parameters whose `additional_components` holds a component named
`x}{basename`. -/
def braceNameParams : ResourceNamingParametersValue :=
  additionalParams
    ⟨[(str "x\x7d\x7bbasename.fullname", .string (.value (str "abc")))],
      List.nodup_singleton _⟩

/-! ## Validation of the provider configuration -/

/-- `attr.Value.IsNull` on an element of a map. -/
def MapElem.IsNull : MapElem → Bool
  | .string .null => true
  | .component .null => true
  | _ => false

/-- The text that `%q` prints for a key made of printable characters without
quote or backslash: the key between double quotes. -/
def quoted (key : GoString) : GoString :=
  34 :: key ++ [34]

/-- The errors of the loop over `AdditionalComponents`
(provider.go:383-409). -/
def validateAdditionalComponents (m : TfMap) : List Diagnostic :=
  m.Elements.flatMap (fun kv =>
    if !(startsWith kv.1 (str "\x7b")) || !(endsWith kv.1 (str "\x7d")) then
      [⟨str "Invalid Component Key Format",
        str "Component key " ++ quoted kv.1 ++
          str " must be wrapped in curly braces, e.g. \x7bcomponent_name\x7d"⟩]
    else if kv.2.IsNull then
      [⟨str "Null Component Value",
        str "Component value for key " ++ quoted kv.1 ++ str " cannot be null"⟩]
    else [])

/-- The errors of the loop over `AdditionalNamingPatterns`
(provider.go:414-443); a pattern without placeholder is a warning only. -/
def validateAdditionalNamingPatterns (m : TfMap) : List Diagnostic :=
  m.Elements.flatMap (fun kv =>
    if kv.2.IsNull then
      [⟨str "Null Pattern Value",
        str "Naming pattern for resource type " ++ quoted kv.1 ++ str " cannot be null"⟩]
    else [])

/-- `validateComponentIfProvided` (provider.go:446-473). -/
def validateComponentIfProvided (comp : ComponentValueObject) (attrName : GoString) :
    List Diagnostic :=
  if comp.IsNull || comp.IsUnknown then []
  else if comp.GetFullname = [] ∧ comp.GetShortcode = [] ∧ comp.GetChar = [] then
    [⟨str "Invalid Component Configuration",
      str "At least one of fullname, shortcode, or char must be provided for " ++ attrName⟩]
  else []

/-- The default slots in the order in which `ValidateConfig` validates them
(provider.go:476-499): the attribute name and the field of the model. -/
def slotAttributes : List (GoString × GoString) :=
  [(str "default_resource_type", str "DefaultResourceType"),
   (str "default_resource_prefix", str "DefaultResourcePrefix"),
   (str "default_basename", str "DefaultBasename"),
   (str "default_environment", str "DefaultEnvironment"),
   (str "default_region", str "DefaultRegion"),
   (str "default_instance", str "DefaultInstance"),
   (str "default_organization", str "DefaultOrganization"),
   (str "default_business_unit", str "DefaultBusinessUnit"),
   (str "default_cost_center", str "DefaultCostCenter"),
   (str "default_project", str "DefaultProject"),
   (str "default_application", str "DefaultApplication"),
   (str "default_workload", str "DefaultWorkload"),
   (str "default_subscription", str "DefaultSubscription"),
   (str "default_location", str "DefaultLocation"),
   (str "default_domain", str "DefaultDomain"),
   (str "default_criticality", str "DefaultCriticality"),
   (str "default_initiative", str "DefaultInitiative"),
   (str "default_solution", str "DefaultSolution")]

/-- The error diagnostics that `ValidateConfig` has collected when it decides
whether to save (provider.go:380-501). -/
def validationErrors (config : resourcenamingtoolProviderModel) : List Diagnostic :=
  validateAdditionalComponents config.AdditionalComponents ++
  validateAdditionalNamingPatterns config.AdditionalNamingPatterns ++
  slotAttributes.flatMap (fun af => validateComponentIfProvided (snapshotSlot config af.2) af.1)

/-- What a call of `ValidateConfig` leaves: the error diagnostics of the
response, the configuration stored in the provider (`none` when the call
stores nothing), the trace of the store and the snapshot file. -/
structure ValidateResult where
  errors : List Diagnostic
  stored : Option resourcenamingtoolProviderModel
  trace : List StoreEvent
  file : Option FileContent

/-- `ValidateConfig` (provider.go:369-526).  `getErrors` are the errors of
`req.Config.Get`. -/
def ValidateConfig (env : StoreEnv) (getErrors : List Diagnostic)
    (config : resourcenamingtoolProviderModel) : ValidateResult :=
  if getErrors ≠ [] then ⟨getErrors, none, [], env.file⟩
  else if validationErrors config ≠ [] then ⟨validationErrors config, none, [], env.file⟩
  else
    match (saveProviderConfigToFile env false (some config)).outcome with
    | .returned (some err) =>
      ⟨[⟨str "Configuration Persistence Error",
          str "Failed to save configuration to file: " ++ err⟩],
        some config, (saveProviderConfigToFile env false (some config)).trace,
        (saveProviderConfigToFile env false (some config)).file⟩
    | _ =>
      ⟨[], some config, (saveProviderConfigToFile env false (some config)).trace,
        (saveProviderConfigToFile env false (some config)).file⟩

/-- A provider configuration whose basename has three empty attributes. -/
def emptyBasenameConfig : resourcenamingtoolProviderModel :=
  { providerConfig with DefaultBasename := componentOf "" "" "" }

/-! ## Two concurrent writes -/

/-- Two calls of `saveProviderConfigToFile` (config_manager.go:350-423) on the
same snapshot path, named `false` and `true`: the bytes of the file, the
holder of the file lock, the holder of `globalConfigMutex` when both calls run
in one process, the events of its trace that each call has still to make, and
whether a call is inside `os.WriteFile`, between the truncation with the first
part of its bytes and the rest. -/
structure WriterState where
  file : GoString
  fileLock : Option Bool
  mutex : Option Bool
  todo : Bool → List StoreEvent
  midWrite : Bool → Bool

/-- The value for one of the two calls replaced. -/
def setFor {α : Type} (f : Bool → α) (w : Bool) (a : α) : Bool → α :=
  fun v => if v = w then a else f v

/-- A write of `bytes` at `offset` into a file: zero bytes fill a gap, and
what the file holds behind the written bytes stays. -/
def overwriteAt (file : GoString) (offset : Nat) (bytes : GoString) : GoString :=
  file.take offset ++ List.replicate (offset - file.length) 0 ++ bytes ++
    file.drop (offset + bytes.length)

/-- One step of call `w`: it makes the next event of its trace when the shared
state allows it, and stays where it is otherwise.  `globalConfigMutex.Lock`
waits while the other call of the same process holds the mutex; a `TryLock`
that acquires needs the file lock to be free, and one that finds it busy needs
it to be taken; `os.WriteFile` truncates the file and writes the first part of
`data w`, then, in a second step, writes the second part at the offset it has
reached, unless the write fails (`fails w`), in which case it stops after the
first part and the call goes on with its deferred unlocks. -/
def writerStep (sameProcess : Bool) (fails : Bool → Bool) (data : Bool → GoString × GoString)
    (s : WriterState) (w : Bool) : WriterState :=
  match s.todo w with
  | [] => s
  | .mutexLock :: rest =>
    if sameProcess then
      match s.mutex with
      | none => { s with mutex := some w, todo := setFor s.todo w rest }
      | some _ => s
    else { s with todo := setFor s.todo w rest }
  | .mutexUnlock :: rest =>
    { s with
      mutex := if s.mutex = some w then none else s.mutex
      todo := setFor s.todo w rest }
  | .tryLock .acquired :: rest =>
    match s.fileLock with
    | none => { s with fileLock := some w, todo := setFor s.todo w rest }
    | some _ => s
  | .tryLock .busy :: rest =>
    match s.fileLock with
    | none => s
    | some _ => { s with todo := setFor s.todo w rest }
  | .fileUnlock :: rest =>
    { s with
      fileLock := if s.fileLock = some w then none else s.fileLock
      todo := setFor s.todo w rest }
  | .writeFile :: rest =>
    if s.midWrite w then
      { s with
        file := overwriteAt s.file (data w).1.length (data w).2
        midWrite := setFor s.midWrite w false
        todo := setFor s.todo w rest }
    else if fails w then
      { s with file := (data w).1, todo := setFor s.todo w rest }
    else
      { s with file := (data w).1, midWrite := setFor s.midWrite w true }
  | _ :: rest => { s with todo := setFor s.todo w rest }

/-- The state reached under a schedule, which names the call that makes the
next step. -/
def runWriters (sameProcess : Bool) (fails : Bool → Bool) (data : Bool → GoString × GoString)
    (s : WriterState) (schedule : List Bool) : WriterState :=
  schedule.foldl (writerStep sameProcess fails data) s

/-- The text of a snapshot cut in two parts. -/
def writtenParts (render : JsonDoc → GoString) (cut : Nat)
    (config : resourcenamingtoolProviderModel) : GoString × GoString :=
  ((render config.MarshalJSON).take cut, (render config.MarshalJSON).drop cut)

/-- Two calls of `saveProviderConfigToFile` about to start, no lock held: each
call has the whole trace of the function before it, for the answers `env w` of
the operating system to that call. -/
def initialWriters (env : Bool → StoreEnv) (config : Bool → resourcenamingtoolProviderModel)
    (file : GoString) : WriterState :=
  { file := file
    fileLock := none
    mutex := none
    todo := fun w => (saveProviderConfigToFile (env w) false (some (config w))).trace
    midWrite := fun _ => false }

/-- The two calls run under a schedule: `render` is the text that
`json.MarshalIndent` gives for a document, `cut w` is where the write of call
`w` is interrupted, and the write of `w` fails when `env w` holds a write
error. -/
def concurrentSaves (sameProcess : Bool) (env : Bool → StoreEnv)
    (config : Bool → resourcenamingtoolProviderModel) (render : JsonDoc → GoString)
    (cut : Bool → Nat) (file : GoString) (schedule : List Bool) : WriterState :=
  runWriters sameProcess (fun w => (env w).writeError.isSome)
    (fun w => writtenParts render (cut w) (config w))
    (initialWriters env config file) schedule

/-- Whether every `WriteFile` of the events still to come happens while the
file lock is held, `held` telling whether it is held now. -/
def writesLocked : Bool → List StoreEvent → Bool
  | _, [] => true
  | held, .writeFile :: rest => held && writesLocked held rest
  | _, .tryLock .acquired :: rest => writesLocked true rest
  | _, .fileUnlock :: rest => writesLocked false rest
  | held, _ :: rest => writesLocked held rest

/-- The invariant of two calls: the writes that a call has still to make
happen under the file lock, given whether it holds the lock now; a call inside
`os.WriteFile` is at a `WriteFile` event and the file holds the first part of
its bytes; and when no call is inside `os.WriteFile` and no write fails, the
file holds the whole bytes of one of the two calls, or it is as it was at the
start and no call has written yet. -/
def WritersInvariant (fails : Bool → Bool) (data : Bool → GoString × GoString)
    (program : Bool → List StoreEvent) (old : GoString) (s : WriterState) : Prop :=
  (∀ w, writesLocked (decide (s.fileLock = some w)) (s.todo w) = true) ∧
  (∀ w, s.midWrite w = true →
    (∃ rest, s.todo w = .writeFile :: rest) ∧ s.file = (data w).1) ∧
  ((∀ w, s.midWrite w = false) → (∀ w, fails w = false) →
    (s.file = (data false).1 ++ (data false).2 ∨ s.file = (data true).1 ++ (data true).2) ∨
    (s.file = old ∧
      ∀ w, (s.todo w).count .writeFile = (program w).count .writeFile))

/-- A stand-in for the text of a document, for concrete runs: the names of its
members one after the other. -/
def memberNames (doc : JsonDoc) : GoString :=
  doc.flatMap Prod.fst

/-- Two snapshots for concrete runs: call `false` saves a basename, call `true`
a region. -/
def twoSnapshots (w : Bool) : resourcenamingtoolProviderModel :=
  if w then { emptyConfig with DefaultRegion := componentOf "westeurope" "we" "w" }
  else { emptyConfig with DefaultBasename := componentOf "example" "ex" "e" }

/-- The answers of the operating system in which the write of call `false`
fails. -/
def failingWriteEnv (w : Bool) : StoreEnv :=
  if w then readyEnv else { readyEnv with writeError := some (str "no space left", none) }

/-- The answers of the operating system in which `TryLock` reports an error to
both calls. -/
def lockErrorEnv (_ : Bool) : StoreEnv :=
  { readyEnv with lockAttempts := [.failed (str "bad descriptor")] }


/-- The argument of the additional components test as the function receives
it (zz_generate_resource_name_function_test.go:44-59). -/
def instanceOverrideSet : List RawElement :=
  [.map ⟨[(str "resource_type", .map
        ⟨[(str "fullname", .string (.value (str "azurerm_resource_group"))),
          (str "shortcode", .string (.value (str "rg"))),
          (str "char", .string (.value (str "r")))], by decide⟩),
      (str "additional_naming_patterns", .map
        ⟨[(str "azurerm_resource_group", .string (.value
            (str "{basename}-{environment:short}-{region:short}-{instance:char}")))],
          by decide⟩),
      (str "additional_components", .map
        ⟨[(str "instance.fullname", .string (.value (str "00002"))),
          (str "instance.shortcode", .string (.value (str "002"))),
          (str "instance.char", .string (.value (str "2")))], by decide⟩)],
    by decide⟩]

/-- A built-in table with one entry, for statements over a given table. -/
def sampleBuiltin : GoMap GoString :=
  ⟨[(str "azurerm_resource_group", str "builtin-{basename}")], List.nodup_singleton _⟩

/-- A call whose `additional_naming_patterns` is a plain object with a pattern
for the resource group. -/
def objectPatternParams : ResourceNamingParametersValue :=
  singleParam (str "additional_naming_patterns")
    (.object (.known ⟨[(str "azurerm_resource_group",
      .string (.value (str "obj-{basename}")))], List.nodup_singleton _⟩))

/-- A call whose `additional_naming_patterns` is a map with a pattern for the
resource group. -/
def mapPatternParams : ResourceNamingParametersValue :=
  singleParam (str "additional_naming_patterns")
    (.map (.known ⟨[(str "azurerm_resource_group",
      .string (.value (str "map-{basename}")))], List.nodup_singleton _⟩))

/-- A call with the environment `staging`/`stg`/`s` and an additional component
named `environment` with the short code `zzz`. -/
def environmentOverrideParams : ResourceNamingParametersValue :=
  .known ⟨[(str "resource_type", .component (.known (.value (str "t")) .null .null)),
    (str "environment", .component (componentOf "staging" "stg" "s")),
    (str "additional_components", .map (.known
      ⟨[(str "environment.shortcode", .string (.value (str "zzz")))],
        List.nodup_singleton _⟩))], by decide⟩

/-- A call with the environment `staging`/`stg`/`s`. -/
def environmentParams : ResourceNamingParametersValue :=
  .known ⟨[(str "resource_type", .component (.known (.value (str "t")) .null .null)),
    (str "environment", .component (componentOf "staging" "stg" "s"))], by decide⟩

/-! ## Lemmas on strings, maps and the substitution loop -/

theorem startsWith_append (p t : GoString) : startsWith (p ++ t) p = true := by
  induction p with
  | nil => cases t <;> simp [startsWith]
  | cons c p ih => simp [startsWith, ih]

theorem replaceAux_skip (old new u t : GoString) :
    replaceAux old new u.length (u ++ t) = replaceAux old new 0 t := by
  induction u with
  | nil => simp
  | cons c u ih => simp [replaceAux, ih]

theorem replaceAux_match (old new t : GoString) (h : old ≠ []) :
    replaceAux old new 0 (old ++ t) = new ++ replaceAux old new 0 t := by
  cases old with
  | nil => exact absurd rfl h
  | cons c old =>
    have hs : startsWith (c :: (old ++ t)) (c :: old) = true := startsWith_append (c :: old) t
    have h2 := replaceAux_skip (c :: old) new old t
    show replaceAux (c :: old) new 0 (c :: (old ++ t)) = _
    rw [replaceAux, if_pos hs]
    simp only [List.length_cons, Nat.add_sub_cancel]
    rw [h2]

theorem replaceAux_nobrace (old new s t : GoString) (hs : lbrace ∉ s) :
    replaceAux (lbrace :: old) new 0 (s ++ t) = s ++ replaceAux (lbrace :: old) new 0 t := by
  induction s with
  | nil => simp
  | cons c s ih =>
    have hc : c ≠ lbrace := fun h => hs (by simp [h])
    have hs' : lbrace ∉ s := fun h => hs (by simp [h])
    simp [replaceAux, startsWith, hc, ih hs']


theorem isToken_shape (k : GoString) (h : isToken k = true) :
    ∃ body, k = lbrace :: (body ++ [rbrace]) ∧ lbrace ∉ body ∧ rbrace ∉ body := by
  cases k with
  | nil => simp [isToken] at h
  | cons c rest =>
    simp only [isToken, Bool.and_eq_true, decide_eq_true_eq] at h
    obtain ⟨⟨⟨hc, hl⟩, h1⟩, h2⟩ := h
    refine ⟨rest.dropLast, ?_, h1, h2⟩
    have hmem : rbrace ∈ rest.getLast? := by rw [hl]; exact rfl
    rw [hc, List.dropLast_append_getLast? rbrace hmem]

theorem token_body_eq (kb tb r : GoString) (hk : rbrace ∉ kb) (ht : rbrace ∉ tb)
    (h : startsWith (tb ++ rbrace :: r) (kb ++ [rbrace]) = true) : kb = tb := by
  induction kb generalizing tb with
  | nil =>
    cases tb with
    | nil => rfl
    | cons b tb =>
      have hb : b ≠ rbrace := fun e => ht (by simp [e])
      simp [startsWith, hb] at h
  | cons a kb ih =>
    have ha : a ≠ rbrace := fun e => hk (by simp [e])
    cases tb with
    | nil => simp [startsWith, Ne.symm ha] at h
    | cons b tb =>
      simp only [List.cons_append, startsWith] at h
      by_cases hab : b = a
      · subst hab
        simp only [if_true] at h
        rw [ih tb (fun e => hk (by simp [e])) (fun e => ht (by simp [e])) h]
      · simp [hab] at h

theorem token_mismatch (K T r : GoString) (hK : isToken K = true) (hT : isToken T = true)
    (hne : T ≠ K) : startsWith (T ++ r) K = false := by
  obtain ⟨kb, rfl, _, hk⟩ := isToken_shape K hK
  obtain ⟨tb, rfl, _, ht⟩ := isToken_shape T hT
  have hform : lbrace :: (tb ++ [rbrace]) ++ r = lbrace :: (tb ++ rbrace :: r) := by simp
  rw [hform]
  cases hsw : startsWith (lbrace :: (tb ++ rbrace :: r)) (lbrace :: (kb ++ [rbrace])) with
  | false => rfl
  | true =>
    exfalso
    simp only [startsWith, if_true] at hsw
    exact hne (by rw [token_body_eq kb tb r hk ht hsw])

theorem replaceAux_flatten (K v : GoString) (hK : isToken K = true) (segs : List Seg)
    (hwf : ∀ seg ∈ segs, seg.WF) :
    replaceAux K v 0 (flatten segs) = flatten (segs.map (Seg.subst [(K, v)])) := by
  obtain ⟨kb, hKeq, _, _⟩ := isToken_shape K hK
  induction segs with
  | nil => simp [flatten, replaceAux]
  | cons seg rest ih =>
    have ihr := ih (fun s hs => hwf s (List.mem_cons_of_mem _ hs))
    have hseg := hwf seg (List.mem_cons_self _ _)
    cases seg with
    | lit s =>
      have hs : lbrace ∉ s := hseg
      simp only [flatten, Seg.text, List.map_cons, Seg.subst]
      rw [← ihr, hKeq, replaceAux_nobrace _ _ _ _ hs]
    | tok T =>
      have hT : isToken T = true := hseg
      by_cases hTK : T = K
      · subst hTK
        have hne : T ≠ [] := by rw [hKeq]; simp
        simp only [flatten, Seg.text, List.map_cons, Seg.subst, mapGet, if_true]
        rw [replaceAux_match _ _ _ hne, ihr]
      · have hKT : ¬ K = T := fun e => hTK e.symm
        obtain ⟨tb, hTeq, htl, _⟩ := isToken_shape T hT
        have hmis := token_mismatch K T (flatten rest) hK hT hTK
        simp only [flatten, Seg.text, List.map_cons, Seg.subst, mapGet, if_neg hKT]
        rw [← ihr]
        have hnb : lbrace ∉ tb ++ [rbrace] := by
          simp only [List.mem_append, List.mem_singleton, not_or]
          exact ⟨htl, by decide⟩
        have h1 : replaceAux K v 0 (T ++ flatten rest)
            = lbrace :: replaceAux K v 0 ((tb ++ [rbrace]) ++ flatten rest) := by
          rw [hTeq] at hmis ⊢
          show replaceAux K v 0 (lbrace :: ((tb ++ [rbrace]) ++ flatten rest)) = _
          rw [replaceAux]
          simp only [List.cons_append] at hmis
          rw [hmis]
          simp
        rw [h1, hKeq, replaceAux_nobrace _ _ _ _ hnb, hTeq]
        simp


theorem subst_WF (K v : GoString) (hv : lbrace ∉ v) (seg : Seg) (h : seg.WF) :
    (Seg.subst [(K, v)] seg).WF := by
  cases seg with
  | lit s => exact h
  | tok T =>
    by_cases hKT : K = T
    · simp only [Seg.subst, mapGet, if_pos hKT]; exact hv
    · simp only [Seg.subst, mapGet, if_neg hKT]; exact h

theorem subst_cons (K v : GoString) (entries : List (GoString × GoString)) (seg : Seg) :
    Seg.subst entries (Seg.subst [(K, v)] seg) = Seg.subst ((K, v) :: entries) seg := by
  cases seg with
  | lit s => rfl
  | tok T =>
    by_cases hKT : K = T
    · simp [Seg.subst, mapGet, hKT]
    · simp [Seg.subst, mapGet, hKT]

/-- Substitution over a segmented template: when every key is a brace token
and no value contains an opening brace, the successive replacements amount to
the simultaneous substitution of the tokens. -/
theorem substitute_flatten (entries : List (GoString × GoString)) (segs : List Seg)
    (hwf : ∀ seg ∈ segs, seg.WF)
    (hent : ∀ kv ∈ entries, isToken kv.1 = true ∧ lbrace ∉ kv.2) :
    substitute (flatten segs) entries = flatten (segs.map (Seg.subst entries)) := by
  induction entries generalizing segs with
  | nil =>
    have : segs.map (Seg.subst []) = segs := by
      induction segs with
      | nil => rfl
      | cons seg rest ih =>
        rw [List.map_cons, ih (fun s hs => hwf s (List.mem_cons_of_mem _ hs))]
        cases seg <;> rfl
    rw [this]; rfl
  | cons kv rest ih =>
    obtain ⟨K, v⟩ := kv
    obtain ⟨hK, hv⟩ := hent (K, v) (List.mem_cons_self _ _)
    have hKne : K ≠ [] := by
      obtain ⟨kb, hKeq, _, _⟩ := isToken_shape K hK
      rw [hKeq]; simp
    have hstep : substitute (flatten segs) ((K, v) :: rest)
        = substitute (replaceAux K v 0 (flatten segs)) rest := by
      simp [substitute, replaceAll, hKne]
    rw [hstep, replaceAux_flatten K v hK segs hwf,
      ih (segs.map (Seg.subst [(K, v)]))
        (by
          intro seg hseg
          obtain ⟨seg0, h0, rfl⟩ := List.mem_map.1 hseg
          exact subst_WF K v hv seg0 (hwf seg0 h0))
        (fun kv hkv => hent kv (List.mem_cons_of_mem _ hkv))]
    rw [List.map_map]
    congr 1
    apply List.map_congr_left
    intro seg _
    exact subst_cons K v rest seg

theorem mapGet_eq_some_iff {V : Type} (l : List (GoString × V)) (hnd : (l.map Prod.fst).Nodup)
    (k : GoString) (v : V) : mapGet l k = some v ↔ (k, v) ∈ l := by
  induction l with
  | nil => simp [mapGet]
  | cons kv rest ih =>
    obtain ⟨k0, v0⟩ := kv
    simp only [List.map_cons, List.nodup_cons] at hnd
    by_cases hk : k0 = k
    · subst hk
      simp only [mapGet, if_true, Option.some.injEq, List.mem_cons, Prod.mk.injEq, true_and]
      constructor
      · intro h; exact Or.inl h.symm
      · rintro (h | h)
        · exact h.symm
        · exact absurd (List.mem_map_of_mem Prod.fst h) hnd.1
    · simp only [mapGet, if_neg hk, List.mem_cons, Prod.mk.injEq]
      rw [ih hnd.2]
      constructor
      · intro h; exact Or.inr h
      · rintro (h | h)
        · exact absurd h.1.symm hk
        · exact h

theorem mapGet_perm {V : Type} (l l' : List (GoString × V)) (hp : l'.Perm l)
    (hnd : (l.map Prod.fst).Nodup) (k : GoString) : mapGet l' k = mapGet l k := by
  have hnd' : (l'.map Prod.fst).Nodup := (hp.map Prod.fst).nodup_iff.2 hnd
  apply Option.ext
  intro v
  simp only [Option.mem_def]
  rw [mapGet_eq_some_iff l' hnd', mapGet_eq_some_iff l hnd]
  exact hp.mem_iff

theorem subst_perm (l l' : List (GoString × GoString)) (hp : l'.Perm l)
    (hnd : (l.map Prod.fst).Nodup) (segs : List Seg) :
    segs.map (Seg.subst l') = segs.map (Seg.subst l) := by
  apply List.map_congr_left
  intro seg _
  cases seg with
  | lit s => rfl
  | tok T => simp only [Seg.subst, mapGet_perm l l' hp hnd T]

theorem contains_singleton (s : GoString) (c : Nat) : contains s [c] = true ↔ c ∈ s := by
  induction s with
  | nil => simp [contains, startsWith]
  | cons a s ih =>
    by_cases h : a = c
    · simp [contains, startsWith, h]
    · have h' : ¬ c = a := fun e => h e.symm
      simp [contains, startsWith, h, h', ih]

theorem validateResult_ok (result : GoString) (hb : lbrace ∉ result)
    (h3 : 3 ≤ result.length) (h90 : result.length ≤ 90) :
    validateResult result = (result, []) := by
  have hc : contains result (str "\x7b") = false := by
    have : str "\x7b" = [lbrace] := by decide
    rw [this]
    cases h : contains result [lbrace] with
    | false => rfl
    | true => exact absurd ((contains_singleton _ _).1 h) hb
  have hne : result ≠ [] := by
    intro e; rw [e] at h3; simp at h3
  simp only [validateResult, hc, hne, if_false, Bool.false_eq_true]
  rw [if_neg (by omega), if_neg (by omega)]


theorem foldl_guard {α β : Type} (p : α → Bool) (f : β → α → β) (l : List α) (init : β) :
    l.foldl (fun acc x => if p x = true then f acc x else acc) init
      = (l.filter p).foldl f init := by
  induction l generalizing init with
  | nil => rfl
  | cons a l ih =>
    by_cases h : p a = true
    · simp [List.filter, h, ih]
    · simp [List.filter, h, ih]

theorem foldl_nested {α β γ : Type} (g : α → List γ) (f : β → γ → β) (l : List α) (init : β) :
    l.foldl (fun acc x => (g x).foldl f acc) init = (l.flatMap g).foldl f init := by
  induction l generalizing init with
  | nil => rfl
  | cons a l ih => simp [List.flatMap_cons, List.foldl_append, ih]

theorem fixedPlaceholders_eq (params : ResourceNamingParametersValue)
    (config : resourcenamingtoolProviderModel) (pattern : GoString) :
    fixedPlaceholders params config pattern
      = (foundPlaceholders pattern).foldl (placeholderStep params config) [] := by
  unfold foundPlaceholders allPlaceholders
  rw [← foldl_guard, ← foldl_nested]
  unfold fixedPlaceholders
  congr 1
  funext placeholders compType
  rw [List.foldl_map]
  rfl


theorem mapGet_mapSet {V : Type} (m : List (GoString × V)) (k k' : GoString) (v : V) :
    mapGet (mapSet m k v) k' = if k = k' then some v else mapGet m k' := by
  induction m with
  | nil => simp [mapSet, mapGet]
  | cons kv rest ih =>
    obtain ⟨k0, v0⟩ := kv
    by_cases h0 : k0 = k
    · subst h0
      by_cases h1 : k0 = k' <;> simp [mapSet, mapGet, h1]
    · by_cases h1 : k0 = k'
      · subst h1
        have : ¬ k = k0 := fun e => h0 e.symm
        simp [mapSet, mapGet, h0, this]
      · simp [mapSet, mapGet, h0, h1, ih]

theorem mapGet_none_of_not_mem {V : Type} (l : List (GoString × V)) (k : GoString)
    (h : k ∉ l.map Prod.fst) : mapGet l k = none := by
  induction l with
  | nil => rfl
  | cons kv rest ih =>
    obtain ⟨k0, v0⟩ := kv
    simp only [List.map_cons, List.mem_cons, not_or] at h
    have : ¬ k0 = k := fun e => h.1 e.symm
    simp [mapGet, this, ih h.2]

theorem mapGet_addPatterns (elements : List (GoString × MapElem))
    (hnd : (elements.map Prod.fst).Nodup) (patternElements : List (GoString × GoString))
    (k : GoString) :
    mapGet (addPatterns patternElements elements) k =
      match mapGet elements k with
      | some (.string (.value s)) => some s
      | _ => mapGet patternElements k := by
  induction elements generalizing patternElements with
  | nil => rfl
  | cons kv rest ih =>
    obtain ⟨k0, e0⟩ := kv
    simp only [List.map_cons, List.nodup_cons] at hnd
    have hstep : addPatterns patternElements ((k0, e0) :: rest)
        = addPatterns (match e0 with
            | .string (.value s) => mapSet patternElements k0 s
            | _ => patternElements) rest := rfl
    rw [hstep, ih hnd.2]
    by_cases hk : k0 = k
    · subst hk
      rw [mapGet_none_of_not_mem rest k0 hnd.1]
      simp only [mapGet, if_true]
      cases e0 with
      | string s => cases s <;> simp [mapGet_mapSet]
      | component c => rfl
      | other t => rfl
    · simp only [mapGet, if_neg hk]
      have : (mapGet (match e0 with
            | .string (.value s) => mapSet patternElements k0 s
            | _ => patternElements) k) = mapGet patternElements k := by
        cases e0 with
        | string s => cases s <;> simp [mapGet_mapSet, hk]
        | component c => rfl
        | other t => rfl
      rw [this]

theorem mapGet_copy {V : Type} (entries : List (GoString × V))
    (hnd : (entries.map Prod.fst).Nodup) (init : List (GoString × V)) (k : GoString) :
    mapGet (entries.foldl (fun acc kv => mapSet acc kv.1 kv.2) init) k =
      match mapGet entries k with
      | some v => some v
      | none => mapGet init k := by
  induction entries generalizing init with
  | nil => rfl
  | cons kv rest ih =>
    obtain ⟨k0, v0⟩ := kv
    simp only [List.map_cons, List.nodup_cons] at hnd
    rw [List.foldl_cons, ih hnd.2]
    by_cases hk : k0 = k
    · subst hk
      rw [mapGet_none_of_not_mem rest k0 hnd.1]
      simp [mapGet, mapGet_mapSet]
    · simp [mapGet, mapGet_mapSet, hk]

theorem mapGet_providerPatterns (builtin : GoMap GoString)
    (config : resourcenamingtoolProviderModel) (k : GoString) :
    mapGet (providerPatterns builtin config) k = persistedOrBuiltin builtin config k := by
  have hb : mapGet (builtin.entries.foldl (fun acc kv => mapSet acc kv.1 kv.2) []) k
      = builtin.lookup k := by
    rw [mapGet_copy _ builtin.nodup]
    unfold GoMap.lookup
    cases mapGet builtin.entries k <;> rfl
  unfold providerPatterns persistedOrBuiltin patternEntry
  cases hcfg : config.AdditionalNamingPatterns with
  | null => exact hb
  | unknown => exact hb
  | known m =>
    simp only [GoMap.lookup]
    rw [mapGet_addPatterns _ m.nodup, hb]
    cases hm : mapGet m.entries k with
    | none => rfl
    | some e =>
      cases e with
      | string s => cases s <;> rfl
      | component c => rfl
      | other t => rfl

theorem mapGet_objectPatternElements (l : List (GoString × MapElem))
    (hnd : (l.map Prod.fst).Nodup) (init : GoMap MapElem) (k : GoString) :
    mapGet (l.foldl objectPatternStep init).entries k =
      match mapGet l k with
      | some (.string s) => some (.string s)
      | _ => mapGet init.entries k := by
  induction l generalizing init with
  | nil => rfl
  | cons kv rest ih =>
    obtain ⟨k0, v0⟩ := kv
    simp only [List.map_cons, List.nodup_cons] at hnd
    rw [List.foldl_cons, ih hnd.2]
    by_cases hk : k0 = k
    · subst hk
      rw [mapGet_none_of_not_mem rest k0 hnd.1]
      cases v0 with
      | string s => simp [mapGet, objectPatternStep, GoMap.set, mapGet_mapSet]
      | component c => simp [mapGet, objectPatternStep]
      | other t => simp [mapGet, objectPatternStep]
    · have hinit : mapGet (objectPatternStep init (k0, v0)).entries k
          = mapGet init.entries k := by
        cases v0 with
        | string s => simp [objectPatternStep, GoMap.set, mapGet_mapSet, hk]
        | component c => rfl
        | other t => rfl
      rw [hinit]
      simp [mapGet, hk]

/-- The getter of the code hands the loop the entries that the caller passed:
for every key, the known string read from the map returned by
`GetAdditionalNamingPatterns` is the known string under that key in the
`additional_naming_patterns` attribute, be it a map or a plain object. -/
theorem patternEntry_returnedPatterns (params : ResourceNamingParametersValue)
    (k : GoString) :
    patternEntry (returnedPatterns params) k = patternEntry (callTimePatterns params) k := by
  unfold returnedPatterns callTimePatterns
    ResourceNamingParametersValue.GetAdditionalNamingPatterns
  cases params with
  | null => rfl
  | unknown => rfl
  | known attrs =>
    simp only [ResourceNamingParametersValue.Attributes, GoMap.lookup]
    cases h : mapGet attrs.entries (str "additional_naming_patterns") with
    | none => rfl
    | some a =>
      cases a with
      | component c => rfl
      | map m => rfl
      | other t => rfl
      | object o =>
        cases o with
        | null => rfl
        | unknown => rfl
        | known oa =>
          simp only [TfObject.Attributes, patternEntry, GoMap.lookup, objectPatternElements]
          rw [mapGet_objectPatternElements oa.entries oa.nodup]
          cases mapGet oa.entries k with
          | none => rfl
          | some e =>
            cases e with
            | string s => cases s <;> rfl
            | component c => rfl
            | other t => rfl

theorem mapGet_consolidatedPatterns (builtin : GoMap GoString)
    (params : ResourceNamingParametersValue) (config : resourcenamingtoolProviderModel)
    (resourceTypeFull k : GoString) :
    mapGet (consolidatedPatterns builtin params config resourceTypeFull) k
      = patternByPrecedence builtin params config k := by
  have hc := mapGet_providerPatterns builtin config k
  unfold consolidatedPatterns patternByPrecedence
  rw [← patternEntry_returnedPatterns]
  unfold returnedPatterns
  simp only []
  generalize providerPatterns builtin config = C at hc ⊢
  generalize persistedOrBuiltin builtin config k = P at hc ⊢
  cases hp : params.GetAdditionalNamingPatterns with
  | error d => exact hc
  | ok m =>
    cases m with
    | null => exact hc
    | unknown => exact hc
    | known am =>
      have hgen : mapGet (addPatterns C am.entries) k
          = match patternEntry (.known am) k with
            | some p => some p
            | none => P := by
        rw [mapGet_addPatterns am.entries am.nodup, hc]
        simp only [patternEntry, GoMap.lookup]
        cases hm : mapGet am.entries k with
        | none => rfl
        | some e =>
          cases e with
          | string s => cases s <;> rfl
          | component c => rfl
          | other t => rfl
      simp only [GoMap.lookup]
      cases hrt : mapGet am.entries resourceTypeFull with
      | none => exact hgen
      | some e =>
        cases e with
        | component c => exact hgen
        | other t => exact hgen
        | string s =>
          cases s with
          | null => exact hgen
          | unknown => exact hgen
          | value p =>
            simp only []
            rw [mapGet_mapSet]
            by_cases hk : resourceTypeFull = k
            · subst hk
              simp [patternEntry, GoMap.lookup, hrt]
            · rw [if_neg hk]; exact hgen


theorem defaultValue_short (d : ComponentValueObject) (h : d.GetShortcode ≠ []) :
    defaultValue d .short = d.GetShortcode := by
  cases d with
  | null => exact absurd rfl h
  | unknown => exact absurd rfl h
  | known f s c => simp only [defaultValue, ComponentValueObject.IsNull]; simp [h]

theorem defaultValue_char (d : ComponentValueObject) (h : d.GetChar ≠ []) :
    defaultValue d .char = d.GetChar := by
  cases d with
  | null => exact absurd rfl h
  | unknown => exact absurd rfl h
  | known f s c => simp only [defaultValue, ComponentValueObject.IsNull]; simp [h]

theorem resolvePlaceholder_default (params : ResourceNamingParametersValue)
    (config : resourcenamingtoolProviderModel) (name placeholder : GoString)
    (valueType : Format) (hp : params.GetComponentValue name = .ok .null) :
    resolvePlaceholder params config name valueType placeholder =
      if defaultValue (defaultComponent config name) (placeholderFormat valueType placeholder) = []
      then none
      else some (defaultValue (defaultComponent config name)
        (placeholderFormat valueType placeholder)) := by
  unfold resolvePlaceholder
  rw [hp]
  have hct : ∀ f, callTimeValue .null f = [] := by intro f; cases f <;> rfl
  simp only [hct, if_true]
  split <;> simp_all

/-- The pipeline of `generateForType` on a segmented template: when the
placeholder map consists of brace tokens with brace-free values, the name is
the simultaneous substitution of the tokens, whatever the iteration order. -/
theorem generateForType_segments (builtin : GoMap GoString) (order : RangeOrder)
    (params : ResourceNamingParametersValue) (config : resourcenamingtoolProviderModel)
    (k pattern : GoString) (segs : List Seg) (P : List (GoString × GoString))
    (hpat : patternByPrecedence builtin params config k = some pattern)
    (hseg : pattern = flatten segs) (hwf : ∀ seg ∈ segs, seg.WF)
    (hP : additionalPlaceholders order params (fixedPlaceholders params config pattern) = P)
    (hnd : (P.map Prod.fst).Nodup)
    (hent : ∀ kv ∈ P, isToken kv.1 = true ∧ lbrace ∉ kv.2) :
    generateForType builtin order params config k
      = validateResult (flatten (segs.map (Seg.subst P))) := by
  have hperm := order.placeholders_perm P
  unfold generateForType
  rw [mapGet_consolidatedPatterns, hpat]
  simp only [hP]
  rw [hseg, substitute_flatten _ _ hwf, subst_perm _ _ hperm hnd]
  intro kv hkv
  exact hent kv (hperm.mem_iff.1 hkv)

theorem additionalPlaceholders_none (order : RangeOrder) (params : ResourceNamingParametersValue)
    (P : List (GoString × GoString))
    (h : mapGet params.Attributes (str "additional_components") = none) :
    additionalPlaceholders order params P = P := by
  unfold additionalPlaceholders
  rw [h]

theorem effectiveResourceType_default (params : ResourceNamingParametersValue)
    (config : resourcenamingtoolProviderModel) (comp : ComponentValueObject)
    (hcomp : params.GetComponentValue (str "resource_type") = .ok comp)
    (hempty : comp.GetFullname = []) (hdef : config.DefaultResourceType.GetFullname ≠ []) :
    effectiveResourceType params config = .ok config.DefaultResourceType.GetFullname := by
  unfold effectiveResourceType
  rw [hcomp]
  simp [hempty, hdef]

theorem effectiveResourceType_callTime (params : ResourceNamingParametersValue)
    (config : resourcenamingtoolProviderModel) (comp : ComponentValueObject)
    (hcomp : params.GetComponentValue (str "resource_type") = .ok comp)
    (hne : comp.GetFullname ≠ []) :
    effectiveResourceType params config = .ok comp.GetFullname := by
  unfold effectiveResourceType
  rw [hcomp]
  simp [hne]

theorem patternByPrecedence_persisted (builtin : GoMap GoString)
    (params : ResourceNamingParametersValue) (config : resourcenamingtoolProviderModel)
    (patterns : GoMap MapElem) (k pattern : GoString)
    (hnopat : params.GetAdditionalNamingPatterns = .ok .null)
    (hPatterns : config.AdditionalNamingPatterns = .known patterns)
    (hPattern : patterns.lookup k = some (.string (.value pattern))) :
    patternByPrecedence builtin params config k = some pattern := by
  have hret : patternEntry (callTimePatterns params) k = none := by
    rw [← patternEntry_returnedPatterns]
    simp [returnedPatterns, hnopat, patternEntry]
  unfold patternByPrecedence persistedOrBuiltin
  rw [hret]
  simp [patternEntry, hPatterns, hPattern]

/-! ## The scenarios of the test suite -/

/-- Resolution of the resource group pattern from provider defaults, for any
parameter object that carries no component, pattern or additional component of
its own. -/
theorem generate_resource_group_aux (order : RangeOrder)
    (params : ResourceNamingParametersValue)
    (config : resourcenamingtoolProviderModel) (patterns : GoMap MapElem)
    (k b e r : GoString)
    (hkey : effectiveResourceType params config = .ok k)
    (hnopat : params.GetAdditionalNamingPatterns = .ok .null)
    (hpb : params.GetComponentValue (str "basename") = .ok .null)
    (hpe : params.GetComponentValue (str "environment") = .ok .null)
    (hpr : params.GetComponentValue (str "region") = .ok .null)
    (hnoadd : mapGet params.Attributes (str "additional_components") = none)
    (hPatterns : config.AdditionalNamingPatterns = .known patterns)
    (hPattern : patterns.lookup k
      = some (.string (.value (str "rg-{basename}-{environment:short}-{region:short}"))))
    (hb : config.DefaultBasename.GetFullname = b)
    (he : config.DefaultEnvironment.GetShortcode = e)
    (hr : config.DefaultRegion.GetShortcode = r)
    (hb0 : b ≠ []) (he0 : e ≠ []) (hr0 : r ≠ [])
    (hbb : lbrace ∉ b) (heb : lbrace ∉ e) (hrb : lbrace ∉ r)
    (h3 : 3 ≤ (str "rg-" ++ b ++ str "-" ++ e ++ str "-" ++ r).length)
    (h90 : (str "rg-" ++ b ++ str "-" ++ e ++ str "-" ++ r).length ≤ 90) :
    generateResourceName order params config
      = (str "rg-" ++ b ++ str "-" ++ e ++ str "-" ++ r, []) := by
  have hfound : foundPlaceholders (str "rg-{basename}-{environment:short}-{region:short}")
      = [(str "basename", .full, str "{basename}"),
         (str "environment", .full, str "{environment:short}"),
         (str "region", .full, str "{region:short}")] := by decide
  have hseg : str "rg-{basename}-{environment:short}-{region:short}"
      = flatten [.lit (str "rg-"), .tok (str "{basename}"), .lit (str "-"),
          .tok (str "{environment:short}"), .lit (str "-"), .tok (str "{region:short}")] := by
    decide
  have hf1 : placeholderFormat .full (str "{basename}") = .full := by decide
  have hf2 : placeholderFormat .full (str "{environment:short}") = .short := by decide
  have hf3 : placeholderFormat .full (str "{region:short}") = .short := by decide
  have hd1 : defaultComponent config (str "basename") = config.DefaultBasename := rfl
  have hd2 : defaultComponent config (str "environment") = config.DefaultEnvironment := rfl
  have hd3 : defaultComponent config (str "region") = config.DefaultRegion := rfl
  have hr1 : resolvePlaceholder params config (str "basename") .full (str "{basename}")
      = some b := by
    rw [resolvePlaceholder_default _ _ _ _ _ hpb, hf1, hd1]
    simp [defaultValue, hb, hb0]
  have hr2 : resolvePlaceholder params config (str "environment") .full
      (str "{environment:short}") = some e := by
    rw [resolvePlaceholder_default _ _ _ _ _ hpe, hf2, hd2,
      defaultValue_short _ (by rw [he]; exact he0)]
    simp [he, he0]
  have hr3 : resolvePlaceholder params config (str "region") .full (str "{region:short}")
      = some r := by
    rw [resolvePlaceholder_default _ _ _ _ _ hpr, hf3, hd3,
      defaultValue_short _ (by rw [hr]; exact hr0)]
    simp [hr, hr0]
  have hn12 : ¬ str "{basename}" = str "{environment:short}" := by decide
  have hn13 : ¬ str "{basename}" = str "{region:short}" := by decide
  have hn23 : ¬ str "{environment:short}" = str "{region:short}" := by decide
  have hfixed : additionalPlaceholders order params (fixedPlaceholders params config
      (str "rg-{basename}-{environment:short}-{region:short}"))
      = [(str "{basename}", b), (str "{environment:short}", e), (str "{region:short}", r)] := by
    rw [additionalPlaceholders_none _ _ _ hnoadd, fixedPlaceholders_eq, hfound]
    simp [placeholderStep, hr1, hr2, hr3, mapSet, hn12, hn13, hn23]
  unfold generateResourceName
  rw [hkey]
  simp only []
  rw [generateForType_segments _ order params config k _ _ _
    (patternByPrecedence_persisted _ _ _ _ _ _ hnopat hPatterns hPattern) hseg ?_ hfixed ?_ ?_]
  · have hsub : flatten (List.map (Seg.subst
        [(str "{basename}", b), (str "{environment:short}", e), (str "{region:short}", r)])
        [.lit (str "rg-"), .tok (str "{basename}"), .lit (str "-"),
          .tok (str "{environment:short}"), .lit (str "-"), .tok (str "{region:short}")])
        = str "rg-" ++ b ++ str "-" ++ e ++ str "-" ++ r := by
      simp [Seg.subst, mapGet, flatten, Seg.text, hn12, hn13, hn23]
    rw [hsub]
    apply validateResult_ok _ _ h3 h90
    have h1 : lbrace ∉ str "rg-" := by decide
    have h2 : lbrace ∉ str "-" := by decide
    simp only [List.mem_append, not_or]
    exact ⟨⟨⟨⟨⟨h1, hbb⟩, h2⟩, heb⟩, h2⟩, hrb⟩
  · intro seg hseg
    simp only [List.mem_cons, List.mem_singleton, List.not_mem_nil, or_false] at hseg
    rcases hseg with h | h | h | h | h | h <;> subst h <;>
      first | (show lbrace ∉ _; decide) | (show isToken _ = true; decide)
  · simp [hn12, hn13, hn23]
  · intro kv hkv
    simp only [List.mem_cons, List.mem_singleton, List.not_mem_nil, or_false] at hkv
    rcases hkv with h | h | h <;> subst h
    · exact ⟨(by decide : isToken (str "{basename}") = true), hbb⟩
    · exact ⟨(by decide : isToken (str "{environment:short}") = true), heb⟩
    · exact ⟨(by decide : isToken (str "{region:short}") = true), hrb⟩

/-- C1. With the basename full name `b`, the environment shortcode `e` and the
region shortcode `r` supplied as persisted defaults (non-empty, without an
opening brace), an empty call-time parameter set, and the persisted resource
type mapped to the pattern `rg-{basename}-{environment:short}-{region:short}`,
`generateResourceName` returns exactly `rg-b-e-r` and no error whenever that
string is 3 to 90 bytes long, for every iteration order of the placeholder map.
The empty parameter set is taken both as the empty object and as the object
that `Run` passes on, which carries the default resource type. -/
theorem generateResourceName_resource_group (order : RangeOrder)
    (config : resourcenamingtoolProviderModel) (patterns : GoMap MapElem)
    (b e r : GoString)
    (hType : config.DefaultResourceType.GetFullname ≠ [])
    (hPatterns : config.AdditionalNamingPatterns = .known patterns)
    (hPattern : patterns.lookup config.DefaultResourceType.GetFullname
      = some (.string (.value (str "rg-{basename}-{environment:short}-{region:short}"))))
    (hb : config.DefaultBasename.GetFullname = b)
    (he : config.DefaultEnvironment.GetShortcode = e)
    (hr : config.DefaultRegion.GetShortcode = r)
    (hb0 : b ≠ []) (he0 : e ≠ []) (hr0 : r ≠ [])
    (hbb : lbrace ∉ b) (heb : lbrace ∉ e) (hrb : lbrace ∉ r)
    (h3 : 3 ≤ (str "rg-" ++ b ++ str "-" ++ e ++ str "-" ++ r).length)
    (h90 : (str "rg-" ++ b ++ str "-" ++ e ++ str "-" ++ r).length ≤ 90) :
    generateResourceName order (.known .empty) config
        = (str "rg-" ++ b ++ str "-" ++ e ++ str "-" ++ r, []) ∧
      generateResourceName order
          (singleParam (str "resource_type") (.component config.DefaultResourceType)) config
        = (str "rg-" ++ b ++ str "-" ++ e ++ str "-" ++ r, []) := by
  constructor
  · exact generate_resource_group_aux order _ config patterns _ b e r
      (effectiveResourceType_default _ _ .null rfl rfl hType) rfl rfl rfl rfl rfl
      hPatterns hPattern hb he hr hb0 he0 hr0 hbb heb hrb h3 h90
  · exact generate_resource_group_aux order _ config patterns _ b e r
      (effectiveResourceType_callTime _ _ config.DefaultResourceType rfl hType) rfl rfl rfl rfl rfl
      hPatterns hPattern hb he hr hb0 he0 hr0 hbb heb hrb h3 h90

/-- C1, the scenario of the test suite: `example` / `prd` / `we` gives
`rg-example-prd-we`. -/
theorem generateResourceName_resource_group_witness :
    generateResourceName RangeOrder.reversed (.known .empty) providerConfig
        = (str "rg-example-prd-we", []) ∧
      generateResourceName RangeOrder.reversed
          (singleParam (str "resource_type") (.component providerConfig.DefaultResourceType))
          providerConfig
        = (str "rg-example-prd-we", []) :=
  generateResourceName_resource_group RangeOrder.reversed providerConfig testNamingPatterns
    (str "example") (str "prd") (str "we") (by decide) rfl (by decide) (by decide) (by decide)
    (by decide) (by decide) (by decide) (by decide) (by decide) (by decide) (by decide)
    (by decide) (by decide)


/-- C2. With the basename full name `b`, the environment char `ec`, the region
char `rc` and the instance full name `i` supplied as persisted defaults
(non-empty, without an opening brace), and the pattern
`{basename}{environment:char}{region:char}{instance}` selected by a call-time
`resource_type.fullname`, `generateResourceName` returns exactly `b ec rc i`
concatenated and no error whenever that string is 3 to 90 bytes long, for every
iteration order of the placeholder map. -/
theorem generateResourceName_storage_account (order : RangeOrder)
    (config : resourcenamingtoolProviderModel) (patterns : GoMap MapElem)
    (resourceType : ComponentValueObject) (b ec rc i : GoString)
    (hType : resourceType.GetFullname ≠ [])
    (hPatterns : config.AdditionalNamingPatterns = .known patterns)
    (hPattern : patterns.lookup resourceType.GetFullname
      = some (.string (.value (str "{basename}{environment:char}{region:char}{instance}"))))
    (hb : config.DefaultBasename.GetFullname = b)
    (he : config.DefaultEnvironment.GetChar = ec)
    (hr : config.DefaultRegion.GetChar = rc)
    (hi : config.DefaultInstance.GetFullname = i)
    (hb0 : b ≠ []) (he0 : ec ≠ []) (hr0 : rc ≠ []) (hi0 : i ≠ [])
    (hbb : lbrace ∉ b) (heb : lbrace ∉ ec) (hrb : lbrace ∉ rc) (hib : lbrace ∉ i)
    (h3 : 3 ≤ (b ++ ec ++ rc ++ i).length)
    (h90 : (b ++ ec ++ rc ++ i).length ≤ 90) :
    generateResourceName order
        (singleParam (str "resource_type") (.component resourceType)) config
      = (b ++ ec ++ rc ++ i, []) := by
  have hkey := effectiveResourceType_callTime
    (singleParam (str "resource_type") (.component resourceType)) config resourceType rfl hType
  have hfound : foundPlaceholders (str "{basename}{environment:char}{region:char}{instance}")
      = [(str "basename", .full, str "{basename}"),
         (str "environment", .full, str "{environment:char}"),
         (str "region", .full, str "{region:char}"),
         (str "instance", .full, str "{instance}")] := by decide
  have hseg : str "{basename}{environment:char}{region:char}{instance}"
      = flatten [.tok (str "{basename}"), .tok (str "{environment:char}"),
          .tok (str "{region:char}"), .tok (str "{instance}")] := by
    decide
  have hp1 : (singleParam (str "resource_type") (.component resourceType)).GetComponentValue
      (str "basename") = .ok .null := rfl
  have hp2 : (singleParam (str "resource_type") (.component resourceType)).GetComponentValue
      (str "environment") = .ok .null := rfl
  have hp3 : (singleParam (str "resource_type") (.component resourceType)).GetComponentValue
      (str "region") = .ok .null := rfl
  have hp4 : (singleParam (str "resource_type") (.component resourceType)).GetComponentValue
      (str "instance") = .ok .null := rfl
  have hnopat : (singleParam (str "resource_type")
      (.component resourceType)).GetAdditionalNamingPatterns = .ok .null := rfl
  have hnoadd : mapGet (singleParam (str "resource_type") (.component resourceType)).Attributes
      (str "additional_components") = none := rfl
  have hf1 : placeholderFormat .full (str "{basename}") = .full := by decide
  have hf2 : placeholderFormat .full (str "{environment:char}") = .char := by decide
  have hf3 : placeholderFormat .full (str "{region:char}") = .char := by decide
  have hf4 : placeholderFormat .full (str "{instance}") = .full := by decide
  have hd1 : defaultComponent config (str "basename") = config.DefaultBasename := rfl
  have hd2 : defaultComponent config (str "environment") = config.DefaultEnvironment := rfl
  have hd3 : defaultComponent config (str "region") = config.DefaultRegion := rfl
  have hd4 : defaultComponent config (str "instance") = config.DefaultInstance := rfl
  have hr1 : resolvePlaceholder (singleParam (str "resource_type") (.component resourceType))
      config (str "basename") .full (str "{basename}") = some b := by
    rw [resolvePlaceholder_default _ _ _ _ _ hp1, hf1, hd1]
    simp [defaultValue, hb, hb0]
  have hr2 : resolvePlaceholder (singleParam (str "resource_type") (.component resourceType))
      config (str "environment") .full (str "{environment:char}") = some ec := by
    rw [resolvePlaceholder_default _ _ _ _ _ hp2, hf2, hd2,
      defaultValue_char _ (by rw [he]; exact he0)]
    simp [he, he0]
  have hr3 : resolvePlaceholder (singleParam (str "resource_type") (.component resourceType))
      config (str "region") .full (str "{region:char}") = some rc := by
    rw [resolvePlaceholder_default _ _ _ _ _ hp3, hf3, hd3,
      defaultValue_char _ (by rw [hr]; exact hr0)]
    simp [hr, hr0]
  have hr4 : resolvePlaceholder (singleParam (str "resource_type") (.component resourceType))
      config (str "instance") .full (str "{instance}") = some i := by
    rw [resolvePlaceholder_default _ _ _ _ _ hp4, hf4, hd4]
    simp [defaultValue, hi, hi0]
  have hn12 : ¬ str "{basename}" = str "{environment:char}" := by decide
  have hn13 : ¬ str "{basename}" = str "{region:char}" := by decide
  have hn14 : ¬ str "{basename}" = str "{instance}" := by decide
  have hn23 : ¬ str "{environment:char}" = str "{region:char}" := by decide
  have hn24 : ¬ str "{environment:char}" = str "{instance}" := by decide
  have hn34 : ¬ str "{region:char}" = str "{instance}" := by decide
  have hfixed : additionalPlaceholders order
      (singleParam (str "resource_type") (.component resourceType))
      (fixedPlaceholders (singleParam (str "resource_type") (.component resourceType)) config
        (str "{basename}{environment:char}{region:char}{instance}"))
      = [(str "{basename}", b), (str "{environment:char}", ec), (str "{region:char}", rc),
         (str "{instance}", i)] := by
    rw [additionalPlaceholders_none _ _ _ hnoadd, fixedPlaceholders_eq, hfound]
    simp [placeholderStep, hr1, hr2, hr3, hr4, mapSet, hn12, hn13, hn14, hn23, hn24, hn34]
  unfold generateResourceName
  rw [hkey]
  simp only []
  rw [generateForType_segments _ order _ config _ _ _ _
    (patternByPrecedence_persisted _ _ _ _ _ _ hnopat hPatterns hPattern) hseg ?_ hfixed ?_ ?_]
  · have hsub : flatten (List.map (Seg.subst
        [(str "{basename}", b), (str "{environment:char}", ec), (str "{region:char}", rc),
         (str "{instance}", i)])
        [.tok (str "{basename}"), .tok (str "{environment:char}"),
          .tok (str "{region:char}"), .tok (str "{instance}")])
        = b ++ ec ++ rc ++ i := by
      simp [Seg.subst, mapGet, flatten, Seg.text, hn12, hn13, hn14, hn23, hn24, hn34]
    rw [hsub]
    apply validateResult_ok _ _ h3 h90
    simp only [List.mem_append, not_or]
    exact ⟨⟨⟨hbb, heb⟩, hrb⟩, hib⟩
  · intro seg hseg
    simp only [List.mem_cons, List.mem_singleton, List.not_mem_nil, or_false] at hseg
    rcases hseg with h | h | h | h <;> subst h <;> (show isToken _ = true; decide)
  · simp [hn12, hn13, hn14, hn23, hn24, hn34]
  · intro kv hkv
    simp only [List.mem_cons, List.mem_singleton, List.not_mem_nil, or_false] at hkv
    rcases hkv with h | h | h | h <;> subst h
    · exact ⟨(by decide : isToken (str "{basename}") = true), hbb⟩
    · exact ⟨(by decide : isToken (str "{environment:char}") = true), heb⟩
    · exact ⟨(by decide : isToken (str "{region:char}") = true), hrb⟩
    · exact ⟨(by decide : isToken (str "{instance}") = true), hib⟩

/-- C2, the scenario of the test suite: `example` / `p` / `w` / `00001` gives
`examplepw00001`. -/
theorem generateResourceName_storage_account_witness :
    generateResourceName RangeOrder.reversed
        (singleParam (str "resource_type")
          (.component (.known (.value (str "azurerm_storage_account")) .null .null)))
        providerConfig
      = (str "examplepw00001", []) :=
  generateResourceName_storage_account RangeOrder.reversed providerConfig testNamingPatterns
    (.known (.value (str "azurerm_storage_account")) .null .null)
    (str "example") (str "p") (str "w") (str "00001")
    (by decide) rfl (by decide) (by decide) (by decide) (by decide) (by decide)
    (by decide) (by decide) (by decide) (by decide) (by decide) (by decide) (by decide)
    (by decide) (by decide) (by decide)


theorem contains_append_self (p k : GoString) : contains (p ++ k) k = true := by
  induction p with
  | nil =>
    cases k with
    | nil => rfl
    | cons c k =>
      have h := startsWith_append (c :: k) []
      rw [List.append_nil] at h
      simp [contains, h]
  | cons a p ih =>
    show contains (a :: (p ++ k)) k = true
    rw [contains, ih]
    split <;> rfl

/-! ## Resource type, pattern lookup and precedence -/

/-- C3. `generateResourceName` resolves with the call-time
`resource_type.fullname` as the resource-type key when it is non-empty,
otherwise with the full name of the persisted default resource type; when both
are empty or absent it returns the empty string together with the error
`Missing Required Parameter` / `Resource type is required`. -/
theorem generateResourceName_effective_resource_type (order : RangeOrder)
    (params : ResourceNamingParametersValue) (config : resourcenamingtoolProviderModel)
    (resourceTypeComp : ComponentValueObject)
    (hcomp : params.GetComponentValue (str "resource_type") = .ok resourceTypeComp) :
    (resourceTypeComp.GetFullname ≠ [] →
      effectiveResourceType params config = .ok resourceTypeComp.GetFullname ∧
      generateResourceName order params config
        = generateForType builtin_NamingPatterns order params config
            resourceTypeComp.GetFullname) ∧
    (resourceTypeComp.GetFullname = [] → config.DefaultResourceType.GetFullname ≠ [] →
      effectiveResourceType params config = .ok config.DefaultResourceType.GetFullname ∧
      generateResourceName order params config
        = generateForType builtin_NamingPatterns order params config
            config.DefaultResourceType.GetFullname) ∧
    (resourceTypeComp.GetFullname = [] → config.DefaultResourceType.GetFullname = [] →
      generateResourceName order params config
        = ([], [⟨str "Missing Required Parameter", str "Resource type is required"⟩])) := by
  refine ⟨?_, ?_, ?_⟩
  · intro hne
    have h := effectiveResourceType_callTime params config resourceTypeComp hcomp hne
    exact ⟨h, by unfold generateResourceName; rw [h]⟩
  · intro he hd
    have h := effectiveResourceType_default params config resourceTypeComp hcomp he hd
    exact ⟨h, by unfold generateResourceName; rw [h]⟩
  · intro he hd
    unfold generateResourceName effectiveResourceType
    rw [hcomp]
    simp [he, hd]

/-- C3 at concrete inputs: with no call-time resource type and no default the
call fails with `Missing Required Parameter`; with no call-time resource type
and the test configuration the key is the default `azurerm_resource_group`. -/
theorem generateResourceName_effective_resource_type_witness :
    generateResourceName RangeOrder.insertion (.known .empty) emptyConfig
        = ([], [⟨str "Missing Required Parameter", str "Resource type is required"⟩]) ∧
      effectiveResourceType (.known .empty) providerConfig
        = .ok (str "azurerm_resource_group") :=
  ⟨(generateResourceName_effective_resource_type RangeOrder.insertion (.known .empty)
      emptyConfig .null rfl).2.2 rfl rfl,
   ((generateResourceName_effective_resource_type RangeOrder.insertion (.known .empty)
      providerConfig .null rfl).2.1 rfl (by decide)).1⟩

/-- C4. When the effective resource-type key `k` is a key of none of the
built-in table, the persisted pattern overrides and the call-time pattern
overrides, `generateResourceName` returns the empty string and a
`Missing Pattern` error whose detail contains `k`. -/
theorem generateResourceName_missing_pattern (order : RangeOrder)
    (params : ResourceNamingParametersValue) (config : resourcenamingtoolProviderModel)
    (k : GoString)
    (hkey : effectiveResourceType params config = .ok k)
    (hbuiltin : k ∉ builtin_NamingPatterns.entries.map Prod.fst)
    (hconfig : k ∉ config.AdditionalNamingPatterns.Elements.map Prod.fst)
    (hparams : k ∉ (callTimePatterns params).Elements.map Prod.fst) :
    generateResourceName order params config
        = ([], [⟨str "Missing Pattern",
            str "No naming pattern found for resource type: " ++ k⟩]) ∧
      contains (str "No naming pattern found for resource type: " ++ k) k = true := by
  refine ⟨?_, contains_append_self _ _⟩
  have hentry : ∀ m : TfMap, k ∉ m.Elements.map Prod.fst → patternEntry m k = none := by
    intro m hm
    cases m with
    | null => rfl
    | unknown => rfl
    | known elements =>
      have h := mapGet_none_of_not_mem elements.entries k hm
      simp only [patternEntry, GoMap.lookup, h]
  have hnone : patternByPrecedence builtin_NamingPatterns params config k = none := by
    unfold patternByPrecedence persistedOrBuiltin
    rw [hentry _ hparams, hentry _ hconfig]
    simp only [GoMap.lookup]
    exact mapGet_none_of_not_mem _ _ hbuiltin
  unfold generateResourceName
  rw [hkey]
  simp only [generateForType]
  rw [mapGet_consolidatedPatterns, hnone]

/-- C4, the scenario of the test suite: the resource type `unknown_type` has no
pattern in the test configuration. -/
theorem generateResourceName_missing_pattern_witness :
    generateResourceName RangeOrder.insertion
        (singleParam (str "resource_type")
          (.component (.known (.value (str "unknown_type")) .null .null)))
        providerConfig
      = ([], [⟨str "Missing Pattern",
          str "No naming pattern found for resource type: unknown_type"⟩]) :=
  (generateResourceName_missing_pattern RangeOrder.insertion
    (singleParam (str "resource_type")
      (.component (.known (.value (str "unknown_type")) .null .null)))
    providerConfig (str "unknown_type") rfl (by decide) (by decide) (by decide)).1

/-- C5. The template used for a resource-type key is chosen by precedence: the
call-time `additional_naming_patterns` entry if present, else the persisted
`AdditionalNamingPatterns` entry if present, else the built-in entry.  The
call-time entry is the known string that the caller passed under the key, in
a map or in a plain object, read from the parameter object itself; the
consolidated table that the code builds through `GetAdditionalNamingPatterns`
agrees with this choice for every key and every built-in table, and
`generateForType` resolves with the template so chosen. -/
theorem naming_pattern_precedence (builtin : GoMap GoString) (order : RangeOrder)
    (params : ResourceNamingParametersValue) (config : resourcenamingtoolProviderModel)
    (resourceTypeFull : GoString) :
    (∀ k, mapGet (consolidatedPatterns builtin params config resourceTypeFull) k
        = patternByPrecedence builtin params config k) ∧
      generateForType builtin order params config resourceTypeFull
        = (match patternByPrecedence builtin params config resourceTypeFull with
          | none =>
            ([], [⟨str "Missing Pattern",
              str "No naming pattern found for resource type: " ++ resourceTypeFull⟩])
          | some pattern =>
            validateResult (substitute pattern (order.placeholders
              (additionalPlaceholders order params
                (fixedPlaceholders params config pattern))))) := by
  refine ⟨fun k => mapGet_consolidatedPatterns builtin params config resourceTypeFull k, ?_⟩
  unfold generateForType
  rw [mapGet_consolidatedPatterns]


/-! ## Component values: precedence, formats and fallbacks -/

theorem mapGet_foldl_other (params : ResourceNamingParametersValue)
    (config : resourcenamingtoolProviderModel) (F : List (GoString × Format × GoString))
    (init : List (GoString × GoString)) (k : GoString)
    (hk : k ∉ F.map (fun t => t.2.2)) :
    mapGet (F.foldl (placeholderStep params config) init) k = mapGet init k := by
  induction F generalizing init with
  | nil => rfl
  | cons t rest ih =>
    simp only [List.map_cons, List.mem_cons, not_or] at hk
    rw [List.foldl_cons, ih _ hk.2]
    unfold placeholderStep
    cases resolvePlaceholder params config t.1 t.2.1 t.2.2 with
    | none => rfl
    | some v =>
      have : ¬ t.2.2 = k := fun e => hk.1 e.symm
      simp only [mapGet_mapSet, if_neg this]

theorem mapGet_foldl_step (params : ResourceNamingParametersValue)
    (config : resourcenamingtoolProviderModel) (F : List (GoString × Format × GoString))
    (hnd : (F.map (fun t => t.2.2)).Nodup) (init : List (GoString × GoString))
    (t : GoString × Format × GoString) (ht : t ∈ F) :
    mapGet (F.foldl (placeholderStep params config) init) t.2.2 =
      match resolvePlaceholder params config t.1 t.2.1 t.2.2 with
      | some v => some v
      | none => mapGet init t.2.2 := by
  induction F generalizing init with
  | nil => cases ht
  | cons t0 rest ih =>
    simp only [List.map_cons, List.nodup_cons] at hnd
    rw [List.foldl_cons]
    rcases List.mem_cons.1 ht with h | h
    · subst h
      rw [mapGet_foldl_other _ _ _ _ _ hnd.1]
      unfold placeholderStep
      cases resolvePlaceholder params config t.1 t.2.1 t.2.2 with
      | none => rfl
      | some v => simp [mapGet_mapSet]
    · rw [ih hnd.2 _ h]
      cases hres : resolvePlaceholder params config t.1 t.2.1 t.2.2 with
      | some v => rfl
      | none =>
        have hne : ¬ t0.2.2 = t.2.2 := by
          intro e
          exact hnd.1 (e ▸ List.mem_map_of_mem (fun t => t.2.2) h)
        unfold placeholderStep
        cases resolvePlaceholder params config t0.1 t0.2.1 t0.2.2 with
        | none => rfl
        | some v => simp only [mapGet_mapSet, if_neg hne]

theorem allPlaceholders_nodup : (allPlaceholders.map (fun t => t.2.2)).Nodup := by decide

theorem foundPlaceholders_nodup (pattern : GoString) :
    ((foundPlaceholders pattern).map (fun t => t.2.2)).Nodup :=
  allPlaceholders_nodup.sublist ((List.filter_sublist _).map _)

/-- The entry that the placeholder loop leaves in the placeholder map for a
placeholder of the table that occurs in the pattern. -/
theorem mapGet_fixedPlaceholders (params : ResourceNamingParametersValue)
    (config : resourcenamingtoolProviderModel) (pattern : GoString)
    (compType : ComponentType) (placeholder : GoString)
    (hct : compType ∈ componentTypes) (hph : placeholder ∈ compType.Patterns)
    (hfound : contains pattern placeholder = true) :
    mapGet (fixedPlaceholders params config pattern) placeholder
      = resolvePlaceholder params config compType.Name compType.ValueType placeholder := by
  have hmem : (compType.Name, compType.ValueType, placeholder) ∈ foundPlaceholders pattern := by
    unfold foundPlaceholders allPlaceholders
    rw [List.mem_filter]
    refine ⟨?_, hfound⟩
    rw [List.mem_flatMap]
    exact ⟨compType, hct, List.mem_map_of_mem _ hph⟩
  rw [fixedPlaceholders_eq,
    mapGet_foldl_step params config _ (foundPlaceholders_nodup pattern) [] _ hmem]
  cases resolvePlaceholder params config compType.Name compType.ValueType placeholder <;> rfl

/-- The entry of the fixed-slot loop. For every fixed slot and every placeholder
of the slot found in the pattern, the placeholder loop stores the call-time
value of the requested format (after its own fallback chain) whenever that
value is non-empty, whatever the provider configuration is; the persisted
default of the slot is consulted only when the call-time value is empty. -/
theorem fixedPlaceholders_callTime_or_default (params : ResourceNamingParametersValue)
    (pattern : GoString) (compType : ComponentType) (placeholder : GoString)
    (compValue : ComponentValueObject)
    (hct : compType ∈ componentTypes) (hph : placeholder ∈ compType.Patterns)
    (hfound : contains pattern placeholder = true)
    (hcomp : params.GetComponentValue compType.Name = .ok compValue) :
    (callTimeValue compValue (placeholderFormat compType.ValueType placeholder) ≠ [] →
      ∀ config : resourcenamingtoolProviderModel,
        mapGet (fixedPlaceholders params config pattern) placeholder
          = some (callTimeValue compValue
              (placeholderFormat compType.ValueType placeholder))) ∧
    (callTimeValue compValue (placeholderFormat compType.ValueType placeholder) = [] →
      ∀ config : resourcenamingtoolProviderModel,
        mapGet (fixedPlaceholders params config pattern) placeholder
          = if defaultValue (defaultComponent config compType.Name)
                (placeholderFormat compType.ValueType placeholder) = [] then none
            else some (defaultValue (defaultComponent config compType.Name)
                (placeholderFormat compType.ValueType placeholder))) := by
  constructor
  · intro hne config
    rw [mapGet_fixedPlaceholders params config pattern compType placeholder hct hph hfound]
    unfold resolvePlaceholder
    rw [hcomp]
    simp [hne]
  · intro he config
    rw [mapGet_fixedPlaceholders params config pattern compType placeholder hct hph hfound]
    unfold resolvePlaceholder
    rw [hcomp]
    simp only [he, if_true]
    split <;> simp_all


/-- The fixed-slot loop at a concrete input: the call-time environment `stg` is
stored for `{environment:short}` although the provider default says `prd`. -/
theorem fixedPlaceholders_callTime_or_default_witness :
    mapGet (fixedPlaceholders
        (singleParam (str "environment")
          (.component (.known (.value (str "staging")) (.value (str "stg")) .null)))
        providerConfig (str "rg-{environment:short}")) (str "{environment:short}")
      = some (str "stg") :=
  (fixedPlaceholders_callTime_or_default
    (singleParam (str "environment")
      (.component (.known (.value (str "staging")) (.value (str "stg")) .null)))
    (str "rg-{environment:short}")
    ⟨str "environment", [str "{environment}", str "{environment:full}",
      str "{environment:short}", str "{environment:char}", str "{env}", str "{e}"], .full⟩
    (str "{environment:short}")
    (.known (.value (str "staging")) (.value (str "stg")) .null)
    (by decide) (by decide) (by decide) rfl).1 (by decide) providerConfig

/-- C7. For every recognised placeholder spelling of a fixed slot the format
computed by the placeholder loop is the one the specification words: the
explicit suffix when the spelling ends in `:full`, `:short` or `:char`,
otherwise `char` for at most 4 characters, `short` for exactly 5 and `full` for
more.  In particular the listed aliases select `char`, `short` and `full`. -/
theorem placeholderFormat_eq_specFormat :
    (∀ compType ∈ componentTypes, ∀ placeholder ∈ compType.Patterns,
      placeholderFormat compType.ValueType placeholder = specFormat placeholder) ∧
    [str "{e}", str "{r}", str "{bu}", str "{cc}", str "{wl}"].map (placeholderFormat .full)
      = [.char, .char, .char, .char, .char] ∧
    [str "{env}", str "{org}", str "{loc}", str "{app}", str "{sub}", str "{sol}"].map
        (placeholderFormat .full)
      = [.short, .short, .short, .short, .short, .short] ∧
    [str "{inst}", str "{proj}", str "{crit}", str "{init}", str "{location}",
        str "{basename}"].map (placeholderFormat .full)
      = [.full, .full, .full, .full, .full, .full] := by
  refine ⟨by decide, by decide, by decide, by decide⟩

/-- C7 at a concrete spelling: `{loc}` of the region slot. -/
theorem placeholderFormat_eq_specFormat_witness :
    placeholderFormat .full (str "{loc}") = specFormat (str "{loc}") :=
  placeholderFormat_eq_specFormat.1
    ⟨str "region", [str "{region}", str "{region:full}", str "{region:short}",
      str "{region:char}", str "{location}", str "{loc}", str "{r}"], .full⟩
    (by decide) (str "{loc}") (by decide)

/-- C8, evaluation at a full name that starts with a multi-byte character: for
the call-time component with only the full name `été`, the `char` format
yields `Ã` (the byte `0xC3` converted as a code point), not the first
character `é`; the name generated for `env-{environment:char}` is `env-Ã`. -/
theorem callTimeValue_char_multibyte :
    callTimeValue (.known (.value (str "été")) .null .null) .char = str "Ã" ∧
      str "Ã" ≠ str "é" ∧
      generateResourceName RangeOrder.insertion
          (.known ⟨[(str "resource_type", .component (.known (.value (str "t")) .null .null)),
            (str "environment", .component (.known (.value (str "été")) .null .null))],
            by decide⟩)
          (configWithPattern "t" "env-{environment:char}")
        = (str "env-Ã", []) := by
  refine ⟨by decide, by decide, by decide⟩

/-- C9, evaluation at a default full name with multi-byte characters: for the
provider default with only the full name `été`, the `short` format yields the
first three bytes `ét` although the name has just three characters, and the
`char` format yields `Ã`, not the first character `é`. -/
theorem defaultValue_multibyte :
    defaultValue (.known (.value (str "été")) (.value []) (.value [])) .short = str "ét" ∧
      defaultValue (.known (.value (str "été")) (.value []) (.value [])) .char = str "Ã" ∧
      str "ét" ≠ str "été" ∧ str "Ã" ≠ str "é" ∧
      generateResourceName RangeOrder.insertion
          (singleParam (str "resource_type")
            (.component (.known (.value (str "t")) .null .null)))
          { configWithPattern "t" "{environment:short}-{environment:char}" with
            DefaultEnvironment := .known (.value (str "été")) (.value []) (.value []) }
        = (str "ét-Ã", []) := by
  refine ⟨by decide, by decide, by decide, by decide, by decide⟩

/-- C10, counterexample: a call-time component that has only the full name
`production` resolves `{environment:short}` to the whole full name, not to
its first three characters `pro`. -/
theorem callTime_short_is_whole_fullname :
    resolvePlaceholder
        (singleParam (str "environment")
          (.component (.known (.value (str "production")) .null .null)))
        emptyConfig (str "environment") .full (str "{environment:short}")
      = some (str "production") ∧
      str "production" ≠ (str "production").take 3 ∧
      generateResourceName RangeOrder.insertion
          (.known ⟨[(str "resource_type", .component (.known (.value (str "t")) .null .null)),
            (str "environment", .component (.known (.value (str "production")) .null .null))],
            by decide⟩)
          (configWithPattern "t" "rg-{environment:short}")
        = (str "rg-production", []) := by
  refine ⟨by decide, by decide, by decide⟩

theorem encodeRune_ascii (b : Nat) (h : b < 128) : encodeRune b = [b] := by
  simp [encodeRune, h]

/-- C10 as amended. For a component that has only a non-empty ASCII full name
`f` set: as the persisted default of a slot without call-time component, a
placeholder requesting `short` resolves to the first three characters of `f`
and one requesting `char` to its first character; as the call-time component,
a placeholder requesting `char` resolves to the first character of `f` and one
requesting `short` to the whole of `f`. -/
theorem fullname_only_fallback (params : ResourceNamingParametersValue)
    (config : resourcenamingtoolProviderModel) (name placeholder : GoString)
    (valueType : Format) (f : GoString) (s c : TfString)
    (hne : f ≠ []) (hascii : ∀ x ∈ f, x < 128)
    (hs : s.ValueString = []) (hc : c.ValueString = []) :
    (params.GetComponentValue name = .ok .null →
      defaultComponent config name = .known (.value f) s c →
        (placeholderFormat valueType placeholder = .short →
          resolvePlaceholder params config name valueType placeholder = some (f.take 3)) ∧
        (placeholderFormat valueType placeholder = .char →
          resolvePlaceholder params config name valueType placeholder = some (f.take 1))) ∧
    (params.GetComponentValue name = .ok (.known (.value f) s c) →
        (placeholderFormat valueType placeholder = .short →
          resolvePlaceholder params config name valueType placeholder = some f) ∧
        (placeholderFormat valueType placeholder = .char →
          resolvePlaceholder params config name valueType placeholder = some (f.take 1))) := by
  obtain ⟨b, rest, rfl⟩ : ∃ b rest, f = b :: rest := by
    cases f with
    | nil => exact absurd rfl hne
    | cons b rest => exact ⟨b, rest, rfl⟩
  have hb : encodeRune b = [b] := encodeRune_ascii b (hascii b (List.mem_cons_self _ _))
  refine ⟨fun hp hd => ⟨fun hf => ?_, fun hf => ?_⟩, fun hp => ⟨fun hf => ?_, fun hf => ?_⟩⟩
  · rw [resolvePlaceholder_default _ _ _ _ _ hp, hd, hf]
    have hval : defaultValue (.known (.value (b :: rest)) s c) .short
        = if (b :: rest).length > 3 then (b :: rest).take 3 else b :: rest := by
      have hfn : (ComponentValueObject.known (.value (b :: rest)) s c).GetFullname
          = b :: rest := rfl
      show (if (if false = true then [] else s.ValueString) = [] then _ else _) = _
      simp [hs, hfn]
    rw [hval]
    by_cases hlen : (b :: rest).length > 3
    · rw [if_pos hlen]; simp
    · have : List.take 3 (b :: rest) = b :: rest := List.take_of_length_le (by omega)
      rw [if_neg hlen, this]; simp
  · rw [resolvePlaceholder_default _ _ _ _ _ hp, hd, hf]
    have hval : defaultValue (.known (.value (b :: rest)) s c) .char = [b] := by
      show (if (if false = true then [] else c.ValueString) = [] then encodeRune b else _) = _
      simp [hc, hb]
    rw [hval]; simp
  · unfold resolvePlaceholder
    rw [hp, hf]
    have hval : callTimeValue (.known (.value (b :: rest)) s c) .short = b :: rest := by
      show (if s.ValueString = [] then b :: rest else _) = _
      simp [hs]
    simp [hval]
  · unfold resolvePlaceholder
    rw [hp, hf]
    have hval : callTimeValue (.known (.value (b :: rest)) s c) .char = [b] := by
      show (if c.ValueString = [] then encodeRune b else _) = _
      simp [hc, hb]
    simp [hval]

/-- C10 as amended, at concrete inputs: the default `westeurope` gives `wes`
and `w`; the call-time component `production` gives `production` and `p`. -/
theorem fullname_only_fallback_witness :
    (resolvePlaceholder (.known .empty)
        { emptyConfig with DefaultRegion := .known (.value (str "westeurope")) .null .null }
        (str "region") .full (str "{region:short}") = some (str "wes") ∧
      resolvePlaceholder (.known .empty)
        { emptyConfig with DefaultRegion := .known (.value (str "westeurope")) .null .null }
        (str "region") .full (str "{region:char}") = some (str "w")) ∧
    (resolvePlaceholder
        (singleParam (str "environment")
          (.component (.known (.value (str "production")) .null .null)))
        emptyConfig (str "environment") .full (str "{environment:short}")
          = some (str "production") ∧
      resolvePlaceholder
        (singleParam (str "environment")
          (.component (.known (.value (str "production")) .null .null)))
        emptyConfig (str "environment") .full (str "{environment:char}")
          = some (str "p")) :=
  ⟨⟨((fullname_only_fallback (.known .empty)
        { emptyConfig with DefaultRegion := .known (.value (str "westeurope")) .null .null }
        (str "region") (str "{region:short}") .full (str "westeurope") .null .null
        (by decide) (by decide) rfl rfl).1 rfl rfl).1 (by decide),
     ((fullname_only_fallback (.known .empty)
        { emptyConfig with DefaultRegion := .known (.value (str "westeurope")) .null .null }
        (str "region") (str "{region:char}") .full (str "westeurope") .null .null
        (by decide) (by decide) rfl rfl).1 rfl rfl).2 (by decide)⟩,
   ⟨((fullname_only_fallback
        (singleParam (str "environment")
          (.component (.known (.value (str "production")) .null .null)))
        emptyConfig (str "environment") (str "{environment:short}") .full (str "production")
        .null .null (by decide) (by decide) rfl rfl).2 rfl).1 (by decide),
     ((fullname_only_fallback
        (singleParam (str "environment")
          (.component (.known (.value (str "production")) .null .null)))
        emptyConfig (str "environment") (str "{environment:char}") .full (str "production")
        .null .null (by decide) (by decide) rfl rfl).2 rfl).2 (by decide)⟩⟩

/-! ## Validation of the substituted result -/

theorem contains_append_left (p s t : GoString) (h : contains s t = true) :
    contains (p ++ s) t = true := by
  induction p with
  | nil => exact h
  | cons a p ih =>
    show contains (a :: (p ++ s)) t = true
    rw [contains, ih]
    split <;> rfl

/-- The outcome of `generateResourceName` once the resource type and its
pattern are known: the checks of lines 1276-1318 applied to the substituted
pattern. -/
theorem generateResourceName_eq_validateResult (order : RangeOrder)
    (params : ResourceNamingParametersValue) (config : resourcenamingtoolProviderModel)
    (k pattern : GoString)
    (hkey : effectiveResourceType params config = .ok k)
    (hpat : patternByPrecedence builtin_NamingPatterns params config k = some pattern) :
    generateResourceName order params config
      = validateResult (substitute pattern (order.placeholders
          (additionalPlaceholders order params (fixedPlaceholders params config pattern)))) := by
  unfold generateResourceName
  rw [hkey]
  simp only [generateForType]
  rw [mapGet_consolidatedPatterns, hpat]

theorem validateResult_unresolved (result : GoString)
    (h : contains result (str "\x7b") = true) :
    validateResult result
      = ([], [⟨str "Unresolved Components",
          str "Resource name contains unrecognized components: " ++ result⟩]) := by
  unfold validateResult
  rw [if_pos h]

theorem validateResult_nobrace (result : GoString) (hb : lbrace ∉ result) :
    validateResult result
      = if result = [] then
          ([], [⟨str "Empty Name", str "Resource name cannot be empty"⟩])
        else if result.length > 90 then
          ([], [⟨str "Name Too Long",
            str "Resource name exceeds 90 characters: " ++ result⟩])
        else if result.length < 3 then
          ([], [⟨str "Name Too Short",
            str "Resource name must be at least 3 characters long: " ++ result⟩])
        else (result, []) := by
  have hc : contains result (str "\x7b") = false := by
    have : str "\x7b" = [lbrace] := by decide
    rw [this]
    cases h : contains result [lbrace] with
    | false => rfl
    | true => exact absurd ((contains_singleton _ _).1 h) hb
  unfold validateResult
  rw [hc]
  simp

/-- C14. If the string obtained after substitution still contains an opening
brace, `generateResourceName` returns the empty name and a single
`Unresolved Components` error whose detail is the fixed text followed by the
whole substituted string, so every `{...}` token that remains in the string is
contained in the detail. -/
theorem generateResourceName_unresolved (order : RangeOrder)
    (params : ResourceNamingParametersValue) (config : resourcenamingtoolProviderModel)
    (k pattern : GoString)
    (hkey : effectiveResourceType params config = .ok k)
    (hpat : patternByPrecedence builtin_NamingPatterns params config k = some pattern)
    (hbrace : lbrace ∈ substitute pattern (order.placeholders
        (additionalPlaceholders order params (fixedPlaceholders params config pattern)))) :
    generateResourceName order params config
        = ([], [⟨str "Unresolved Components",
            str "Resource name contains unrecognized components: " ++
              substitute pattern (order.placeholders
                (additionalPlaceholders order params
                  (fixedPlaceholders params config pattern)))⟩]) ∧
      ∀ token : GoString,
        contains (substitute pattern (order.placeholders
          (additionalPlaceholders order params (fixedPlaceholders params config pattern))))
            token = true →
        contains (str "Resource name contains unrecognized components: " ++
          substitute pattern (order.placeholders
            (additionalPlaceholders order params (fixedPlaceholders params config pattern))))
            token = true := by
  refine ⟨?_, fun token h => contains_append_left _ _ _ h⟩
  rw [generateResourceName_eq_validateResult order params config k pattern hkey hpat]
  apply validateResult_unresolved
  have : str "\x7b" = [lbrace] := by decide
  rw [this]
  exact (contains_singleton _ _).2 hbrace

set_option maxRecDepth 8000 in
/-- C14 at a concrete input: the pattern `rg-{basename}-{team}` with no `team`
component leaves `{team}` in the string, and the error names it. -/
theorem generateResourceName_unresolved_witness :
    generateResourceName RangeOrder.insertion
        (singleParam (str "resource_type")
          (.component (.known (.value (str "t")) .null .null)))
        { configWithPattern "t" "rg-{basename}-{team}" with
          DefaultBasename := componentOf "example" "ex" "e" }
      = ([], [⟨str "Unresolved Components",
          str "Resource name contains unrecognized components: rg-example-{team}"⟩]) :=
  (generateResourceName_unresolved RangeOrder.insertion
    (singleParam (str "resource_type")
      (.component (.known (.value (str "t")) .null .null)))
    { configWithPattern "t" "rg-{basename}-{team}" with
      DefaultBasename := componentOf "example" "ex" "e" }
    (str "t") (str "rg-{basename}-{team}") rfl (by decide) (by decide)).1

/-- C15. A substituted result without opening brace is returned unchanged,
with no error, exactly when its length is between 3 and 90; a longer one is
rejected with `Name Too Long`, a shorter non-empty one with `Name Too Short`
and the empty one with `Empty Name`. -/
theorem generateResourceName_length_bounds (order : RangeOrder)
    (params : ResourceNamingParametersValue) (config : resourcenamingtoolProviderModel)
    (k pattern result : GoString)
    (hkey : effectiveResourceType params config = .ok k)
    (hpat : patternByPrecedence builtin_NamingPatterns params config k = some pattern)
    (hres : substitute pattern (order.placeholders
        (additionalPlaceholders order params (fixedPlaceholders params config pattern)))
      = result)
    (hbrace : lbrace ∉ result) :
    (generateResourceName order params config = (result, [])
        ↔ 3 ≤ result.length ∧ result.length ≤ 90) ∧
      (90 < result.length →
        generateResourceName order params config
          = ([], [⟨str "Name Too Long",
              str "Resource name exceeds 90 characters: " ++ result⟩])) ∧
      (0 < result.length → result.length < 3 →
        generateResourceName order params config
          = ([], [⟨str "Name Too Short",
              str "Resource name must be at least 3 characters long: " ++ result⟩])) ∧
      (result.length = 0 →
        generateResourceName order params config
          = ([], [⟨str "Empty Name", str "Resource name cannot be empty"⟩])) := by
  rw [generateResourceName_eq_validateResult order params config k pattern hkey hpat, hres,
    validateResult_nobrace result hbrace]
  refine ⟨⟨fun h => ?_, fun h => ?_⟩, fun h => ?_, fun h0 h3 => ?_, fun h => ?_⟩
  · by_cases he : result = []
    · rw [if_pos he] at h
      simp at h
    · rw [if_neg he] at h
      by_cases h90 : result.length > 90
      · rw [if_pos h90] at h
        simp at h
      · rw [if_neg h90] at h
        by_cases h3 : result.length < 3
        · rw [if_pos h3] at h
          simp at h
        · omega
  · have he : result ≠ [] := by
      intro e; rw [e] at h; simp at h
    rw [if_neg he, if_neg (by omega), if_neg (by omega)]
  · have he : result ≠ [] := by
      intro e; rw [e] at h; simp at h
    rw [if_neg he, if_pos h]
  · have he : result ≠ [] := by
      intro e; rw [e] at h0; simp at h0
    rw [if_neg he, if_neg (by omega), if_pos h3]
  · have he : result = [] := List.length_eq_zero.1 h
    rw [if_pos he]

set_option maxRecDepth 8000 in
/-- C15 at the boundaries: literal patterns of length 2, 3, 90 and 91 give
`Name Too Short`, the name itself, the name itself and `Name Too Long`. -/
theorem generateResourceName_length_bounds_witness :
    generateResourceName RangeOrder.insertion
        (singleParam (str "resource_type")
          (.component (.known (.value (str "t")) .null .null)))
        (configWithPattern "t" "ab")
      = ([], [⟨str "Name Too Short",
          str "Resource name must be at least 3 characters long: ab"⟩]) ∧
    generateResourceName RangeOrder.insertion
        (singleParam (str "resource_type")
          (.component (.known (.value (str "t")) .null .null)))
        (configWithPattern "t" "abc")
      = (str "abc", []) ∧
    generateResourceName RangeOrder.insertion
        (singleParam (str "resource_type")
          (.component (.known (.value (str "t")) .null .null)))
        (literalPatternConfig (List.replicate 90 97))
      = (List.replicate 90 97, []) ∧
    generateResourceName RangeOrder.insertion
        (singleParam (str "resource_type")
          (.component (.known (.value (str "t")) .null .null)))
        (literalPatternConfig (List.replicate 91 97))
      = ([], [⟨str "Name Too Long",
          str "Resource name exceeds 90 characters: " ++ List.replicate 91 97⟩]) :=
  ⟨(generateResourceName_length_bounds RangeOrder.insertion
      (singleParam (str "resource_type")
        (.component (.known (.value (str "t")) .null .null)))
      (configWithPattern "t" "ab") (str "t") (str "ab") (str "ab")
      rfl (by decide) (by decide) (by decide)).2.2.1 (by decide) (by decide),
   (generateResourceName_length_bounds RangeOrder.insertion
      (singleParam (str "resource_type")
        (.component (.known (.value (str "t")) .null .null)))
      (configWithPattern "t" "abc") (str "t") (str "abc") (str "abc")
      rfl (by decide) (by decide) (by decide)).1.2 (by decide),
   (generateResourceName_length_bounds RangeOrder.insertion
      (singleParam (str "resource_type")
        (.component (.known (.value (str "t")) .null .null)))
      (literalPatternConfig (List.replicate 90 97)) (str "t") (List.replicate 90 97)
      (List.replicate 90 97)
      rfl (by decide) (by decide) (by decide)).1.2 (by decide),
   (generateResourceName_length_bounds RangeOrder.insertion
      (singleParam (str "resource_type")
        (.component (.known (.value (str "t")) .null .null)))
      (literalPatternConfig (List.replicate 91 97)) (str "t") (List.replicate 91 97)
      (List.replicate 91 97)
      rfl (by decide) (by decide) (by decide)).2.1 (by decide)⟩

theorem validateResult_sound (result : GoString) :
    ((validateResult result).2 ≠ [] → (validateResult result).1 = []) ∧
      ((validateResult result).1 ≠ [] →
        (validateResult result).2 = [] ∧ lbrace ∉ (validateResult result).1 ∧
          3 ≤ (validateResult result).1.length ∧ (validateResult result).1.length ≤ 90) := by
  by_cases hb : lbrace ∈ result
  · have hc : contains result (str "\x7b") = true := by
      have : str "\x7b" = [lbrace] := by decide
      rw [this]
      exact (contains_singleton _ _).2 hb
    rw [validateResult_unresolved result hc]
    simp
  · rw [validateResult_nobrace result hb]
    by_cases he : result = []
    · rw [if_pos he]; simp
    · rw [if_neg he]
      by_cases h90 : result.length > 90
      · rw [if_pos h90]; simp
      · rw [if_neg h90]
        by_cases h3 : result.length < 3
        · rw [if_pos h3]; simp
        · rw [if_neg h3]
          simp only [ne_eq, not_true_eq_false, false_implies, true_and, not_false_eq_true,
            true_implies]
          exact fun _ => ⟨hb, by omega, by omega⟩

/-- C16. No partial result is returned: for every iteration order, parameter
object and configuration, when `generateResourceName` returns a diagnostic the
returned string is empty, and when it returns a non-empty string there is no
diagnostic, the string has no opening brace and its length is between 3 and
90 bytes. -/
theorem generateResourceName_no_partial_result (order : RangeOrder)
    (params : ResourceNamingParametersValue) (config : resourcenamingtoolProviderModel) :
    ((generateResourceName order params config).2 ≠ [] →
        (generateResourceName order params config).1 = []) ∧
      ((generateResourceName order params config).1 ≠ [] →
        (generateResourceName order params config).2 = [] ∧
          lbrace ∉ (generateResourceName order params config).1 ∧
          3 ≤ (generateResourceName order params config).1.length ∧
          (generateResourceName order params config).1.length ≤ 90) := by
  unfold generateResourceName
  cases hkey : effectiveResourceType params config with
  | error d => simp
  | ok k =>
    simp only [generateForType]
    cases hpat : mapGet (consolidatedPatterns builtin_NamingPatterns params config k) k with
    | none => simp
    | some pattern => exact validateResult_sound _

/-! ## Additional components -/

theorem splitByte_single (s : GoString) (h : dot ∉ s) : splitByte dot s = [s] := by
  induction s with
  | nil => rfl
  | cons c s ih =>
    have hc : c ≠ dot := fun e => h (by simp [e])
    have hs : dot ∉ s := fun e => h (by simp [e])
    simp [splitByte, hc, ih hs]

theorem splitByte_ne_nil (s : GoString) : splitByte dot s ≠ [] := by
  cases s with
  | nil => simp [splitByte]
  | cons c s =>
    simp only [splitByte]
    split
    · simp
    · split <;> simp

theorem splitByte_eq_single (s y : GoString) (h : splitByte dot s = [y]) : s = y := by
  induction s generalizing y with
  | nil => simpa [splitByte] using h
  | cons c s ih =>
    simp only [splitByte] at h
    split at h
    · simp only [List.cons.injEq] at h
      exact absurd h.2 (splitByte_ne_nil s)
    · split at h
      · rename_i hnil
        exact absurd hnil (splitByte_ne_nil s)
      · rename_i p ps hsp
        simp only [List.cons.injEq] at h
        obtain ⟨h1, h2⟩ := h
        subst h2
        rw [← h1, ih p hsp]

theorem splitByte_pair (key x y : GoString) (h : splitByte dot key = [x, y]) :
    key = x ++ dot :: y := by
  induction key generalizing x with
  | nil => simp [splitByte] at h
  | cons c s ih =>
    simp only [splitByte] at h
    split at h
    · rename_i hc
      simp only [List.cons.injEq] at h
      obtain ⟨h1, h2⟩ := h
      rw [← h1, hc, splitByte_eq_single s y h2]
      rfl
    · split at h
      · simp at h
      · rename_i p ps hsp
        simp only [List.cons.injEq] at h
        obtain ⟨h1, h2⟩ := h
        subst h2
        rw [← h1, ih p hsp]
        rfl

theorem splitByte_append (x y : GoString) (hx : dot ∉ x) (hy : dot ∉ y) :
    splitByte dot (x ++ dot :: y) = [x, y] := by
  induction x with
  | nil => simp [splitByte, splitByte_single y hy]
  | cons c x ih =>
    have hc : c ≠ dot := fun e => hx (by simp [e])
    have hx' : dot ∉ x := fun e => hx (by simp [e])
    simp [splitByte, hc, ih hx']

theorem groupAdditional_eq (elements : List (GoString × MapElem)) :
    groupAdditional elements = elements.foldl groupStep [] := rfl

theorem mapGet_ensureGroup (groups : List (GoString × List (GoString × GoString)))
    (cn n : GoString) :
    (mapGet (ensureGroup groups cn) n).getD [] = (mapGet groups n).getD [] := by
  unfold ensureGroup
  cases h : mapGet groups cn with
  | some g => rfl
  | none =>
    simp only [mapGet_mapSet]
    by_cases hc : cn = n
    · subst hc; simp [h]
    · simp [hc]

theorem storeAttr_attr (g : List (GoString × List (GoString × GoString)))
    (cn an : GoString) (e : MapElem) (n a : GoString) :
    mapGet ((mapGet (storeAttr g cn an e) n).getD []) a =
      if cn = n ∧ an = a then
        match e with
        | .string (.value s) => some s
        | _ => mapGet ((mapGet g n).getD []) a
      else mapGet ((mapGet g n).getD []) a := by
  have hstr : ∀ s, mapGet ((mapGet (mapSet g cn
      (mapSet ((mapGet g cn).getD []) an s)) n).getD []) a =
      if cn = n ∧ an = a then some s else mapGet ((mapGet g n).getD []) a := by
    intro s
    simp only [mapGet_mapSet]
    by_cases hc : cn = n
    · subst hc
      by_cases han : an = a
      · simp [mapGet_mapSet, han]
      · simp [mapGet_mapSet, han]
    · simp [hc]
  cases e with
  | string s =>
    cases s with
    | value v => exact hstr v
    | null => simp [storeAttr]
    | unknown => simp [storeAttr]
  | component c => simp [storeAttr]
  | other t => simp [storeAttr]

/-- The attribute `a` of the group `n` after one round of the grouping loop. -/
theorem groupStep_attr (groups : List (GoString × List (GoString × GoString)))
    (kv : GoString × MapElem) (n a : GoString) :
    mapGet ((mapGet (groupStep groups kv) n).getD []) a =
      if splitByte dot kv.1 = [n, a] then
        match kv.2 with
        | .string (.value s) => some s
        | _ => mapGet ((mapGet groups n).getD []) a
      else mapGet ((mapGet groups n).getD []) a := by
  unfold groupStep
  split
  · rename_i cn an hsplit
    rw [hsplit, storeAttr_attr, mapGet_ensureGroup]
    by_cases hna : cn = n ∧ an = a
    · have : [cn, an] = [n, a] := by rw [hna.1, hna.2]
      rw [if_pos hna, if_pos this]
    · have hne : ¬ [cn, an] = [n, a] := by
        intro e
        simp only [List.cons.injEq, and_true] at e
        exact hna e
      rw [if_neg hna, if_neg hne]
  · rename_i hns
    have hne : ¬ splitByte dot kv.1 = [n, a] := fun e => hns n a e
    rw [if_neg hne]

theorem foldl_groupStep_attr_other (elements : List (GoString × MapElem))
    (groups : List (GoString × List (GoString × GoString))) (n a : GoString)
    (h : n ++ dot :: a ∉ elements.map Prod.fst) :
    mapGet ((mapGet (elements.foldl groupStep groups) n).getD []) a
      = mapGet ((mapGet groups n).getD []) a := by
  induction elements generalizing groups with
  | nil => rfl
  | cons kv rest ih =>
    simp only [List.map_cons, List.mem_cons, not_or] at h
    rw [List.foldl_cons, ih _ h.2, groupStep_attr]
    have hne : ¬ splitByte dot kv.1 = [n, a] := by
      intro e
      exact h.1 (splitByte_pair _ _ _ e).symm
    rw [if_neg hne]

/-- Grouping: the attribute `a` of the group `n` is the known string stored
under the key `n.a` of the map. -/
theorem groupAdditional_attr (m : GoMap MapElem) (n a : GoString)
    (hn : dot ∉ n) (ha : dot ∉ a) :
    mapGet ((mapGet (groupAdditional m.entries) n).getD []) a = additionalAttr m n a := by
  have key : ∀ (elements : List (GoString × MapElem)),
      (elements.map Prod.fst).Nodup →
      ∀ groups : List (GoString × List (GoString × GoString)),
      mapGet ((mapGet (elements.foldl groupStep groups) n).getD []) a =
        match mapGet elements (n ++ dot :: a) with
        | some (.string (.value s)) => some s
        | _ => mapGet ((mapGet groups n).getD []) a := by
    intro elements
    induction elements with
    | nil => intro _ groups; rfl
    | cons kv rest ih =>
      intro hnd groups
      obtain ⟨k0, e0⟩ := kv
      simp only [List.map_cons, List.nodup_cons] at hnd
      rw [List.foldl_cons]
      by_cases hk : k0 = n ++ dot :: a
      · subst hk
        rw [foldl_groupStep_attr_other rest _ n a hnd.1, groupStep_attr]
        simp only [splitByte_append n a hn ha, if_true, mapGet]
        cases e0 with
        | string s => cases s <;> rfl
        | component c => rfl
        | other t => rfl
      · rw [ih hnd.2, groupStep_attr]
        have hne : ¬ splitByte dot k0 = [n, a] := by
          intro e
          exact hk (splitByte_pair _ _ _ e)
        simp only [if_neg hne, mapGet, if_neg hk]
  rw [groupAdditional_eq, key m.entries m.nodup []]
  unfold additionalAttr GoMap.lookup
  cases h : mapGet m.entries (n ++ dot :: a) with
  | none => rfl
  | some e =>
    cases e with
    | string s => cases s <;> rfl
    | component c => rfl
    | other t => rfl

theorem mem_keys_mapSet {V : Type} (l : List (GoString × V)) (k x : GoString) (v : V) :
    x ∈ (mapSet l k v).map Prod.fst ↔ x ∈ l.map Prod.fst ∨ x = k := by
  induction l with
  | nil => simp [mapSet]
  | cons kv rest ih =>
    obtain ⟨k0, v0⟩ := kv
    by_cases h : k0 = k
    · subst h
      simp only [mapSet, if_true, List.map_cons, List.mem_cons]
      tauto
    · simp only [mapSet, if_neg h, List.map_cons, List.mem_cons, ih]
      tauto

theorem nodup_keys_mapSet {V : Type} (l : List (GoString × V)) (k : GoString) (v : V)
    (h : (l.map Prod.fst).Nodup) : ((mapSet l k v).map Prod.fst).Nodup := by
  induction l with
  | nil => simp [mapSet]
  | cons kv rest ih =>
    obtain ⟨k0, v0⟩ := kv
    simp only [List.map_cons, List.nodup_cons] at h
    by_cases hk : k0 = k
    · subst hk
      simp only [mapSet, if_true, List.map_cons, List.nodup_cons]
      exact h
    · simp only [mapSet, if_neg hk, List.map_cons, List.nodup_cons]
      refine ⟨?_, ih h.2⟩
      rw [mem_keys_mapSet]
      intro hx
      rcases hx with hx | hx
      · exact h.1 hx
      · exact hk hx

theorem mapGet_eq_none_iff {V : Type} (l : List (GoString × V)) (k : GoString) :
    mapGet l k = none ↔ k ∉ l.map Prod.fst := by
  induction l with
  | nil => simp [mapGet]
  | cons kv rest ih =>
    obtain ⟨k0, v0⟩ := kv
    by_cases h : k0 = k
    · subst h; simp [mapGet]
    · have h' : ¬ k = k0 := fun e => h e.symm
      simp [mapGet, h, h', ih]

theorem groupStep_keys (groups : List (GoString × List (GoString × GoString)))
    (kv : GoString × MapElem) (x : GoString)
    (hx : x ∈ (groupStep groups kv).map Prod.fst) :
    x ∈ groups.map Prod.fst ∨ ∃ an, splitByte dot kv.1 = [x, an] := by
  unfold groupStep at hx
  split at hx
  · rename_i cn an hsplit
    have hens : x ∈ (ensureGroup groups cn).map Prod.fst → x ∈ groups.map Prod.fst ∨ x = cn := by
      unfold ensureGroup
      cases mapGet groups cn with
      | none => simp only [mem_keys_mapSet]; exact id
      | some g => exact Or.inl
    have hst : x ∈ (ensureGroup groups cn).map Prod.fst ∨ x = cn := by
      unfold storeAttr at hx
      split at hx
      · exact (mem_keys_mapSet _ _ _ _).1 hx
      · exact Or.inl hx
    rcases hst with h | h
    · rcases hens h with h | h
      · exact Or.inl h
      · exact Or.inr ⟨an, by rw [h]; exact hsplit⟩
    · exact Or.inr ⟨an, by rw [h]; exact hsplit⟩
  · exact Or.inl hx

theorem groupStep_nodup (groups : List (GoString × List (GoString × GoString)))
    (kv : GoString × MapElem) (h : (groups.map Prod.fst).Nodup) :
    ((groupStep groups kv).map Prod.fst).Nodup := by
  unfold groupStep
  split
  · rename_i cn an hsplit
    have hens : ((ensureGroup groups cn).map Prod.fst).Nodup := by
      unfold ensureGroup
      cases mapGet groups cn with
      | none => exact nodup_keys_mapSet _ _ _ h
      | some g => exact h
    unfold storeAttr
    split
    · exact nodup_keys_mapSet _ _ _ hens
    · exact hens
  · exact h

theorem groupAdditional_nodup (elements : List (GoString × MapElem)) :
    ((groupAdditional elements).map Prod.fst).Nodup := by
  rw [groupAdditional_eq]
  have key : ∀ groups : List (GoString × List (GoString × GoString)),
      (groups.map Prod.fst).Nodup →
      ((elements.foldl groupStep groups).map Prod.fst).Nodup := by
    induction elements with
    | nil => intro groups h; exact h
    | cons kv rest ih =>
      intro groups h
      exact ih _ (groupStep_nodup groups kv h)
  exact key [] List.nodup_nil

theorem foldl_groupStep_keys (elements : List (GoString × MapElem)) (x : GoString)
    (groups : List (GoString × List (GoString × GoString)))
    (h : x ∈ (elements.foldl groupStep groups).map Prod.fst) :
    x ∈ groups.map Prod.fst ∨ ∃ kv ∈ elements, ∃ an, splitByte dot kv.1 = [x, an] := by
  induction elements generalizing groups with
  | nil => exact Or.inl h
  | cons kv rest ih =>
    rcases ih _ h with h1 | ⟨kv', hkv', an, hs⟩
    · rcases groupStep_keys groups kv x h1 with h2 | ⟨an, hs⟩
      · exact Or.inl h2
      · exact Or.inr ⟨kv, List.mem_cons_self _ _, an, hs⟩
    · exact Or.inr ⟨kv', List.mem_cons_of_mem _ hkv', an, hs⟩

/-- Every group name is the first part of a key of the map that splits into
exactly two parts. -/
theorem groupAdditional_keys (elements : List (GoString × MapElem)) (x : GoString)
    (hx : x ∈ (groupAdditional elements).map Prod.fst) :
    ∃ kv ∈ elements, ∃ an, splitByte dot kv.1 = [x, an] := by
  rw [groupAdditional_eq] at hx
  rcases foldl_groupStep_keys elements x [] hx with h | h
  · simp at h
  · exact h

theorem addComponentPlaceholders_eq (placeholders : List (GoString × GoString))
    (componentName : GoString) (attrs : List (GoString × GoString)) :
    addComponentPlaceholders placeholders componentName attrs
      = (groupWrites componentName attrs).foldl (fun P kv => mapSet P kv.1 kv.2)
          placeholders := by
  unfold addComponentPlaceholders groupWrites placeholderSuffixes
  simp only [List.flatMap_cons, List.flatMap_nil, List.append_nil, List.foldl_append]
  cases mapGet attrs (str "fullname") with
  | none =>
    cases mapGet attrs (str "shortcode") with
    | none =>
      cases mapGet attrs (str "char") with
      | none => rfl
      | some c => by_cases hc : c = [] <;> simp [hc]
    | some s =>
      cases mapGet attrs (str "char") with
      | none => by_cases hs : s = [] <;> simp [hs]
      | some c => by_cases hs : s = [] <;> by_cases hc : c = [] <;> simp [hs, hc]
  | some f =>
    cases mapGet attrs (str "shortcode") with
    | none =>
      cases mapGet attrs (str "char") with
      | none => by_cases hf : f = [] <;> simp [hf]
      | some c => by_cases hf : f = [] <;> by_cases hc : c = [] <;> simp [hf, hc]
    | some s =>
      cases mapGet attrs (str "char") with
      | none => by_cases hf : f = [] <;> by_cases hs : s = [] <;> simp [hf, hs]
      | some c =>
        by_cases hf : f = [] <;> by_cases hs : s = [] <;> by_cases hc : c = [] <;>
          simp [hf, hs, hc]

/-- All assignments of the additional-components stage, in order. -/
theorem additionalPlaceholders_eq (order : RangeOrder)
    (params : ResourceNamingParametersValue) (m : GoMap MapElem)
    (hm : mapGet params.Attributes (str "additional_components") = some (.map (.known m)))
    (placeholders : List (GoString × GoString)) :
    additionalPlaceholders order params placeholders
      = ((order.groups (groupAdditional m.entries)).flatMap
          (fun g => groupWrites g.1 g.2)).foldl (fun P kv => mapSet P kv.1 kv.2)
          placeholders := by
  unfold additionalPlaceholders
  rw [hm]
  simp only []
  rw [← foldl_nested]
  congr 1
  funext P g
  exact addComponentPlaceholders_eq P g.1 g.2

theorem mapGet_writes_none {V : Type} (W : List (GoString × V)) (P : List (GoString × V))
    (K : GoString) (h : ∀ kv ∈ W, kv.1 ≠ K) :
    mapGet (W.foldl (fun P kv => mapSet P kv.1 kv.2) P) K = mapGet P K := by
  induction W generalizing P with
  | nil => rfl
  | cons w W ih =>
    rw [List.foldl_cons, ih _ (fun kv hkv => h kv (List.mem_cons_of_mem _ hkv)), mapGet_mapSet,
      if_neg (h w (List.mem_cons_self _ _))]

theorem mapGet_writes_some {V : Type} (W : List (GoString × V)) (P : List (GoString × V))
    (K : GoString) (v : V) (hall : ∀ kv ∈ W, kv.1 = K → kv.2 = v)
    (hex : ∃ kv ∈ W, kv.1 = K) :
    mapGet (W.foldl (fun P kv => mapSet P kv.1 kv.2) P) K = some v := by
  induction W generalizing P with
  | nil => obtain ⟨kv, hkv, _⟩ := hex; cases hkv
  | cons w W ih =>
    rw [List.foldl_cons]
    by_cases hW : ∃ kv ∈ W, kv.1 = K
    · exact ih _ (fun kv hkv => hall kv (List.mem_cons_of_mem _ hkv)) hW
    · have hnone : ∀ kv ∈ W, kv.1 ≠ K := fun kv hkv e => hW ⟨kv, hkv, e⟩
      rw [mapGet_writes_none W _ K hnone, mapGet_mapSet]
      obtain ⟨kv, hkv, hk⟩ := hex
      rcases List.mem_cons.1 hkv with h | h
      · subst h
        rw [if_pos hk, hall kv (List.mem_cons_self _ _) hk]
      · exact absurd ⟨kv, h, hk⟩ hW

theorem mem_keys_writes {V : Type} (W : List (GoString × V)) (P : List (GoString × V))
    (x : GoString) (h : x ∈ (W.foldl (fun P kv => mapSet P kv.1 kv.2) P).map Prod.fst) :
    x ∈ P.map Prod.fst ∨ x ∈ W.map Prod.fst := by
  induction W generalizing P with
  | nil => exact Or.inl h
  | cons w W ih =>
    rw [List.foldl_cons] at h
    rcases ih _ h with h1 | h1
    · rcases (mem_keys_mapSet _ _ _ _).1 h1 with h2 | h2
      · exact Or.inl h2
      · exact Or.inr (by simp [h2])
    · exact Or.inr (by simp only [List.map_cons, List.mem_cons]; exact Or.inr h1)

theorem mem_groupWrites (g : GoString) (attrs : List (GoString × GoString))
    (kv : GoString × GoString) :
    kv ∈ groupWrites g attrs ↔
      ∃ sa ∈ placeholderSuffixes, ∃ v, mapGet attrs sa.2 = some v ∧ v ≠ [] ∧
        kv = ([lbrace] ++ g ++ sa.1, v) := by
  unfold groupWrites
  rw [List.mem_flatMap]
  constructor
  · rintro ⟨sa, hsa, hkv⟩
    refine ⟨sa, hsa, ?_⟩
    cases hget : mapGet attrs sa.2 with
    | none => rw [hget] at hkv; cases hkv
    | some v =>
      rw [hget] at hkv
      by_cases hv : v = []
      · simp [hv] at hkv
      · simp only [ne_eq, hv, not_false_eq_true, if_true, List.mem_singleton] at hkv
        exact ⟨v, rfl, hv, hkv⟩
  · rintro ⟨sa, hsa, v, hget, hv, hkv⟩
    refine ⟨sa, hsa, ?_⟩
    rw [hget]
    simp [hv, hkv]

/-- Two placeholders of additional components with colon-free names coincide
only when the names and the suffixes coincide. -/
theorem placeholder_key_inj (g n : GoString) (hg : colon ∉ g) (hn : colon ∉ n)
    (sa sb : GoString × GoString) (ha : sa ∈ placeholderSuffixes)
    (hb : sb ∈ placeholderSuffixes)
    (h : [lbrace] ++ g ++ sa.1 = [lbrace] ++ n ++ sb.1) : g = n ∧ sa = sb := by
  have hF : str ":full\x7d" = [58, 102, 117, 108, 108, 125] := by decide
  have hS : str ":short\x7d" = [58, 115, 104, 111, 114, 116, 125] := by decide
  have hC : str ":char\x7d" = [58, 99, 104, 97, 114, 125] := by decide
  have h' : g ++ sa.1 = n ++ sb.1 := by simpa using h
  have hrev := congrArg List.reverse h'
  have hgr : colon ∉ g.reverse := by simpa using hg
  have hnr : colon ∉ n.reverse := by simpa using hn
  simp only [placeholderSuffixes, List.mem_cons, List.mem_singleton, List.not_mem_nil,
    or_false] at ha hb
  rcases ha with ha | ha | ha | ha <;> rcases hb with hb | hb | hb | hb <;>
    subst ha <;> subst hb <;>
    simp only [hF, hS, hC, List.reverse_append, List.reverse_cons, List.reverse_nil,
      List.nil_append, List.cons_append, List.append_assoc, List.singleton_append,
      List.cons.injEq, List.append_cancel_right_eq, List.reverse_inj, true_and,
      and_true, and_self] at hrev <;>
    first
    | exact ⟨hrev, rfl⟩
    | (exfalso; omega)
    | (exfalso; exact hgr (by rw [hrev]; simp))
    | (exfalso; exact hnr (by rw [← hrev]; simp))

theorem suffix_attr_unique (sa sb : GoString × GoString) (ha : sa ∈ placeholderSuffixes)
    (hb : sb ∈ placeholderSuffixes) (h : sa.1 = sb.1) : sa = sb := by
  have hall : ∀ x ∈ placeholderSuffixes, ∀ y ∈ placeholderSuffixes, x.1 = y.1 → x = y := by
    decide
  exact hall sa ha sb hb h

/-- The entry of a placeholder of the component `n` after all assignments of
the groups, when every group name is colon-free. -/
theorem mapGet_groupWrites (groups L : List (GoString × List (GoString × GoString)))
    (hperm : L.Perm groups) (hnd : (groups.map Prod.fst).Nodup)
    (hcolon : ∀ g ∈ groups, colon ∉ g.1)
    (n : GoString) (hn : colon ∉ n) (sa : GoString × GoString)
    (hsa : sa ∈ placeholderSuffixes) (P : List (GoString × GoString)) :
    mapGet ((L.flatMap (fun g => groupWrites g.1 g.2)).foldl
        (fun P kv => mapSet P kv.1 kv.2) P) ([lbrace] ++ n ++ sa.1)
      = match mapGet ((mapGet groups n).getD []) sa.2 with
        | some v => if v ≠ [] then some v else mapGet P ([lbrace] ++ n ++ sa.1)
        | none => mapGet P ([lbrace] ++ n ++ sa.1) := by
  -- every assignment to this key comes from the group `n` and the attribute `sa.2`
  have hsrc : ∀ kv ∈ L.flatMap (fun g => groupWrites g.1 g.2),
      kv.1 = [lbrace] ++ n ++ sa.1 →
      mapGet ((mapGet groups n).getD []) sa.2 = some kv.2 ∧ kv.2 ≠ [] := by
    intro kv hkv hk
    obtain ⟨g, hg, hw⟩ := List.mem_flatMap.1 hkv
    obtain ⟨sb, hsb, v, hget, hv, hkveq⟩ := (mem_groupWrites g.1 g.2 kv).1 hw
    have hgm : g ∈ groups := hperm.mem_iff.1 hg
    rw [hkveq] at hk
    obtain ⟨hname, hsuf⟩ := placeholder_key_inj g.1 n (hcolon g hgm) hn sb sa hsb hsa hk
    have hlook : mapGet groups n = some g.2 := by
      rw [mapGet_eq_some_iff groups hnd, ← hname]
      exact hgm
    rw [hlook, ← hsuf, hkveq]
    exact ⟨hget, hv⟩
  cases hattr : mapGet ((mapGet groups n).getD []) sa.2 with
  | none =>
    simp only []
    apply mapGet_writes_none
    intro kv hkv hk
    have := (hsrc kv hkv hk).1
    rw [hattr] at this
    cases this
  | some v =>
    by_cases hv : v = []
    · simp only [hv, ne_eq, not_true_eq_false, if_false]
      apply mapGet_writes_none
      intro kv hkv hk
      obtain ⟨h1, h2⟩ := hsrc kv hkv hk
      rw [hattr, hv] at h1
      exact h2 (Option.some.inj h1).symm
    · simp only [ne_eq, hv, not_false_eq_true, if_true]
      apply mapGet_writes_some
      · intro kv hkv hk
        have := (hsrc kv hkv hk).1
        rw [hattr] at this
        exact (Option.some.inj this).symm
      · -- the group `n` exists and makes the assignment
        cases hlook : mapGet groups n with
        | none =>
          rw [hlook] at hattr
          cases hattr
        | some attrs =>
          rw [hlook] at hattr
          have hmem : (n, attrs) ∈ L :=
            hperm.mem_iff.2 ((mapGet_eq_some_iff groups hnd n attrs).1 hlook)
          refine ⟨([lbrace] ++ n ++ sa.1, v), ?_, rfl⟩
          rw [List.mem_flatMap]
          exact ⟨(n, attrs), hmem, (mem_groupWrites n attrs _).2 ⟨sa, hsa, v, hattr, hv, rfl⟩⟩

/-- The entry that the additional-components stage leaves in the placeholder
map for a placeholder of the component `n`: the non-empty attribute of `n`
that belongs to the placeholder, and otherwise what the map held before. -/
theorem mapGet_additionalPlaceholders (order : RangeOrder)
    (params : ResourceNamingParametersValue) (m : GoMap MapElem)
    (hm : mapGet params.Attributes (str "additional_components") = some (.map (.known m)))
    (hkeys : ∀ key ∈ m.entries.map Prod.fst, colon ∉ key)
    (n : GoString) (hn : colon ∉ n) (hdot : dot ∉ n) (sa : GoString × GoString)
    (hsa : sa ∈ placeholderSuffixes) (P : List (GoString × GoString)) :
    mapGet (additionalPlaceholders order params P) ([lbrace] ++ n ++ sa.1)
      = match additionalAttr m n sa.2 with
        | some v => if v ≠ [] then some v else mapGet P ([lbrace] ++ n ++ sa.1)
        | none => mapGet P ([lbrace] ++ n ++ sa.1) := by
  have hattrdot : ∀ sb ∈ placeholderSuffixes, dot ∉ sb.2 := by decide
  have hcolon : ∀ g ∈ groupAdditional m.entries, colon ∉ g.1 := by
    intro g hg
    obtain ⟨kv, hkv, an, hsplit⟩ :=
      groupAdditional_keys m.entries g.1 (List.mem_map_of_mem Prod.fst hg)
    have hkey := hkeys kv.1 (List.mem_map_of_mem Prod.fst hkv)
    rw [splitByte_pair _ _ _ hsplit] at hkey
    intro hc
    exact hkey (List.mem_append_left _ hc)
  rw [additionalPlaceholders_eq order params m hm,
    mapGet_groupWrites (groupAdditional m.entries) _ (order.groups_perm _)
      (groupAdditional_nodup m.entries) hcolon n hn sa hsa P,
    groupAdditional_attr m n sa.2 hdot (hattrdot sa hsa)]

/-! ## Tokens that no entry of the placeholder map resolves -/

theorem startsWith_append_cases (A X key : GoString) (h : startsWith (A ++ X) key = true) :
    (∃ r, A = key ++ r) ∨ (∃ k2, k2 ≠ [] ∧ key = A ++ k2 ∧ startsWith X k2 = true) := by
  induction A generalizing key with
  | nil =>
    cases key with
    | nil => exact Or.inl ⟨[], rfl⟩
    | cons c key => exact Or.inr ⟨c :: key, by simp, rfl, h⟩
  | cons a A ih =>
    cases key with
    | nil => exact Or.inl ⟨a :: A, rfl⟩
    | cons c key =>
      simp only [List.cons_append, startsWith] at h
      by_cases hac : a = c
      · subst hac
        simp only [if_true] at h
        rcases ih key h with ⟨r, hr⟩ | ⟨k2, hk0, hk, hs⟩
        · exact Or.inl ⟨r, by rw [hr]; rfl⟩
        · exact Or.inr ⟨k2, hk0, by rw [hk]; rfl, hs⟩
      · simp [hac] at h

theorem startsWith_head (X k2 : GoString) (c : Nat) (h : startsWith (c :: X) k2 = true)
    (hne : k2 ≠ []) : ∃ r, k2 = c :: r := by
  cases k2 with
  | nil => exact absurd rfl hne
  | cons d r =>
    simp only [startsWith] at h
    by_cases hcd : c = d
    · exact ⟨r, by rw [hcd]⟩
    · simp [hcd] at h

/-- A replacement of a brace token `key` leaves an occurrence of another brace
token `K` in place, whatever surrounds it and whatever the value is. -/
theorem replaceAux_keeps_token (key v K : GoString) (hkey : isToken key = true)
    (hK : isToken K = true) (hne : K ≠ key) (A B : GoString) :
    ∃ A' B', replaceAux key v 0 (A ++ K ++ B) = A' ++ K ++ B' := by
  obtain ⟨kb, hkeyeq, hkl, hkr⟩ := isToken_shape key hkey
  obtain ⟨Kb, hKeq, hKl, hKr⟩ := isToken_shape K hK
  have hkne : key ≠ [] := by rw [hkeyeq]; simp
  suffices hmain : ∀ len : Nat, ∀ A : GoString, A.length = len →
      ∃ A' B', replaceAux key v 0 (A ++ K ++ B) = A' ++ K ++ B' from hmain A.length A rfl
  intro len
  induction len using Nat.strong_induction_on with
  | _ len ih =>
    intro A hlen
    cases A with
    | nil =>
      have hmis := token_mismatch key K B hkey hK hne
      have hnb : lbrace ∉ Kb ++ [rbrace] := by
        simp only [List.mem_append, List.mem_singleton, not_or]
        exact ⟨hKl, by decide⟩
      refine ⟨[], replaceAux key v 0 B, ?_⟩
      have h1 : replaceAux key v 0 (K ++ B)
          = lbrace :: replaceAux key v 0 ((Kb ++ [rbrace]) ++ B) := by
        rw [hKeq] at hmis ⊢
        show replaceAux key v 0 (lbrace :: ((Kb ++ [rbrace]) ++ B)) = _
        rw [replaceAux]
        simp only [List.cons_append] at hmis
        rw [hmis]
        simp
      simp only [List.nil_append]
      rw [h1, hkeyeq, replaceAux_nobrace _ _ _ _ hnb, hKeq]
      simp
    | cons a A0 =>
      cases hsw : startsWith (a :: (A0 ++ K ++ B)) key with
      | false =>
        obtain ⟨A', B', h'⟩ := ih A0.length (by rw [← hlen]; simp) A0 rfl
        refine ⟨a :: A', B', ?_⟩
        show replaceAux key v 0 (a :: (A0 ++ K ++ B)) = _
        rw [replaceAux, hsw, h']
        simp
      | true =>
        have hsw' : startsWith ((a :: A0) ++ (K ++ B)) key = true := by
          simpa [List.append_assoc] using hsw
        rcases startsWith_append_cases (a :: A0) (K ++ B) key hsw' with
          ⟨r, hr⟩ | ⟨k2, hk2, hk, hs⟩
        · have hrl : r.length < len := by
            rw [← hlen, hr, List.length_append]
            have : 0 < key.length := List.length_pos.2 hkne
            omega
          obtain ⟨A', B', h'⟩ := ih r.length hrl r rfl
          refine ⟨v ++ A', B', ?_⟩
          rw [hr, List.append_assoc, List.append_assoc, replaceAux_match _ _ _ hkne,
            ← List.append_assoc, h']
          simp
        · exfalso
          rw [hKeq] at hs
          obtain ⟨r, hr⟩ := startsWith_head _ k2 lbrace hs hk2
          have hmem : lbrace ∈ A0 ++ k2 := by rw [hr]; simp
          rw [hkeyeq] at hk
          simp only [List.cons_append, List.cons.injEq] at hk
          rw [← hk.2] at hmem
          simp only [List.mem_append, List.mem_singleton] at hmem
          rcases hmem with h | h
          · exact hkl h
          · exact absurd h (by decide)

/-- No order of substitution removes a brace token that is not a key of the
placeholder map, provided the keys are brace tokens. -/
theorem substitute_keeps_token (K : GoString) (hK : isToken K = true)
    (entries : List (GoString × GoString))
    (hent : ∀ kv ∈ entries, isToken kv.1 = true ∧ kv.1 ≠ K) (A B : GoString) :
    ∃ A' B', substitute (A ++ K ++ B) entries = A' ++ K ++ B' := by
  induction entries generalizing A B with
  | nil => exact ⟨A, B, rfl⟩
  | cons kv rest ih =>
    obtain ⟨hkey, hne⟩ := hent kv (List.mem_cons_self _ _)
    have hkne : kv.1 ≠ [] := by
      obtain ⟨kb, hkeyeq, _, _⟩ := isToken_shape kv.1 hkey
      rw [hkeyeq]; simp
    obtain ⟨A1, B1, h1⟩ := replaceAux_keeps_token kv.1 kv.2 K hkey hK (Ne.symm hne) A B
    obtain ⟨A', B', h'⟩ := ih (fun x hx => hent x (List.mem_cons_of_mem _ hx)) A1 B1
    refine ⟨A', B', ?_⟩
    have hstep : substitute (A ++ K ++ B) (kv :: rest)
        = substitute (replaceAux kv.1 kv.2 0 (A ++ K ++ B)) rest := by
      simp [substitute, replaceAll, hkne]
    rw [hstep, h1, h']

theorem isToken_concat (body : GoString) (hl : lbrace ∉ body) (hr : rbrace ∉ body) :
    isToken (lbrace :: (body ++ [rbrace])) = true := by
  simp only [isToken, Bool.and_eq_true, decide_eq_true_eq]
  refine ⟨⟨⟨trivial, ?_⟩, ?_⟩, ?_⟩
  · simp
  · simpa using hl
  · simpa using hr

theorem isToken_placeholder (n : GoString) (hl : lbrace ∉ n) (hr : rbrace ∉ n)
    (sa : GoString × GoString) (hsa : sa ∈ placeholderSuffixes) :
    isToken ([lbrace] ++ n ++ sa.1) = true := by
  have hshape : ∀ sb ∈ placeholderSuffixes,
      ∃ body, sb.1 = body ++ [rbrace] ∧ lbrace ∉ body ∧ rbrace ∉ body := by
    intro sb hsb
    simp only [placeholderSuffixes, List.mem_cons, List.mem_singleton, List.not_mem_nil,
      or_false] at hsb
    rcases hsb with h | h | h | h <;> subst h
    · exact ⟨[], by decide, by decide, by decide⟩
    · exact ⟨str ":full", by decide, by decide, by decide⟩
    · exact ⟨str ":short", by decide, by decide, by decide⟩
    · exact ⟨str ":char", by decide, by decide, by decide⟩
  obtain ⟨body, hbody, hbl, hbr⟩ := hshape sa hsa
  have hform : [lbrace] ++ n ++ sa.1 = lbrace :: ((n ++ body) ++ [rbrace]) := by
    rw [hbody]; simp
  rw [hform]
  apply isToken_concat
  · simp only [List.mem_append, not_or]; exact ⟨hl, hbl⟩
  · simp only [List.mem_append, not_or]; exact ⟨hr, hbr⟩

theorem foldl_placeholderStep_keys (params : ResourceNamingParametersValue)
    (config : resourcenamingtoolProviderModel) (F : List (GoString × Format × GoString))
    (init : List (GoString × GoString)) (x : GoString)
    (h : x ∈ (F.foldl (placeholderStep params config) init).map Prod.fst) :
    x ∈ init.map Prod.fst ∨ x ∈ F.map (fun t => t.2.2) := by
  induction F generalizing init with
  | nil => exact Or.inl h
  | cons t rest ih =>
    rw [List.foldl_cons] at h
    rcases ih _ h with h1 | h1
    · unfold placeholderStep at h1
      cases hres : resolvePlaceholder params config t.1 t.2.1 t.2.2 with
      | none => rw [hres] at h1; exact Or.inl h1
      | some v =>
        rw [hres] at h1
        rcases (mem_keys_mapSet _ _ _ _).1 h1 with h2 | h2
        · exact Or.inl h2
        · exact Or.inr (by simp [h2])
    · exact Or.inr (by simp only [List.map_cons, List.mem_cons]; exact Or.inr h1)

/-- Every key written by the placeholder loop is a placeholder of the
`componentTypes` table. -/
theorem fixedPlaceholders_keys (params : ResourceNamingParametersValue)
    (config : resourcenamingtoolProviderModel) (pattern x : GoString)
    (h : x ∈ (fixedPlaceholders params config pattern).map Prod.fst) :
    x ∈ allPlaceholders.map (fun t => t.2.2) := by
  rw [fixedPlaceholders_eq] at h
  rcases foldl_placeholderStep_keys params config _ [] x h with h1 | h1
  · simp at h1
  · obtain ⟨t, ht, rfl⟩ := List.mem_map.1 h1
    exact List.mem_map_of_mem _ (List.mem_of_mem_filter ht)

theorem allPlaceholders_tokens :
    ∀ x ∈ allPlaceholders.map (fun t => t.2.2), isToken x = true := by decide

/-- Every key of the placeholder map is a brace token when the keys of the
`additional_components` map contain no brace. -/
theorem placeholders_tokens (order : RangeOrder) (params : ResourceNamingParametersValue)
    (config : resourcenamingtoolProviderModel) (pattern : GoString) (m : GoMap MapElem)
    (hm : mapGet params.Attributes (str "additional_components") = some (.map (.known m)))
    (hkeys : ∀ key ∈ m.entries.map Prod.fst, lbrace ∉ key ∧ rbrace ∉ key)
    (x : GoString)
    (hx : x ∈ (additionalPlaceholders order params
      (fixedPlaceholders params config pattern)).map Prod.fst) : isToken x = true := by
  rw [additionalPlaceholders_eq order params m hm] at hx
  rcases mem_keys_writes _ _ x hx with h | h
  · exact allPlaceholders_tokens x (fixedPlaceholders_keys params config pattern x h)
  · obtain ⟨kv, hkv, rfl⟩ := List.mem_map.1 h
    obtain ⟨g, hg, hw⟩ := List.mem_flatMap.1 hkv
    obtain ⟨sb, hsb, v, _, _, hkveq⟩ := (mem_groupWrites g.1 g.2 kv).1 hw
    have hgm : g ∈ groupAdditional m.entries := (order.groups_perm _).mem_iff.1 hg
    obtain ⟨kv0, hkv0, an, hsplit⟩ :=
      groupAdditional_keys m.entries g.1 (List.mem_map_of_mem Prod.fst hgm)
    have hkey := hkeys kv0.1 (List.mem_map_of_mem Prod.fst hkv0)
    rw [splitByte_pair _ _ _ hsplit] at hkey
    rw [hkveq]
    exact isToken_placeholder g.1 (fun hc => hkey.1 (List.mem_append_left _ hc))
      (fun hc => hkey.2 (List.mem_append_left _ hc)) sb hsb

/-- A brace token of the pattern that is not a key of the placeholder map makes
`generateResourceName` fail with `Unresolved Components`, the token being part
of the reported string. -/
theorem generateResourceName_token_unresolved (order : RangeOrder)
    (params : ResourceNamingParametersValue) (config : resourcenamingtoolProviderModel)
    (k A K B : GoString)
    (hkey : effectiveResourceType params config = .ok k)
    (hpat : patternByPrecedence builtin_NamingPatterns params config k = some (A ++ K ++ B))
    (hK : isToken K = true)
    (htok : ∀ x ∈ (additionalPlaceholders order params
      (fixedPlaceholders params config (A ++ K ++ B))).map Prod.fst, isToken x = true)
    (hnone : mapGet (additionalPlaceholders order params
      (fixedPlaceholders params config (A ++ K ++ B))) K = none) :
    ∃ result, generateResourceName order params config
        = ([], [⟨str "Unresolved Components",
            str "Resource name contains unrecognized components: " ++ result⟩]) ∧
      contains result K = true := by
  have hperm := order.placeholders_perm (additionalPlaceholders order params
      (fixedPlaceholders params config (A ++ K ++ B)))
  have hnotkey : K ∉ (additionalPlaceholders order params
      (fixedPlaceholders params config (A ++ K ++ B))).map Prod.fst :=
    (mapGet_eq_none_iff _ _).1 hnone
  obtain ⟨A', B', hres⟩ := substitute_keeps_token K hK
    (order.placeholders (additionalPlaceholders order params
      (fixedPlaceholders params config (A ++ K ++ B))))
    (by
      intro kv hkv
      have hmem := hperm.mem_iff.1 hkv
      refine ⟨htok kv.1 (List.mem_map_of_mem Prod.fst hmem), ?_⟩
      intro e
      have hk := List.mem_map_of_mem Prod.fst hmem
      rw [e] at hk
      exact hnotkey hk) A B
  refine ⟨A' ++ K ++ B', ?_, ?_⟩
  · rw [generateResourceName_eq_validateResult order params config k _ hkey hpat, hres]
    apply validateResult_unresolved
    have hb : str "\x7b" = [lbrace] := by decide
    rw [hb]
    apply (contains_singleton _ _).2
    obtain ⟨Kb, hKeq, _, _⟩ := isToken_shape K hK
    rw [hKeq]
    simp
  · rw [List.append_assoc]
    apply contains_append_left
    have h := startsWith_append K B'
    cases hKB : K ++ B' with
    | nil =>
      obtain ⟨Kb, hKeq, _, _⟩ := isToken_shape K hK
      rw [hKeq] at hKB
      simp at hKB
    | cons c rest =>
      rw [hKB] at h
      rw [contains, h]
      rfl

/-! ## Free-form additional components -/

/-- A placeholder of the table that ends in `:short}` or `:char}` is the one of
a slot name. -/
theorem allPlaceholders_suffix (n x suffix : GoString)
    (hs : suffix = str ":short\x7d" ∨ suffix = str ":char\x7d")
    (hx : x ∈ allPlaceholders.map (fun t => t.2.2)) (he : x = [lbrace] ++ n ++ suffix) :
    n ∈ componentTypes.map (fun ct => ct.Name) := by
  have hn : n = (x.drop 1).take (x.length - 1 - suffix.length) := by
    rw [he]; simp
  have key : ∀ s ∈ [str ":short\x7d", str ":char\x7d"],
      ∀ y ∈ allPlaceholders.map (fun t => t.2.2),
      y = [lbrace] ++ (y.drop 1).take (y.length - 1 - s.length) ++ s →
      (y.drop 1).take (y.length - 1 - s.length) ∈ componentTypes.map (fun ct => ct.Name) := by
    decide
  have hmem : suffix ∈ [str ":short\x7d", str ":char\x7d"] := by
    rcases hs with h | h <;> simp [h]
  rw [hn]
  apply key suffix hmem x hx
  rw [← hn]
  exact he

/-- A placeholder of an additional component whose attribute is missing or
empty, and which the table of fixed slots does not list, is not a key of the
placeholder map. -/
theorem mapGet_additional_missing (order : RangeOrder)
    (params : ResourceNamingParametersValue) (config : resourcenamingtoolProviderModel)
    (pattern : GoString) (m : GoMap MapElem)
    (hm : mapGet params.Attributes (str "additional_components") = some (.map (.known m)))
    (hkeys : ∀ key ∈ m.entries.map Prod.fst, colon ∉ key)
    (n : GoString) (hn : colon ∉ n) (hdot : dot ∉ n) (sa : GoString × GoString)
    (hsa : sa ∈ placeholderSuffixes)
    (hattr : additionalAttr m n sa.2 = none ∨ additionalAttr m n sa.2 = some [])
    (hfree : [lbrace] ++ n ++ sa.1 ∉ allPlaceholders.map (fun t => t.2.2)) :
    mapGet (additionalPlaceholders order params (fixedPlaceholders params config pattern))
      ([lbrace] ++ n ++ sa.1) = none := by
  have hP : mapGet (fixedPlaceholders params config pattern) ([lbrace] ++ n ++ sa.1) = none :=
    (mapGet_eq_none_iff _ _).2 (fun h => hfree (fixedPlaceholders_keys _ _ _ _ h))
  rw [mapGet_additionalPlaceholders order params m hm hkeys n hn hdot sa hsa]
  rcases hattr with h | h <;> rw [h] <;> simpa using hP

/-- C11, for maps whose keys contain neither a colon nor a brace. The entries
of a call-time `additional_components` map are grouped by the name before the
dot; for a name `n` the placeholders `{n}` and `{n:full}` are set from a
non-empty `fullname`, `{n:short}` from a non-empty `shortcode` and `{n:char}`
from a non-empty `char`, and otherwise keep what the fixed slots left, with no
fallback between attributes. When `n` is not a slot name and its `shortcode`
(`char`) is missing or empty, a template that uses `{n:short}` (`{n:char}`)
fails with `Unresolved Components` and the error text contains the token. -/
theorem additional_components_no_fallback (order : RangeOrder)
    (params : ResourceNamingParametersValue) (config : resourcenamingtoolProviderModel)
    (m : GoMap MapElem)
    (hm : mapGet params.Attributes (str "additional_components") = some (.map (.known m)))
    (hkeys : ∀ key ∈ m.entries.map Prod.fst, colon ∉ key ∧ lbrace ∉ key ∧ rbrace ∉ key)
    (n : GoString) (hn : dot ∉ n ∧ colon ∉ n ∧ lbrace ∉ n ∧ rbrace ∉ n) :
    (∀ a, dot ∉ a →
      mapGet ((mapGet (groupAdditional m.entries) n).getD []) a = additionalAttr m n a) ∧
    (∀ P, ∀ sa ∈ placeholderSuffixes,
      mapGet (additionalPlaceholders order params P) ([lbrace] ++ n ++ sa.1)
        = match additionalAttr m n sa.2 with
          | some v => if v ≠ [] then some v else mapGet P ([lbrace] ++ n ++ sa.1)
          | none => mapGet P ([lbrace] ++ n ++ sa.1)) ∧
    (n ∉ componentTypes.map (fun ct => ct.Name) →
      ∀ sa ∈ [(str ":short\x7d", str "shortcode"), (str ":char\x7d", str "char")],
      (additionalAttr m n sa.2 = none ∨ additionalAttr m n sa.2 = some []) →
      ∀ k A B, effectiveResourceType params config = .ok k →
        patternByPrecedence builtin_NamingPatterns params config k
          = some (A ++ ([lbrace] ++ n ++ sa.1) ++ B) →
        ∃ result, generateResourceName order params config
            = ([], [⟨str "Unresolved Components",
                str "Resource name contains unrecognized components: " ++ result⟩]) ∧
          contains result ([lbrace] ++ n ++ sa.1) = true) := by
  have hcolon : ∀ key ∈ m.entries.map Prod.fst, colon ∉ key := fun key hk => (hkeys key hk).1
  have hbrace : ∀ key ∈ m.entries.map Prod.fst, lbrace ∉ key ∧ rbrace ∉ key :=
    fun key hk => (hkeys key hk).2
  refine ⟨fun a ha => groupAdditional_attr m n a hn.1 ha, ?_, ?_⟩
  · intro P sa hsa
    exact mapGet_additionalPlaceholders order params m hm hcolon n hn.2.1 hn.1 sa hsa P
  · intro hfree sa hsa hattr k A B hkey hpat
    have hsa' : sa ∈ placeholderSuffixes := by
      simp only [List.mem_cons, List.mem_singleton, List.not_mem_nil, or_false] at hsa
      rcases hsa with h | h <;> rw [h] <;> decide
    have hsuf : sa.1 = str ":short\x7d" ∨ sa.1 = str ":char\x7d" := by
      simp only [List.mem_cons, List.mem_singleton, List.not_mem_nil, or_false] at hsa
      rcases hsa with h | h <;> rw [h] <;> simp
    have htable : [lbrace] ++ n ++ sa.1 ∉ allPlaceholders.map (fun t => t.2.2) :=
      fun hx => hfree (allPlaceholders_suffix n _ sa.1 hsuf hx rfl)
    exact generateResourceName_token_unresolved order params config k A _ B hkey hpat
      (isToken_placeholder n hn.2.2.1 hn.2.2.2 sa hsa')
      (placeholders_tokens order params config _ m hm hbrace)
      (mapGet_additional_missing order params config _ m hm hcolon n hn.2.1 hn.1 sa hsa'
        hattr htable)

set_option maxRecDepth 8000 in
/-- C11 at a concrete input: the component `team` has only a full name, so
`{team}` would be `platform` while the template `x-{team}-{team:short}` fails,
the error naming `{team:short}`. -/
theorem additional_components_no_fallback_witness :
    ∃ result, generateResourceName RangeOrder.reversed (additionalParams teamComponents)
        (literalPatternConfig (str "x-{team}-{team:short}"))
        = ([], [⟨str "Unresolved Components",
            str "Resource name contains unrecognized components: " ++ result⟩]) ∧
      contains result ([lbrace] ++ str "team" ++ str ":short\x7d") = true :=
  (additional_components_no_fallback RangeOrder.reversed (additionalParams teamComponents)
    (literalPatternConfig (str "x-{team}-{team:short}")) teamComponents rfl (by decide)
    (str "team") (by decide)).2.2 (by decide) (str ":short\x7d", str "shortcode") (by decide)
    (by decide) (str "t") (str "x-{team}-") [] rfl (by decide)

set_option maxRecDepth 8000 in
/-- C11 does not hold for every map: a component may be named `n:short`, and
its full name is then what `{n:short}` is replaced by, although the component
`n` has no short code. -/
theorem additional_component_name_with_colon :
    additionalAttr collidingComponents (str "n") (str "shortcode") = none ∧
    generateResourceName RangeOrder.insertion (additionalParams collidingComponents)
        (literalPatternConfig (str "{n:short}")) = (str "bcd", []) ∧
    generateResourceName RangeOrder.reversed (additionalParams collidingComponents)
        (literalPatternConfig (str "{n:short}")) = (str "bcd", []) := by
  decide

/-! ## Additional components that name a fixed slot -/

theorem wf_of_check (segs : List Seg) (h : segs.all Seg.check = true) :
    ∀ seg ∈ segs, seg.WF := by
  intro seg hseg
  have hc := List.all_eq_true.1 h seg hseg
  cases seg with
  | lit s =>
    have hd : decide (lbrace ∉ s) = true := hc
    show lbrace ∉ s
    exact of_decide_eq_true hd
  | tok k => exact hc

/-- The pipeline of `generateResourceName` when the `additional_components` map
holds a single component: the iteration order of the groups is immaterial. -/
theorem generateResourceName_single_group (order : RangeOrder)
    (params : ResourceNamingParametersValue) (config : resourcenamingtoolProviderModel)
    (m : GoMap MapElem) (g : GoString × List (GoString × GoString))
    (k pattern : GoString) (segs : List Seg) (P : List (GoString × GoString))
    (hm : mapGet params.Attributes (str "additional_components") = some (.map (.known m)))
    (hg : groupAdditional m.entries = [g])
    (hkey : effectiveResourceType params config = .ok k)
    (hpat : patternByPrecedence builtin_NamingPatterns params config k = some pattern)
    (hseg : pattern = flatten segs) (hwf : ∀ seg ∈ segs, seg.WF)
    (hP : (groupWrites g.1 g.2).foldl (fun P kv => mapSet P kv.1 kv.2)
      (fixedPlaceholders params config pattern) = P)
    (hnd : (P.map Prod.fst).Nodup)
    (hent : ∀ kv ∈ P, isToken kv.1 = true ∧ lbrace ∉ kv.2) :
    generateResourceName order params config
      = validateResult (flatten (segs.map (Seg.subst P))) := by
  have hgroups : order.groups (groupAdditional m.entries) = [g] := by
    rw [hg]
    exact List.perm_singleton.1 (order.groups_perm [g])
  have hP' : additionalPlaceholders order params (fixedPlaceholders params config pattern)
      = P := by
    rw [additionalPlaceholders_eq order params m hm, hgroups]
    simpa using hP
  unfold generateResourceName
  rw [hkey]
  exact generateForType_segments builtin_NamingPatterns order params config k pattern segs P
    hpat hseg hwf hP' hnd hent

set_option maxRecDepth 8000 in
/-- C12, for maps whose keys contain no colon. When the `additional_components`
map gives a non-empty attribute for the name of a fixed slot, the entry of the
placeholder map for the corresponding placeholder (`{s}` and `{s:full}` for
`fullname`, `{s:short}` for `shortcode`, `{s:char}` for `char`) is that value,
whatever the fixed-slot resolution produced from the call-time component or
the default. With the configuration of the test suite the two test inputs
give `rg-example-prd-gwc` and `example-prd-we-2`, for every iteration order. -/
theorem additional_component_overrides_slot (order : RangeOrder) :
    (∀ (params : ResourceNamingParametersValue) (config : resourcenamingtoolProviderModel)
        (pattern : GoString) (m : GoMap MapElem),
      mapGet params.Attributes (str "additional_components") = some (.map (.known m)) →
      (∀ key ∈ m.entries.map Prod.fst, colon ∉ key) →
      ∀ compType ∈ componentTypes, ∀ sa ∈ placeholderSuffixes, ∀ v,
        additionalAttr m compType.Name sa.2 = some v → v ≠ [] →
        mapGet (additionalPlaceholders order params (fixedPlaceholders params config pattern))
          ([lbrace] ++ compType.Name ++ sa.1) = some v) ∧
    generateResourceName order regionOverrideParams providerConfig
      = (str "rg-example-prd-gwc", []) ∧
    generateResourceName order instanceOverrideParams providerConfig
      = (str "example-prd-we-2", []) := by
  refine ⟨?_, ?_, ?_⟩
  · intro params config pattern m hm hkeys compType hct sa hsa v hattr hv
    have hnames : ∀ ct ∈ componentTypes, colon ∉ ct.Name ∧ dot ∉ ct.Name := by decide
    rw [mapGet_additionalPlaceholders order params m hm hkeys compType.Name
      (hnames compType hct).1 (hnames compType hct).2 sa hsa, hattr]
    simp [hv]
  · rw [generateResourceName_single_group order regionOverrideParams providerConfig
      regionOverrideComponents
      (str "region", [(str "fullname", str "Germany West Central"),
        (str "shortcode", str "gwc"), (str "char", str "g")])
      (str "azurerm_resource_group") (str "rg-{basename}-{environment:short}-{region:short}")
      [.lit (str "rg-"), .tok (str "{basename}"), .lit (str "-"),
        .tok (str "{environment:short}"), .lit (str "-"), .tok (str "{region:short}")]
      [(str "{basename}", str "example"), (str "{environment:short}", str "prd"),
        (str "{region:short}", str "gwc"), (str "{region}", str "Germany West Central"),
        (str "{region:full}", str "Germany West Central"), (str "{region:char}", str "g")]
      rfl (by decide) rfl (by decide) (by decide) (wf_of_check _ (by decide)) (by decide)
      (by decide) (by decide)]
    decide
  · rw [generateResourceName_single_group order instanceOverrideParams providerConfig
      instanceOverrideComponents
      (str "instance", [(str "fullname", str "00002"),
        (str "shortcode", str "002"), (str "char", str "2")])
      (str "azurerm_resource_group")
      (str "{basename}-{environment:short}-{region:short}-{instance:char}")
      [.tok (str "{basename}"), .lit (str "-"),
        .tok (str "{environment:short}"), .lit (str "-"), .tok (str "{region:short}"),
        .lit (str "-"), .tok (str "{instance:char}")]
      [(str "{basename}", str "example"), (str "{environment:short}", str "prd"),
        (str "{region:short}", str "we"), (str "{instance:char}", str "2"),
        (str "{instance}", str "00002"), (str "{instance:full}", str "00002"),
        (str "{instance:short}", str "002")]
      rfl (by decide) rfl (by decide) (by decide) (wf_of_check _ (by decide)) (by decide)
      (by decide) (by decide)]
    decide

/-- C12 at a concrete input: in the region override test the entry for
`{region:short}` is the short code `gwc` of the additional component. -/
theorem additional_component_overrides_slot_witness :
    mapGet (additionalPlaceholders RangeOrder.reversed regionOverrideParams
        (fixedPlaceholders regionOverrideParams providerConfig
          (str "rg-{basename}-{environment:short}-{region:short}")))
      ([lbrace] ++ str "region" ++ str ":short\x7d") = some (str "gwc") :=
  (additional_component_overrides_slot RangeOrder.reversed).1 regionOverrideParams
    providerConfig (str "rg-{basename}-{environment:short}-{region:short}")
    regionOverrideComponents rfl (by decide)
    ⟨str "region", [str "{region}", str "{region:full}", str "{region:short}",
      str "{region:char}", str "{location}", str "{loc}", str "{r}"], .full⟩ (by decide)
    (str ":short\x7d", str "shortcode") (by decide) (str "gwc") (by decide) (by decide)

set_option maxRecDepth 8000 in
/-- C12 does not hold for every map: when the map also holds a component named
`region:short`, the placeholder `{region:short}` can end up with that
component's full name instead of the short code given for `region`. -/
theorem additional_component_shadowed :
    additionalAttr shadowedRegionComponents (str "region") (str "shortcode")
      = some (str "gwc") ∧
    generateResourceName RangeOrder.insertion shadowedRegionParams providerConfig
      = (str "rg-example-prd-xyz", []) := by
  decide

/-! ## Order of the substitution loop -/

/-- C13, for templates in which every opening brace starts a brace token, and
placeholder maps whose keys are distinct brace tokens and whose values contain
no opening brace. The successive replacements give the same string for every
two orders in which the pairs are processed. -/
theorem substitute_order_independent (segs : List Seg)
    (entries l1 l2 : List (GoString × GoString))
    (hwf : ∀ seg ∈ segs, seg.WF) (hnd : (entries.map Prod.fst).Nodup)
    (hent : ∀ kv ∈ entries, isToken kv.1 = true ∧ lbrace ∉ kv.2)
    (h1 : l1.Perm entries) (h2 : l2.Perm entries) :
    substitute (flatten segs) l1 = substitute (flatten segs) l2 := by
  rw [substitute_flatten l1 segs hwf (fun kv hkv => hent kv (h1.mem_iff.1 hkv)),
    substitute_flatten l2 segs hwf (fun kv hkv => hent kv (h2.mem_iff.1 hkv)),
    subst_perm entries l1 h1 hnd, subst_perm entries l2 h2 hnd]

/-- C13 at a concrete input: the template `rg-{basename}-{environment:short}`
with two resolved placeholders, processed in either order. -/
theorem substitute_order_independent_witness :
    substitute (flatten [.lit (str "rg-"), .tok (str "{basename}"), .lit (str "-"),
        .tok (str "{environment:short}")])
      [(str "{basename}", str "example"), (str "{environment:short}", str "prd")]
    = substitute (flatten [.lit (str "rg-"), .tok (str "{basename}"), .lit (str "-"),
        .tok (str "{environment:short}")])
      [(str "{environment:short}", str "prd"), (str "{basename}", str "example")] :=
  substitute_order_independent
    [.lit (str "rg-"), .tok (str "{basename}"), .lit (str "-"),
      .tok (str "{environment:short}")]
    [(str "{basename}", str "example"), (str "{environment:short}", str "prd")]
    [(str "{basename}", str "example"), (str "{environment:short}", str "prd")]
    [(str "{environment:short}", str "prd"), (str "{basename}", str "example")]
    (wf_of_check _ (by decide)) (by decide) (by decide) (List.Perm.refl _)
    (List.Perm.swap _ _ _)

set_option maxRecDepth 8000 in
/-- C13 does not hold for every set of pairs: when the value of `{basename}` is
the text `{environment}`, processing `{basename}` first gives `prodprod`, and
processing `{environment}` first leaves `{environment}prod`, so that the same
call yields a name under one order and an error under the other. -/
theorem substitute_order_dependent :
    substitute (str "{basename}{environment}")
        [(str "{basename}", str "{environment}"), (str "{environment}", str "prod")]
      = str "prodprod" ∧
    substitute (str "{basename}{environment}")
        [(str "{environment}", str "prod"), (str "{basename}", str "{environment}")]
      = str "{environment}prod" ∧
    generateResourceName RangeOrder.insertion nestedValueParams
        (literalPatternConfig (str "{basename}{environment}")) = (str "prodprod", []) ∧
    generateResourceName RangeOrder.reversed nestedValueParams
        (literalPatternConfig (str "{basename}{environment}"))
      = ([], [⟨str "Unresolved Components",
          str "Resource name contains unrecognized components: {environment}prod"⟩]) := by
  decide

/-! ## The fixed slots and `location` -/

theorem resolvePlaceholder_callTime (params : ResourceNamingParametersValue)
    (config : resourcenamingtoolProviderModel) (name placeholder : GoString)
    (valueType : Format) (compValue : ComponentValueObject)
    (hcomp : params.GetComponentValue name = .ok compValue)
    (hne : callTimeValue compValue (placeholderFormat valueType placeholder) ≠ []) :
    resolvePlaceholder params config name valueType placeholder
      = some (callTimeValue compValue (placeholderFormat valueType placeholder)) := by
  unfold resolvePlaceholder
  rw [hcomp]
  simp [hne]

/-- The four placeholders spelled with the name of a slot are placeholders of
that slot, with the formats full, full, short and char. -/
theorem slot_placeholders :
    ∀ ct ∈ componentTypes,
      ([lbrace] ++ ct.Name ++ [rbrace] ∈ ct.Patterns ∧
        placeholderFormat ct.ValueType ([lbrace] ++ ct.Name ++ [rbrace]) = .full) ∧
      ([lbrace] ++ ct.Name ++ str ":full\x7d" ∈ ct.Patterns ∧
        placeholderFormat ct.ValueType ([lbrace] ++ ct.Name ++ str ":full\x7d") = .full) ∧
      ([lbrace] ++ ct.Name ++ str ":short\x7d" ∈ ct.Patterns ∧
        placeholderFormat ct.ValueType ([lbrace] ++ ct.Name ++ str ":short\x7d") = .short) ∧
      ([lbrace] ++ ct.Name ++ str ":char\x7d" ∈ ct.Patterns ∧
        placeholderFormat ct.ValueType ([lbrace] ++ ct.Name ++ str ":char\x7d") = .char) := by
  decide

/-- The slots of the `componentTypes` table are the listed ones without
`location`. For every such slot `s` and every call-time component for `s` with
non-empty fullname, shortcode and char, the placeholder loop stores the
fullname for `{s}` and `{s:full}`, the shortcode for `{s:short}` and the char
for `{s:char}` whenever the template contains them. The table has no slot
`location`: `{location}` is a spelling of the `region` slot and is stored with
the full name of the call-time region. -/
theorem fixed_slot_resolution (params : ResourceNamingParametersValue)
    (config : resourcenamingtoolProviderModel) (pattern : GoString)
    (compType : ComponentType) (hct : compType ∈ componentTypes)
    (f s c : GoString) (hf : f ≠ []) (hs : s ≠ []) (hc : c ≠ [])
    (hcomp : params.GetComponentValue compType.Name
      = .ok (.known (.value f) (.value s) (.value c))) :
    (∀ sv ∈ [([rbrace], f), (str ":full\x7d", f), (str ":short\x7d", s),
        (str ":char\x7d", c)],
      contains pattern ([lbrace] ++ compType.Name ++ sv.1) = true →
      mapGet (fixedPlaceholders params config pattern) ([lbrace] ++ compType.Name ++ sv.1)
        = some sv.2) ∧
    componentTypes.map (fun ct => ct.Name)
      = [str "resource_type", str "resource_prefix", str "basename", str "environment",
         str "region", str "instance", str "organization", str "business_unit",
         str "cost_center", str "project", str "application", str "workload",
         str "subscription", str "domain", str "criticality", str "initiative",
         str "solution"] ∧
    (compType.Name = str "region" → contains pattern (str "{location}") = true →
      mapGet (fixedPlaceholders params config pattern) (str "{location}") = some f) := by
  obtain ⟨⟨m1, f1⟩, ⟨m2, f2⟩, ⟨m3, f3⟩, ⟨m4, f4⟩⟩ := slot_placeholders compType hct
  refine ⟨?_, by decide, ?_⟩
  · intro sv hsv hfound
    simp only [List.mem_cons, List.mem_singleton, List.not_mem_nil, or_false] at hsv
    rcases hsv with h | h | h | h <;> subst h
    · rw [mapGet_fixedPlaceholders params config pattern compType _ hct m1 hfound,
        resolvePlaceholder_callTime params config _ _ _ _ hcomp (by rw [f1]; exact hf), f1]
      rfl
    · rw [mapGet_fixedPlaceholders params config pattern compType _ hct m2 hfound,
        resolvePlaceholder_callTime params config _ _ _ _ hcomp (by rw [f2]; exact hf), f2]
      rfl
    · have hv : callTimeValue (.known (.value f) (.value s) (.value c)) .short = s := by
        simp [callTimeValue, ComponentValueObject.GetShortcode, TfString.ValueString, hs]
      rw [mapGet_fixedPlaceholders params config pattern compType _ hct m3 hfound,
        resolvePlaceholder_callTime params config _ _ _ _ hcomp (by rw [f3, hv]; exact hs),
        f3, hv]
    · have hv : callTimeValue (.known (.value f) (.value s) (.value c)) .char = c := by
        simp [callTimeValue, ComponentValueObject.GetChar, TfString.ValueString, hc]
      rw [mapGet_fixedPlaceholders params config pattern compType _ hct m4 hfound,
        resolvePlaceholder_callTime params config _ _ _ _ hcomp (by rw [f4, hv]; exact hc),
        f4, hv]
  · intro hname hfound
    have hreg : compType = ⟨str "region", [str "{region}", str "{region:full}",
        str "{region:short}", str "{region:char}", str "{location}", str "{loc}",
        str "{r}"], .full⟩ := by
      have key : ∀ ct ∈ componentTypes, ct.Name = str "region" →
          ct = ⟨str "region", [str "{region}", str "{region:full}",
            str "{region:short}", str "{region:char}", str "{location}", str "{loc}",
            str "{r}"], .full⟩ := by decide
      exact key compType hct hname
    have hmem : str "{location}" ∈ compType.Patterns := by rw [hreg]; decide
    have hfmt : placeholderFormat compType.ValueType (str "{location}") = .full := by
      rw [hreg]; decide
    rw [mapGet_fixedPlaceholders params config pattern compType _ hct hmem hfound,
      resolvePlaceholder_callTime params config _ _ _ _ hcomp (by rw [hfmt]; exact hf), hfmt]
    rfl

/-- The slot table at a concrete input: for the call-time environment
`staging`/`stg`/`s` the loop stores `stg` for `{environment:short}`. -/
theorem fixed_slot_resolution_witness :
    mapGet (fixedPlaceholders
        (singleParam (str "environment") (.component (componentOf "staging" "stg" "s")))
        providerConfig (str "rg-{environment:short}"))
      ([lbrace] ++ str "environment" ++ str ":short\x7d") = some (str "stg") :=
  (fixed_slot_resolution
    (singleParam (str "environment") (.component (componentOf "staging" "stg" "s")))
    providerConfig (str "rg-{environment:short}")
    ⟨str "environment", [str "{environment}", str "{environment:full}",
      str "{environment:short}", str "{environment:char}", str "{env}", str "{e}"], .full⟩
    (by decide) (str "staging") (str "stg") (str "s") (by decide) (by decide) (by decide)
    rfl).1 (str ":short\x7d", str "stg") (by decide) (by decide)

set_option maxRecDepth 8000 in
/-- C17 fails for the slot `location`. A call-time `location` component
`eastus`/`eus`/`e` is never read: with no region the templates `x-{location}`
and `x-{location:short}` stay unresolved and the call ends with the
`Unresolved Components` error, and with a region `{location}` is filled with
the full name of the region, `x-westeurope`, not with the location. The
provider default `default_location`, documented in the schema as the location
used when the call gives none, is not read either: with that default set to
`eastus`/`eus`/`e` and no region `x-{location}` stays unresolved. -/
theorem location_slot_not_read :
    generateResourceName RangeOrder.insertion locationParams
        (literalPatternConfig (str "x-{location}"))
      = ([], [⟨str "Unresolved Components",
          str "Resource name contains unrecognized components: x-{location}"⟩]) ∧
    generateResourceName RangeOrder.insertion locationParams
        (literalPatternConfig (str "x-{location:short}"))
      = ([], [⟨str "Unresolved Components",
          str "Resource name contains unrecognized components: x-{location:short}"⟩]) ∧
    generateResourceName RangeOrder.insertion locationRegionParams
        (literalPatternConfig (str "x-{location}")) = (str "x-westeurope", []) ∧
    generateResourceName RangeOrder.insertion
        (singleParam (str "resource_type")
          (.component (.known (.value (str "t")) .null .null)))
        { literalPatternConfig (str "x-{location}") with
          DefaultLocation := componentOf "eastus" "eus" "e" }
      = ([], [⟨str "Unresolved Components",
          str "Resource name contains unrecognized components: x-{location}"⟩]) := by
  refine ⟨by decide, by decide, by decide, by decide⟩

/-! ## Keys of `additional_components` that do not split in two -/

theorem flattenStep_invalid (st : NormalizerState) (kv : GoString × RawValue)
    (h : validKey kv.1 = false) : flattenStep st kv = st := by
  unfold flattenStep
  unfold validKey at h
  split
  · next c a heq => rw [heq] at h; simp at h
  · rfl

theorem foldl_flattenStep_filter (l : List (GoString × RawValue)) (st : NormalizerState) :
    (l.filter (fun kv => validKey kv.1)).foldl flattenStep st = l.foldl flattenStep st := by
  induction l generalizing st with
  | nil => rfl
  | cons kv rest ih =>
    cases h : validKey kv.1 with
    | true => rw [List.filter_cons_of_pos (by simpa using h), List.foldl_cons, List.foldl_cons, ih]
    | false =>
      rw [List.filter_cons_of_neg (by simp [h]), List.foldl_cons, flattenStep_invalid st kv h, ih]

theorem componentStep_dropInvalidKeys (st : NormalizerState) (kv : GoString × RawComponent) :
    componentStep st (kv.1,
        if kv.1 = str "additional_components" then
          match kv.2 with
          | .map m => RawComponent.map (dropInvalidKeys m)
          | c => c
        else kv.2)
      = componentStep st kv := by
  obtain ⟨k, c⟩ := kv
  by_cases hk : k = str "additional_components"
  · simp only [hk, if_true]
    cases c with
    | map m =>
      simp only [componentStep, if_true]
      rw [show (dropInvalidKeys m).entries = m.entries.filter (fun kv => validKey kv.1) from rfl,
        foldl_flattenStep_filter]
    | other t => rfl
  · simp only [hk, if_false]

theorem forEachComponent_dropInvalidKeys (l : List (GoString × RawComponent))
    (st : NormalizerState) :
    forEachComponent (l.map (fun kv =>
        (kv.1,
          if kv.1 = str "additional_components" then
            match kv.2 with
            | .map m => RawComponent.map (dropInvalidKeys m)
            | c => c
          else kv.2))) st
      = forEachComponent l st := by
  induction l generalizing st with
  | nil => rfl
  | cons kv rest ih =>
    rw [List.map_cons]
    simp only [forEachComponent]
    rw [componentStep_dropInvalidKeys]
    cases componentStep st kv with
    | error e => rfl
    | ok st1 => exact ih st1

theorem forEachElement_dropInvalidKeys (l : List RawElement) (st : NormalizerState) :
    forEachElement (l.map RawElement.dropInvalidKeys) st = forEachElement l st := by
  induction l generalizing st with
  | nil => rfl
  | cons el rest ih =>
    cases el with
    | map elements =>
      rw [List.map_cons]
      simp only [RawElement.dropInvalidKeys, forEachElement]
      rw [forEachComponent_dropInvalidKeys]
      cases forEachComponent elements.entries st with
      | error e => rfl
      | ok st1 => exact ih st1
    | other t => rfl

theorem forEachComponent_ok (l : List (GoString × RawComponent))
    (h : ∀ kv ∈ l, ∃ e, kv.2 = .map e) (st : NormalizerState) :
    ∃ st1, forEachComponent l st = .ok st1 := by
  induction l generalizing st with
  | nil => exact ⟨st, rfl⟩
  | cons kv rest ih =>
    obtain ⟨e, he⟩ := h kv (List.mem_cons_self _ _)
    have hstep : ∃ st1, componentStep st kv = .ok st1 := by
      unfold componentStep
      rw [he]
      simp only []
      split
      · exact ⟨_, rfl⟩
      · split
        · exact ⟨_, rfl⟩
        · exact ⟨_, rfl⟩
    obtain ⟨st1, h1⟩ := hstep
    simp only [forEachComponent, h1]
    exact ih (fun kv hkv => h kv (List.mem_cons_of_mem _ hkv)) st1

theorem forEachElement_ok (l : List RawElement)
    (h : ∀ el ∈ l, ∃ m, el = .map m ∧ ∀ kv ∈ m.entries, ∃ e, kv.2 = RawComponent.map e)
    (st : NormalizerState) :
    ∃ st1, forEachElement l st = .ok st1 := by
  induction l generalizing st with
  | nil => exact ⟨st, rfl⟩
  | cons el rest ih =>
    obtain ⟨m, hm, hc⟩ := h el (List.mem_cons_self _ _)
    obtain ⟨st1, h1⟩ := forEachComponent_ok m.entries hc st
    rw [hm]
    simp only [forEachElement, h1]
    exact ih (fun el hel => h el (List.mem_cons_of_mem _ hel)) st1

/-- C18, as the code has it. A key of `additional_components` that does not
split on the dot into exactly two parts is skipped: the normalizer returns what
it returns for the same set without such keys, and it returns a parameter
object, not an error, whenever every element of the set is a map and every
component value in it is a map. -/
theorem normalizer_skips_invalid_keys (parametersSet : List RawElement) :
    setWithNestedMapsToResourceNamingParametersValue parametersSet
      = setWithNestedMapsToResourceNamingParametersValue
          (parametersSet.map RawElement.dropInvalidKeys) ∧
    ((∀ el ∈ parametersSet, ∃ m, el = .map m ∧
        ∀ kv ∈ m.entries, ∃ e, kv.2 = RawComponent.map e) →
      ∃ params, setWithNestedMapsToResourceNamingParametersValue parametersSet
        = .ok params) := by
  constructor
  · unfold setWithNestedMapsToResourceNamingParametersValue
    rw [forEachElement_dropInvalidKeys]
  · intro h
    obtain ⟨st1, h1⟩ := forEachElement_ok parametersSet h ⟨GoMap.empty, [], false⟩
    unfold setWithNestedMapsToResourceNamingParametersValue
    rw [h1]
    exact ⟨_, rfl⟩

/-- C18 at a concrete input: the set whose `additional_components` map has the
keys `region` and `team.fullname` is normalized to a parameter object. -/
theorem normalizer_skips_invalid_keys_witness :
    ∃ params, setWithNestedMapsToResourceNamingParametersValue
        (rawAdditional ⟨[(str "region", .string (.value (str "x"))),
          (str "team.fullname", .string (.value (str "platform")))], by decide⟩)
      = .ok params :=
  (normalizer_skips_invalid_keys
    (rawAdditional ⟨[(str "region", .string (.value (str "x"))),
      (str "team.fullname", .string (.value (str "platform")))], by decide⟩)).2
    (by
      intro el hel
      rw [rawAdditional, List.mem_singleton] at hel
      refine ⟨_, hel, ?_⟩
      intro kv hkv
      rw [List.mem_singleton] at hkv
      exact ⟨_, by rw [hkv]⟩)

/-- C18 does not hold: for the keys `region` and `a.b.c` the normalizer returns
a parameter object, with no attribute at all when no key is valid and without
the offending key when another key is valid. -/
theorem normalizer_accepts_invalid_key :
    setWithNestedMapsToResourceNamingParametersValue
        (rawAdditional ⟨[(str "region", .string (.value (str "x")))], by decide⟩)
      = .ok (.known GoMap.empty) ∧
    setWithNestedMapsToResourceNamingParametersValue
        (rawAdditional ⟨[(str "a.b.c", .string (.value (str "x")))], by decide⟩)
      = .ok (.known GoMap.empty) ∧
    setWithNestedMapsToResourceNamingParametersValue
        (rawAdditional ⟨[(str "region", .string (.value (str "x"))),
          (str "team.fullname", .string (.value (str "platform")))], by decide⟩)
      = .ok (.known ⟨[(str "additional_components", .map (.known
          ⟨[(str "team.fullname", .string (.value (str "platform")))], by decide⟩))],
          by decide⟩) := by
  refine ⟨rfl, rfl, rfl⟩

/-! ## Writing a snapshot and reading it back -/

theorem jsonStringAux_valid (s : GoString) (skip : Nat) (h : validUTF8Aux skip s = true) :
    jsonStringAux skip s = s := by
  induction s generalizing skip with
  | nil => cases skip <;> rfl
  | cons b rest ih =>
    cases skip with
    | succ n =>
      simp only [validUTF8Aux] at h
      simp only [jsonStringAux, ih n h]
    | zero =>
      simp only [validUTF8Aux] at h
      simp only [jsonStringAux]
      cases hr : runeLen (b :: rest) with
      | zero => rw [hr] at h; cases h
      | succ n =>
        rw [hr] at h
        simp only [ih n h]

/-- A valid UTF-8 string is read back as it was written. -/
theorem jsonString_valid (s : GoString) (h : validUTF8 s = true) : jsonString s = s :=
  jsonStringAux_valid s 0 h

theorem insertMember_perm {V : Type} (kv : GoString × V) (l : List (GoString × V)) :
    (insertMember kv l).Perm (kv :: l) := by
  induction l with
  | nil => exact List.Perm.refl _
  | cons x rest ih =>
    unfold insertMember
    split
    · exact List.Perm.refl _
    · exact (List.Perm.cons x ih).trans (List.Perm.swap kv x rest)

theorem sortMembers_perm {V : Type} (l : List (GoString × V)) : (sortMembers l).Perm l := by
  induction l with
  | nil => exact List.Perm.refl _
  | cons x rest ih =>
    show (insertMember x (sortMembers rest)).Perm (x :: rest)
    exact (insertMember_perm x _).trans (List.Perm.cons x ih)

theorem sortMembers_nodup {V : Type} (l : List (GoString × V))
    (hnd : (l.map Prod.fst).Nodup) : ((sortMembers l).map Prod.fst).Nodup :=
  (((sortMembers_perm l).map Prod.fst).nodup_iff).2 hnd

theorem mapSet_of_not_mem {V : Type} (l : List (GoString × V)) (k : GoString) (v : V)
    (h : k ∉ l.map Prod.fst) : mapSet l k v = l ++ [(k, v)] := by
  induction l with
  | nil => rfl
  | cons x rest ih =>
    obtain ⟨k0, v0⟩ := x
    simp only [List.map_cons, List.mem_cons, not_or] at h
    have hne : ¬ k0 = k := fun e => h.1 e.symm
    simp only [mapSet, if_neg hne, ih h.2, List.cons_append]

theorem foldl_mapSet_of_nodup {V : Type} (l init : List (GoString × V))
    (hnd : ((init ++ l).map Prod.fst).Nodup) :
    l.foldl (fun acc kv => mapSet acc kv.1 kv.2) init = init ++ l := by
  induction l generalizing init with
  | nil => simp
  | cons x rest ih =>
    have hx : x.1 ∉ init.map Prod.fst := by
      intro hmem
      rw [List.map_append, List.nodup_append] at hnd
      exact hnd.2.2 hmem (by simp)
    rw [List.foldl_cons, mapSet_of_not_mem init x.1 x.2 hx, ih]
    · simp
    · simpa using hnd

/-- An object without repeated names is read as it stands. -/
theorem rawObject_of_nodup {V : Type} (l : List (GoString × V))
    (hnd : (l.map Prod.fst).Nodup) : rawObject l = l := by
  unfold rawObject
  rw [foldl_mapSet_of_nodup l [] (by simpa using hnd)]
  rfl

theorem fieldMembers_none (names : List GoString) (f : GoString → Option JsonField)
    (field : GoString) (h : ∀ n ∈ names, foldName n ≠ foldName field) :
    fieldMembers (names.filterMap (fun n => (f n).map (fun j => (n, j)))) field = [] := by
  unfold fieldMembers
  rw [List.map_eq_nil_iff, List.filter_eq_nil_iff]
  intro kv hkv
  obtain ⟨n, hn, hf⟩ := List.mem_filterMap.1 hkv
  cases hfn : f n with
  | none => rw [hfn] at hf; cases hf
  | some j =>
    rw [hfn] at hf
    simp only [Option.map_some', Option.some.injEq] at hf
    subst hf
    simpa using h n hn

theorem fieldMembers_filterMap (names : List GoString) (f : GoString → Option JsonField)
    (hnd : (names.map foldName).Nodup) (field : GoString) (hf : field ∈ names) :
    fieldMembers (names.filterMap (fun n => (f n).map (fun j => (n, j)))) field
      = (f field).toList := by
  induction names with
  | nil => cases hf
  | cons n rest ih =>
    simp only [List.map_cons, List.nodup_cons] at hnd
    by_cases hn : n = field
    · subst hn
      have hrest : fieldMembers (rest.filterMap (fun n => (f n).map (fun j => (n, j)))) n
          = [] := by
        apply fieldMembers_none
        intro n' hn' e
        exact hnd.1 (e ▸ List.mem_map_of_mem foldName hn')
      rw [List.filterMap_cons]
      cases hfn : f n with
      | none => simpa using hrest
      | some j =>
        simp only [Option.map_some']
        unfold fieldMembers at hrest ⊢
        simp only [List.filter_cons, decide_True, if_true, List.map_cons, hrest]
        rfl
    · have hmem : field ∈ rest := by
        rcases List.mem_cons.1 hf with h | h
        · exact absurd h.symm hn
        · exact h
      have hfold : ¬ foldName n = foldName field := by
        intro e
        exact hnd.1 (e ▸ List.mem_map_of_mem foldName hmem)
      rw [List.filterMap_cons]
      cases hfn : f n with
      | none => simpa using ih hnd.2 hmem
      | some j =>
        simp only [Option.map_some']
        have := ih hnd.2 hmem
        unfold fieldMembers at this ⊢
        simp only [List.filter_cons, hfold, decide_False, Bool.false_eq_true, if_false]
        exact this

theorem fieldMembers_perm (l l' : JsonDoc) (hp : l'.Perm l) (field : GoString)
    (hlen : (fieldMembers l field).length ≤ 1) :
    fieldMembers l' field = fieldMembers l field := by
  have hperm : (fieldMembers l' field).Perm (fieldMembers l field) :=
    (hp.filter _).map _
  cases h : fieldMembers l field with
  | nil => rw [h] at hperm; exact List.Perm.eq_nil hperm
  | cons a rest =>
    cases rest with
    | nil => rw [h] at hperm; exact List.Perm.eq_singleton hperm
    | cons b rest' => rw [h] at hlen; simp at hlen

theorem snapshotFields_fold_nodup : (snapshotFields.map foldName).Nodup := by decide

theorem snapshotFields_nodup : snapshotFields.Nodup := by decide

/-- The values that go to a field of the model when the document written by
`MarshalJSON` is read: the one value written under the name of the field. -/
theorem fieldMembers_MarshalJSON (m : resourcenamingtoolProviderModel) (field : GoString)
    (hf : field ∈ snapshotFields) :
    fieldMembers m.MarshalJSON field = (marshalField m field).toList := by
  have h := fieldMembers_filterMap snapshotFields (marshalField m) snapshotFields_fold_nodup
    field hf
  unfold resourcenamingtoolProviderModel.MarshalJSON
  rw [fieldMembers_perm _ _ (sortMembers_perm _) field (by rw [h]; cases marshalField m field <;> simp), h]


theorem mapGet_filterMap_names {V : Type} (names : List GoString) (f : GoString → Option V)
    (k : GoString) :
    mapGet (names.filterMap (fun n => (f n).map (fun j => (n, j)))) k
      = if k ∈ names then f k else none := by
  induction names with
  | nil => rfl
  | cons n rest ih =>
    rw [List.filterMap_cons]
    cases hf : f n with
    | none =>
      simp only [Option.map_none']
      rw [ih]
      by_cases hk : k = n
      · subst hk; simp [hf]
      · simp [hk]
    | some j =>
      simp only [Option.map_some']
      by_cases hk : n = k
      · subst hk; simp [mapGet, hf]
      · have hk' : ¬ k = n := fun h => hk h.symm
        simp only [mapGet, hk, if_false, ih, List.mem_cons, hk', false_or]

theorem filterMap_names_sublist {V : Type} (names : List GoString) (f : GoString → Option V) :
    ((names.filterMap (fun n => (f n).map (fun j => (n, j)))).map Prod.fst).Sublist names := by
  induction names with
  | nil => exact List.Sublist.slnil
  | cons n rest ih =>
    rw [List.filterMap_cons]
    cases f n with
    | none => exact ih.cons _
    | some j => exact ih.cons₂ _

theorem MarshalJSON_nodup (m : resourcenamingtoolProviderModel) :
    (m.MarshalJSON.map Prod.fst).Nodup :=
  sortMembers_nodup _ ((filterMap_names_sublist snapshotFields (marshalField m)).nodup
    snapshotFields_nodup)

/-- The member that `MarshalJSON` writes under a name is what the lookup in the
raw document finds. -/
theorem mapGet_MarshalJSON (m : resourcenamingtoolProviderModel) (field : GoString) :
    mapGet (rawObject m.MarshalJSON) field = marshalField m field := by
  rw [rawObject_of_nodup _ (MarshalJSON_nodup m)]
  unfold resourcenamingtoolProviderModel.MarshalJSON
  rw [mapGet_perm _ _ (sortMembers_perm _)
    ((filterMap_names_sublist snapshotFields (marshalField m)).nodup snapshotFields_nodup),
    mapGet_filterMap_names]
  split
  · rfl
  · next h =>
    simp only [snapshotFields, List.mem_cons, List.mem_append, List.mem_singleton,
      List.not_mem_nil, or_false, not_or] at h
    unfold marshalField
    rw [if_neg h.1.1, if_neg h.2.1, if_neg h.2.2, if_neg h.1.2]

theorem members_nodup (v : ComponentValueObject) : (v.members.map Prod.fst).Nodup := by
  unfold ComponentValueObject.members
  by_cases hf : v.GetFullname = [] <;> by_cases hs : v.GetShortcode = [] <;>
    by_cases hc : v.GetChar = [] <;> simp [hf, hs, hc] <;> decide

theorem mapGet_members {W : Type} (v : ComponentValueObject) (w : GoString → W) :
    mapGet (v.members.map (fun kv => (kv.1, w kv.2))) (str "fullname")
      = (if v.GetFullname ≠ [] then some (w (jsonString v.GetFullname)) else none) ∧
    mapGet (v.members.map (fun kv => (kv.1, w kv.2))) (str "shortcode")
      = (if v.GetShortcode ≠ [] then some (w (jsonString v.GetShortcode)) else none) ∧
    mapGet (v.members.map (fun kv => (kv.1, w kv.2))) (str "char")
      = (if v.GetChar ≠ [] then some (w (jsonString v.GetChar)) else none) := by
  have h1 : ¬ str "fullname" = str "shortcode" := by decide
  have h2 : ¬ str "fullname" = str "char" := by decide
  have h3 : ¬ str "shortcode" = str "fullname" := by decide
  have h4 : ¬ str "shortcode" = str "char" := by decide
  have h5 : ¬ str "char" = str "fullname" := by decide
  have h6 : ¬ str "char" = str "shortcode" := by decide
  unfold ComponentValueObject.members
  by_cases hf : v.GetFullname = [] <;> by_cases hs : v.GetShortcode = [] <;>
    by_cases hc : v.GetChar = [] <;>
    simp [hf, hs, hc, mapGet, h1, h2, h3, h4, h5, h6]

theorem rawObject_members {W : Type} (v : ComponentValueObject) (w : GoString → W) :
    rawObject (v.members.map (fun kv => (kv.1, w kv.2)))
      = v.members.map (fun kv => (kv.1, w kv.2)) := by
  apply rawObject_of_nodup
  rw [List.map_map]
  exact members_nodup v

theorem members_all_string (v : ComponentValueObject) :
    (v.members.map (fun kv => (kv.1, JsonMember.string kv.2))).all
      (fun kv => (stringMember kv.2).isSome) = true := by
  rw [List.all_eq_true]
  intro kv hkv
  obtain ⟨a, _, rfl⟩ := List.mem_map.1 hkv
  rfl

theorem unmarshalSlot_single (j : JsonField) : unmarshalSlot [j] = unmarshalComponent j := rfl

/-- Reading back the member written for a slot whose strings are valid UTF-8:
the same data, unless the slot is unknown, which is read back as null. -/
theorem unmarshalSlot_marshal (v : ComponentValueObject) (hv : v.validUTF8 = true) :
    ∃ v', unmarshalSlot
        (if v.isKnown then
          some (JsonField.object (v.members.map (fun kv => (kv.1, JsonMember.string kv.2))))
        else none).toList = some v' ∧
      (v ≠ .unknown → v'.data = v.data) ∧ (v = .unknown → v' = .null) := by
  cases v with
  | null => exact ⟨.null, rfl, fun _ => rfl, fun h => by cases h⟩
  | unknown => exact ⟨.null, rfl, fun h => absurd rfl h, fun _ => rfl⟩
  | known f s c =>
    obtain ⟨m1, m2, m3⟩ := mapGet_members (.known f s c) JsonMember.string
    simp only [ComponentValueObject.validUTF8, Bool.and_eq_true] at hv
    obtain ⟨⟨v1, v2⟩, v3⟩ := hv
    rw [jsonString_valid _ v1] at m1
    rw [jsonString_valid _ v2] at m2
    rw [jsonString_valid _ v3] at m3
    simp only [ComponentValueObject.isKnown, if_true, Option.toList]
    rw [unmarshalSlot_single]
    simp only [unmarshalComponent]
    rw [if_pos (members_all_string _), rawObject_members]
    refine ⟨_, rfl, fun _ => ?_, fun h => by cases h⟩
    rw [m1, m2, m3]
    simp only [ComponentValueObject.data, ComponentValueObject.IsNull,
      ComponentValueObject.GetFullname, ComponentValueObject.GetShortcode,
      ComponentValueObject.GetChar, TfString.ValueString]
    refine Prod.ext rfl (Prod.ext ?_ (Prod.ext ?_ ?_)) <;>
      simp only [] <;> split <;> simp_all [stringMember]

theorem marshalField_slot (m : resourcenamingtoolProviderModel) (field : GoString)
    (h : field ∈ slotFields) :
    marshalField m field
      = if (snapshotSlot m field).isKnown then
          some (.object ((snapshotSlot m field).members.map
            (fun kv => (kv.1, JsonMember.string kv.2))))
        else none := by
  have hne : ∀ n ∈ slotFields, n ≠ str "provider_instance_id" ∧
      n ≠ str "AdditionalComponents" ∧ n ≠ str "AdditionalNamingPatterns" := by decide
  obtain ⟨h1, h2, h3⟩ := hne field h
  unfold marshalField
  rw [if_neg h1, if_neg h2, if_neg h3, if_pos h]

theorem slotFields_subset : ∀ field ∈ slotFields, field ∈ snapshotFields := by decide

theorem unmarshalSlot_field (c : resourcenamingtoolProviderModel) (field : GoString)
    (hf : field ∈ slotFields) (hv : (snapshotSlot c field).validUTF8 = true) :
    ∃ v', unmarshalSlot (fieldMembers c.MarshalJSON field) = some v' ∧
      (snapshotSlot c field ≠ .unknown → v'.data = (snapshotSlot c field).data) ∧
      (snapshotSlot c field = .unknown → v' = .null) := by
  rw [fieldMembers_MarshalJSON c field (slotFields_subset field hf), marshalField_slot c field hf]
  exact unmarshalSlot_marshal (snapshotSlot c field) hv

theorem filterMap_keys_sublist {J V : Type} (l : List (GoString × J)) (g : J → Option V) :
    ((l.filterMap (fun kv => (g kv.2).map (fun j => (kv.1, j)))).map Prod.fst).Sublist
      (l.map Prod.fst) := by
  induction l with
  | nil => exact List.Sublist.slnil
  | cons kv rest ih =>
    rw [List.filterMap_cons]
    cases g kv.2 with
    | none => exact ih.cons _
    | some j => exact ih.cons₂ _

theorem mapGet_filterMap_values {J V : Type} (l : List (GoString × J))
    (hnd : (l.map Prod.fst).Nodup) (g : J → Option V) (k : GoString) :
    mapGet (l.filterMap (fun kv => (g kv.2).map (fun j => (kv.1, j)))) k
      = (mapGet l k).bind g := by
  induction l with
  | nil => rfl
  | cons kv rest ih =>
    obtain ⟨k0, j0⟩ := kv
    simp only [List.map_cons, List.nodup_cons] at hnd
    rw [List.filterMap_cons]
    by_cases hk : k0 = k
    · subst hk
      cases hg : g j0 with
      | none =>
        simp only [hg, Option.map_none', mapGet, if_true, Option.bind]
        rw [ih hnd.2, mapGet_none_of_not_mem rest k0 hnd.1]
        rfl
      | some v => simp [hg, mapGet]
    · cases hg : g j0 with
      | none => simp only [hg, Option.map_none', mapGet, hk, if_false]; exact ih hnd.2
      | some v => simp only [hg, Option.map_some', mapGet, hk, if_false]; exact ih hnd.2

theorem mapGet_foldl_set {J V : Type} (g : J → Option V) (l : List (GoString × J))
    (hnd : (l.map Prod.fst).Nodup) (init : GoMap V) (k : GoString) :
    mapGet (l.foldl (fun acc kv => acc.setOpt kv.1 (g kv.2)) init).entries k
      = match (mapGet l k).bind g with
        | some v => some v
        | none => mapGet init.entries k := by
  induction l generalizing init with
  | nil => rfl
  | cons kv rest ih =>
    obtain ⟨k0, j0⟩ := kv
    simp only [List.map_cons, List.nodup_cons] at hnd
    rw [List.foldl_cons, ih hnd.2]
    by_cases hk : k0 = k
    · subst hk
      rw [mapGet_none_of_not_mem rest k0 hnd.1]
      simp only [mapGet, if_true, Option.bind]
      cases hg : g j0 with
      | none => rfl
      | some v =>
        show mapGet (mapSet init.entries k0 v) k0 = some v
        rw [mapGet_mapSet]; simp
    · simp only [mapGet, hk, if_false]
      cases hb : (mapGet rest k).bind g with
      | some v => rfl
      | none =>
        simp only []
        cases hg : g j0 with
        | none => rfl
        | some v =>
          show mapGet (mapSet init.entries k0 v) k = mapGet init.entries k
          rw [mapGet_mapSet, if_neg hk]

theorem patternMemberStep_eq :
    patternMemberStep = (fun acc kv => acc.setOpt kv.1 (patternMember kv.2)) := by
  funext acc kv
  unfold patternMemberStep patternMember GoMap.setOpt
  cases kv.2 <;> rfl

theorem componentMemberStep_eq :
    componentMemberStep = (fun acc kv => acc.setOpt kv.1 (componentMember kv.2)) := by
  funext acc kv
  unfold componentMemberStep componentMember GoMap.setOpt
  cases kv.2 <;> rfl


theorem marshalElements_valid (g : MapElem → Option JsonMember)
    (entries : List (GoString × MapElem)) (h : ∀ kv ∈ entries, validUTF8 kv.1 = true) :
    marshalElements g entries
      = (sortMembers entries).filterMap (fun kv => (g kv.2).map (fun j => (kv.1, j))) := by
  unfold marshalElements
  apply List.filterMap_congr
  intro kv hkv
  rw [jsonString_valid kv.1 (h kv ((sortMembers_perm entries).mem_iff.1 hkv))]

/-- The element rebuilt from a member of the raw `AdditionalNamingPatterns`
object, when the keys of the map are valid UTF-8. -/
theorem loadAdditionalNamingPatterns_marshal (m : resourcenamingtoolProviderModel)
    (hkeys : ∀ kv ∈ m.AdditionalNamingPatterns.Elements, validUTF8 kv.1 = true)
    (key : GoString) :
    mapGet (loadAdditionalNamingPatterns m.MarshalJSON).Elements key
      = match mapGet m.AdditionalNamingPatterns.Elements key with
        | some (.string (.value s)) => some (.string (.value (jsonString s)))
        | _ => none := by
  have hne1 : ¬ str "AdditionalNamingPatterns" = str "provider_instance_id" := by decide
  have hne2 : ¬ str "AdditionalNamingPatterns" = str "AdditionalComponents" := by decide
  unfold loadAdditionalNamingPatterns
  rw [mapGet_MarshalJSON]
  unfold marshalField
  rw [if_neg hne1, if_neg hne2, if_pos rfl]
  cases hm : m.AdditionalNamingPatterns with
  | null => rfl
  | unknown => rfl
  | known elements =>
    rw [hm] at hkeys
    have hkeys' : ∀ kv ∈ elements.entries, validUTF8 kv.1 = true := hkeys
    have hnd := (filterMap_keys_sublist (sortMembers elements.entries)
      marshalPatternElement).nodup (sortMembers_nodup _ elements.nodup)
    simp only [TfMap.Elements]
    rw [marshalElements_valid _ _ hkeys', rawObject_of_nodup _ hnd, patternMemberStep_eq,
      mapGet_foldl_set _ _ hnd,
      mapGet_filterMap_values _ (sortMembers_nodup _ elements.nodup),
      mapGet_perm _ _ (sortMembers_perm _) elements.nodup]
    cases hget : mapGet elements.entries key with
    | none => rfl
    | some e =>
      cases e with
      | string t => cases t <;> rfl
      | component c => rfl
      | other t => rfl

/-- The element rebuilt from a member of the raw `AdditionalComponents`
object, when the keys of the map are valid UTF-8: string elements are not read
back. -/
theorem loadAdditionalComponents_marshal (m : resourcenamingtoolProviderModel)
    (hkeys : ∀ kv ∈ m.AdditionalComponents.Elements, validUTF8 kv.1 = true)
    (key : GoString) :
    mapGet (loadAdditionalComponents m.MarshalJSON).Elements key
      = match mapGet m.AdditionalComponents.Elements key with
        | some (.component c) =>
          if c.isKnown then
            some (.component (processComponentFromMap
              (c.members.map (fun kv => (kv.1, JsonAttr.string kv.2)))))
          else none
        | _ => none := by
  have hne1 : ¬ str "AdditionalComponents" = str "provider_instance_id" := by decide
  unfold loadAdditionalComponents
  rw [mapGet_MarshalJSON]
  unfold marshalField
  rw [if_neg hne1, if_pos rfl]
  cases hm : m.AdditionalComponents with
  | null => rfl
  | unknown => rfl
  | known elements =>
    rw [hm] at hkeys
    have hkeys' : ∀ kv ∈ elements.entries, validUTF8 kv.1 = true := hkeys
    have hnd := (filterMap_keys_sublist (sortMembers elements.entries)
      marshalComponentElement).nodup (sortMembers_nodup _ elements.nodup)
    simp only [TfMap.Elements]
    rw [marshalElements_valid _ _ hkeys']
    have hval : ∀ l : List (GoString × JsonMember),
        l = (sortMembers elements.entries).filterMap
          (fun kv => (marshalComponentElement kv.2).map (fun j => (kv.1, j))) →
        mapGet ((rawObject l).foldl componentMemberStep GoMap.empty).entries key
          = match mapGet elements.entries key with
            | some (.component c) =>
              if c.isKnown then
                some (.component (processComponentFromMap
                  (c.members.map (fun kv => (kv.1, JsonAttr.string kv.2)))))
              else none
            | _ => none := by
      intro l hl
      rw [hl, rawObject_of_nodup _ hnd, componentMemberStep_eq, mapGet_foldl_set _ _ hnd,
        mapGet_filterMap_values _ (sortMembers_nodup _ elements.nodup),
        mapGet_perm _ _ (sortMembers_perm _) elements.nodup]
      cases hget : mapGet elements.entries key with
      | none => rfl
      | some e =>
        cases e with
        | string t => cases t <;> rfl
        | component c =>
          simp only [Option.bind, marshalComponentElement]
          by_cases hk : c.isKnown = true
          · simp only [hk, if_true, componentMember]
            rw [rawObject_members]
          · simp only [hk]; rfl
        | other t => rfl
    cases hl : (sortMembers elements.entries).filterMap
        (fun kv => (marshalComponentElement kv.2).map (fun j => (kv.1, j))) with
    | nil =>
      have h := hval [] hl.symm
      simp only [TfMap.Elements]
      rw [← h]
      rfl
    | cons c rest =>
      have h := hval (c :: rest) hl.symm
      simp only [TfMap.Elements]
      exact h

theorem processComponentFromMap_members (f s ch : TfString)
    (hv : (ComponentValueObject.known f s ch).validUTF8 = true) :
    (processComponentFromMap
        ((ComponentValueObject.known f s ch).members.map
          (fun kv => (kv.1, JsonAttr.string kv.2)))).data
      = (ComponentValueObject.known f s ch).data := by
  obtain ⟨m1, m2, m3⟩ := mapGet_members (.known f s ch) JsonAttr.string
  simp only [ComponentValueObject.validUTF8, Bool.and_eq_true] at hv
  obtain ⟨⟨v1, v2⟩, v3⟩ := hv
  rw [jsonString_valid _ v1] at m1
  rw [jsonString_valid _ v2] at m2
  rw [jsonString_valid _ v3] at m3
  unfold processComponentFromMap
  simp only [m1, m2, m3]
  simp only [ComponentValueObject.data, ComponentValueObject.IsNull,
    ComponentValueObject.GetFullname, ComponentValueObject.GetShortcode,
    ComponentValueObject.GetChar, TfString.ValueString]
  refine Prod.ext rfl (Prod.ext ?_ (Prod.ext ?_ ?_)) <;>
    simp only [] <;> split <;> simp_all

theorem decodeSnapshot_accepts (c : resourcenamingtoolProviderModel)
    (hpid : ∀ s, c.ProviderInstanceID ≠ .value s)
    (hslots : ∀ field ∈ slotFields, (snapshotSlot c field).validUTF8 = true) :
    ((fieldMembers c.MarshalJSON (str "provider_instance_id")).all structFieldAccepts &&
      (fieldMembers c.MarshalJSON (str "AdditionalComponents")).all structFieldAccepts &&
      (fieldMembers c.MarshalJSON (str "AdditionalNamingPatterns")).all structFieldAccepts &&
      slotFields.all (fun field => (unmarshalSlot (fieldMembers c.MarshalJSON field)).isSome))
      = true := by
  have h1 : (fieldMembers c.MarshalJSON (str "provider_instance_id")).all structFieldAccepts
      = true := by
    rw [fieldMembers_MarshalJSON c _ (by decide)]
    unfold marshalField
    rw [if_pos rfl]
    cases hp : c.ProviderInstanceID with
    | null => rfl
    | unknown => rfl
    | value s => exact absurd hp (hpid s)
  have h2 : (fieldMembers c.MarshalJSON (str "AdditionalComponents")).all structFieldAccepts
      = true := by
    rw [fieldMembers_MarshalJSON c _ (by decide)]
    unfold marshalField
    rw [if_neg (by decide), if_pos rfl]
    cases c.AdditionalComponents <;> rfl
  have h3 : (fieldMembers c.MarshalJSON (str "AdditionalNamingPatterns")).all
      structFieldAccepts = true := by
    rw [fieldMembers_MarshalJSON c _ (by decide)]
    unfold marshalField
    rw [if_neg (by decide), if_neg (by decide), if_pos rfl]
    cases c.AdditionalNamingPatterns <;> rfl
  have h4 : slotFields.all
      (fun field => (unmarshalSlot (fieldMembers c.MarshalJSON field)).isSome) = true := by
    rw [List.all_eq_true]
    intro field hf
    obtain ⟨v', hv, _⟩ := unmarshalSlot_field c field hf (hslots field hf)
    rw [hv]; rfl
  rw [h1, h2, h3, h4]; rfl

/-- The slots of a decoded snapshot are the decoded members. -/
theorem snapshotSlot_decodeSnapshot (doc : JsonDoc) (c' : resourcenamingtoolProviderModel)
    (h : decodeSnapshot doc = some c') (field : GoString) (hf : field ∈ slotFields) :
    snapshotSlot c' field = (unmarshalSlot (fieldMembers doc field)).getD .null := by
  unfold decodeSnapshot at h
  split at h
  · simp only [Option.some.injEq] at h
    subst h
    simp only [slotFields, List.mem_cons, List.mem_singleton, List.not_mem_nil, or_false] at hf
    rcases hf with h | h | h | h | h | h | h | h | h | h | h | h | h | h | h | h | h | h <;>
      subst h <;> rfl
  · cases h

/-- C19, for snapshots without unknown slot, without instance identifier, whose
maps hold known component objects and known strings, and whose strings and
map keys are valid UTF-8. Decoding the document written by `MarshalJSON`
succeeds and yields a snapshot with the same null-ness, fullname, shortcode
and char on each of the 18 default slots, and the same keys and values in
`AdditionalComponents` (values compared on the same four data) and in
`AdditionalNamingPatterns`. -/
theorem snapshot_round_trip (c : resourcenamingtoolProviderModel)
    (hpid : ∀ s, c.ProviderInstanceID ≠ .value s)
    (hslots : ∀ field ∈ slotFields,
      snapshotSlot c field ≠ .unknown ∧ (snapshotSlot c field).validUTF8 = true)
    (hcomp : ∀ kv ∈ c.AdditionalComponents.Elements,
      validUTF8 kv.1 = true ∧
      ∃ f s ch, kv.2 = .component (.known f s ch) ∧
        (ComponentValueObject.known f s ch).validUTF8 = true)
    (hpat : ∀ kv ∈ c.AdditionalNamingPatterns.Elements,
      validUTF8 kv.1 = true ∧ ∃ s, kv.2 = .string (.value s) ∧ validUTF8 s = true) :
    ∃ c', decodeSnapshot c.MarshalJSON = some c' ∧
      (∀ field ∈ slotFields, (snapshotSlot c' field).data = (snapshotSlot c field).data) ∧
      (∀ key, (mapGet c'.AdditionalComponents.Elements key).bind MapElem.data
        = (mapGet c.AdditionalComponents.Elements key).bind MapElem.data) ∧
      (∀ key, mapGet c'.AdditionalNamingPatterns.Elements key
        = mapGet c.AdditionalNamingPatterns.Elements key) := by
  have hacc := decodeSnapshot_accepts c hpid (fun field hf => (hslots field hf).2)
  have hdec : ∃ c', decodeSnapshot c.MarshalJSON = some c' ∧
      c'.AdditionalComponents = loadAdditionalComponents c.MarshalJSON ∧
      c'.AdditionalNamingPatterns = loadAdditionalNamingPatterns c.MarshalJSON := by
    unfold decodeSnapshot
    rw [if_pos hacc]
    exact ⟨_, rfl, rfl, rfl⟩
  obtain ⟨c', hc', hac, hanp⟩ := hdec
  have hndc : (c.AdditionalComponents.Elements.map Prod.fst).Nodup := by
    cases c.AdditionalComponents with
    | null => exact List.nodup_nil
    | unknown => exact List.nodup_nil
    | known m => exact m.nodup
  have hndp : (c.AdditionalNamingPatterns.Elements.map Prod.fst).Nodup := by
    cases c.AdditionalNamingPatterns with
    | null => exact List.nodup_nil
    | unknown => exact List.nodup_nil
    | known m => exact m.nodup
  refine ⟨c', hc', ?_, ?_, ?_⟩
  · intro field hf
    obtain ⟨v', hv, hdata, _⟩ := unmarshalSlot_field c field hf (hslots field hf).2
    rw [snapshotSlot_decodeSnapshot _ c' hc' field hf, hv]
    exact hdata (hslots field hf).1
  · intro key
    rw [hac, loadAdditionalComponents_marshal c (fun kv hkv => (hcomp kv hkv).1)]
    cases hget : mapGet c.AdditionalComponents.Elements key with
    | none => rfl
    | some e =>
      obtain ⟨_, f, s0, ch, he, hv⟩ :=
        hcomp (key, e) ((mapGet_eq_some_iff _ hndc key e).1 hget)
      simp only [] at he
      subst he
      simp only [ComponentValueObject.isKnown, if_true, Option.bind, MapElem.data]
      rw [processComponentFromMap_members f s0 ch hv]
  · intro key
    rw [hanp, loadAdditionalNamingPatterns_marshal c (fun kv hkv => (hpat kv hkv).1)]
    cases hget : mapGet c.AdditionalNamingPatterns.Elements key with
    | none => rfl
    | some e =>
      obtain ⟨_, s0, he, hv⟩ := hpat (key, e) ((mapGet_eq_some_iff _ hndp key e).1 hget)
      simp only [] at he
      subst he
      simp only []
      rw [jsonString_valid s0 hv]

/-- C19 at a concrete input: a snapshot with two slots, one additional
component and one naming pattern is read back with the same data. -/
theorem snapshot_round_trip_witness :
    ∃ c', decodeSnapshot sampleSnapshot.MarshalJSON = some c' ∧
      (∀ field ∈ slotFields,
        (snapshotSlot c' field).data = (snapshotSlot sampleSnapshot field).data) ∧
      (∀ key, (mapGet c'.AdditionalComponents.Elements key).bind MapElem.data
        = (mapGet sampleSnapshot.AdditionalComponents.Elements key).bind MapElem.data) ∧
      (∀ key, mapGet c'.AdditionalNamingPatterns.Elements key
        = mapGet sampleSnapshot.AdditionalNamingPatterns.Elements key) :=
  snapshot_round_trip sampleSnapshot
    (by intro s h; cases h)
    (by decide)
    (by
      intro kv hkv
      have h : kv = (str "team", .component (componentOf "platform" "plt" "p")) := by
        simpa [sampleSnapshot, TfMap.Elements] using hkv
      rw [h]
      exact ⟨by decide, _, _, _, rfl, by decide⟩)
    (by
      intro kv hkv
      have h : kv = (str "azurerm_resource_group",
          .string (.value (str "rg-{basename}"))) := by
        simpa [sampleSnapshot, TfMap.Elements] using hkv
      rw [h]
      exact ⟨by decide, _, rfl, by decide⟩)

/-- C19 does not hold for every snapshot: an unknown slot is read back as
null; a string element of `AdditionalComponents`, which `MarshalJSON` writes,
is not read back; a full name that is not valid UTF-8, the byte `C3`, is read
back as the three bytes of U+FFFD; and a snapshot with a known instance
identifier is not read back at all, the decoding ends with an error. -/
theorem snapshot_round_trip_loses_data :
    (∃ c', decodeSnapshot unknownSlotConfig.MarshalJSON = some c' ∧
      c'.DefaultBasename.IsNull = true ∧ unknownSlotConfig.DefaultBasename.IsNull = false) ∧
    (∃ c', decodeSnapshot flattenedElementConfig.MarshalJSON = some c' ∧
      mapGet c'.AdditionalComponents.Elements (str "team.fullname") = none ∧
      mapGet flattenedElementConfig.AdditionalComponents.Elements (str "team.fullname")
        = some (.string (.value (str "platform"))) ∧
      mapGet flattenedElementConfig.MarshalJSON (str "AdditionalComponents")
        = some (.object [(str "team.fullname", .string (str "platform"))])) ∧
    (∃ c', decodeSnapshot invalidTextConfig.MarshalJSON = some c' ∧
      c'.DefaultBasename.GetFullname = [0xEF, 0xBF, 0xBD] ∧
      invalidTextConfig.DefaultBasename.GetFullname = [0xC3]) ∧
    decodeSnapshot instanceIdConfig.MarshalJSON = none :=
  ⟨⟨_, rfl, rfl, rfl⟩, ⟨_, rfl, rfl, rfl, rfl⟩, ⟨_, rfl, rfl, rfl⟩, rfl⟩

/-- Decoding of documents that `MarshalJSON` does not write: a member whose
name differs from the name of a field in case only goes to that field, and of
repeated members and repeated names inside an object the last one decides; a
string under a name that folds to `provider_instance_id` is an error; in the
raw document the last member of a name decides as well. -/
theorem decodeSnapshot_repeated_member :
    (decodeSnapshot repeatedMemberDoc).map (fun c => c.DefaultBasename.GetFullname)
      = some (str "third") ∧
    (decodeSnapshot [(str "provider_inſtance_id", .string (str "abc"))]).isNone = true ∧
    (decodeSnapshot [(str "AdditionalNamingPatterns", .object [(str "t", .string (str "a"))]),
        (str "AdditionalNamingPatterns", .object [(str "t", .string (str "b")),
          (str "t", .other)])]).map
        (fun c => mapGet c.AdditionalNamingPatterns.Elements (str "t")) = some none := by
  decide

/-! ## Results of the read operation -/

theorem loadProviderConfigFromFile_trace (env : StoreEnv) :
    (loadProviderConfigFromFile env).2 = [.stat] ∨
    (loadProviderConfigFromFile env).2 = [.stat, .readFile] := by
  unfold loadProviderConfigFromFile
  cases env.file with
  | none => exact Or.inl rfl
  | some content =>
    cases env.statError with
    | some e => exact Or.inl rfl
    | none =>
      cases env.readError with
      | some e => exact Or.inr rfl
      | none => cases content <;> exact Or.inr rfl

/-- C20, as the code has it. `GetSharedProviderConfig` has a single result for
every failure: a directory-creation error, a lock error, a lock timeout, a
missing file, a stat error, a read error and bytes that are not a document all
give nil, as absence does; the snapshot is returned when the lock is acquired
and the file holds a document, and an undecodable document gives nil too. -/
theorem GetSharedProviderConfig_result (env : StoreEnv) :
    ((env.mkdirError ≠ none ∨ (tryLockWithRetries env.lockAttempts).1 ≠ (true, none) ∨
        env.file = none ∨ env.statError ≠ none ∨ env.readError ≠ none ∨
        env.file = some .malformed) →
      (GetSharedProviderConfig env false).outcome = .returned none) ∧
    (∀ doc, env.mkdirError = none → (tryLockWithRetries env.lockAttempts).1 = (true, none) →
      env.file = some (.document doc) → env.statError = none → env.readError = none →
      (GetSharedProviderConfig env false).outcome = .returned (decodeSnapshot doc)) := by
  constructor
  · intro h
    unfold GetSharedProviderConfig
    cases hmk : env.mkdirError with
    | some e => rfl
    | none =>
      simp only [Bool.false_eq_true, if_false]
      rcases hl : (tryLockWithRetries env.lockAttempts).1 with ⟨locked, err⟩
      cases err with
      | some e => cases locked <;> rfl
      | none =>
        cases locked with
        | false => rfl
        | true =>
          simp only []
          have hload : (loadProviderConfigFromFile env).1 = none := by
            rcases h with h | h | h | h | h | h
            · exact absurd hmk h
            · exact absurd hl h
            · unfold loadProviderConfigFromFile; rw [h]
            · unfold loadProviderConfigFromFile
              cases env.file with
              | none => rfl
              | some content =>
                cases hs : env.statError with
                | none => exact absurd hs h
                | some e => rfl
            · unfold loadProviderConfigFromFile
              cases env.file with
              | none => rfl
              | some content =>
                cases env.statError with
                | some e => rfl
                | none =>
                  cases hr : env.readError with
                  | none => exact absurd hr h
                  | some e => rfl
            · unfold loadProviderConfigFromFile
              rw [h]
              cases env.statError with
              | some e => rfl
              | none => cases env.readError <;> rfl
          rw [hload]
  · intro doc hmk hl hfile hstat hread
    unfold GetSharedProviderConfig
    rw [hmk]
    simp only [Bool.false_eq_true, if_false]
    rw [hl]
    simp only []
    unfold loadProviderConfigFromFile
    rw [hfile, hstat, hread]

/-- C20 at a concrete input: with the lock timing out at once, the read
operation returns nil. -/
theorem GetSharedProviderConfig_result_witness :
    (GetSharedProviderConfig { readyEnv with lockAttempts := [] } false).outcome
      = .returned none :=
  (GetSharedProviderConfig_result { readyEnv with lockAttempts := [] }).1
    (Or.inr (Or.inl (by decide)))

/-- C20 does not hold: absence of the file, a directory-creation failure, a
lock timeout, a lock error and an unmarshal error all give the caller the same
result, the nil pointer. -/
theorem GetSharedProviderConfig_failures_alike :
    (GetSharedProviderConfig readyEnv false).outcome = .returned none ∧
    (GetSharedProviderConfig { readyEnv with mkdirError := some (str "denied") } false).outcome
      = .returned none ∧
    (GetSharedProviderConfig { readyEnv with lockAttempts := [.busy, .busy] } false).outcome
      = .returned none ∧
    (GetSharedProviderConfig
        { readyEnv with lockAttempts := [.failed (str "bad descriptor")] } false).outcome
      = .returned none ∧
    (GetSharedProviderConfig { readyEnv with file := some .malformed } false).outcome
      = .returned none :=
  ⟨rfl, rfl, rfl, rfl, rfl⟩

/-! ## Locks around the file operations -/

theorem locksAfter_append (held : Bool × Bool) (es rest : List StoreEvent) :
    locksAfter held (es ++ rest) = locksAfter (locksAfter held es) rest := by
  induction es generalizing held with
  | nil => rfl
  | cons e es ih =>
    cases e with
    | tryLock o => cases o <;> exact ih _
    | _ => exact ih _

theorem accessesLocked_append (held : Bool × Bool) (es rest : List StoreEvent)
    (hr : StoreEvent.readFile ∉ es) (hw : StoreEvent.writeFile ∉ es) :
    accessesLocked held (es ++ rest) = accessesLocked (locksAfter held es) rest := by
  induction es generalizing held with
  | nil => rfl
  | cons e es ih =>
    have hr' : StoreEvent.readFile ∉ es := fun h => hr (List.mem_cons_of_mem _ h)
    have hw' : StoreEvent.writeFile ∉ es := fun h => hw (List.mem_cons_of_mem _ h)
    cases e with
    | readFile => exact absurd (List.mem_cons_self _ _) hr
    | writeFile => exact absurd (List.mem_cons_self _ _) hw
    | tryLock o => cases o <;> exact ih _ hr' hw'
    | _ => exact ih _ hr' hw'

/-- The calls made by `tryLockWithRetries`: busy attempts, followed by the
attempt that decides, if any. -/
theorem tryLockWithRetries_events (attempts : List LockAttempt) :
    StoreEvent.readFile ∉ (tryLockWithRetries attempts).2 ∧
    StoreEvent.writeFile ∉ (tryLockWithRetries attempts).2 ∧
    StoreEvent.marshal ∉ (tryLockWithRetries attempts).2 ∧
    StoreEvent.fileUnlock ∉ (tryLockWithRetries attempts).2 ∧
    StoreEvent.mutexUnlock ∉ (tryLockWithRetries attempts).2 ∧
    (∀ held : Bool × Bool, locksAfter held (tryLockWithRetries attempts).2
      = (held.1, held.2 || (tryLockWithRetries attempts).1.1)) ∧
    ((tryLockWithRetries attempts).1.1 = true → (tryLockWithRetries attempts).1.2 = none) := by
  induction attempts with
  | nil => simp [tryLockWithRetries, locksAfter]
  | cons a rest ih =>
    cases a with
    | acquired => simp [tryLockWithRetries, locksAfter]
    | failed e => simp [tryLockWithRetries, locksAfter]
    | busy =>
      obtain ⟨h1, h2, h3, h4, h5, h6, h7⟩ := ih
      simp only [tryLockWithRetries]
      refine ⟨?_, ?_, ?_, ?_, ?_, ?_, h7⟩
      · simpa using h1
      · simpa using h2
      · simpa using h3
      · simpa using h4
      · simpa using h5
      · intro held
        exact h6 held

/-- The three results of `tryLockWithRetries`. -/
theorem tryLockWithRetries_cases (attempts : List LockAttempt) :
    (tryLockWithRetries attempts).1 = (true, none) ∨
    (tryLockWithRetries attempts).1 = (false, none) ∨
    ∃ err, (tryLockWithRetries attempts).1 = (false, some err) := by
  induction attempts with
  | nil => exact Or.inr (Or.inl rfl)
  | cons a rest ih =>
    cases a with
    | acquired => exact Or.inl rfl
    | failed e => exact Or.inr (Or.inr ⟨e, rfl⟩)
    | busy => exact ih

/-- The trace up to the attempt to take the file lock. -/
theorem trace_until_lock (attempts : List LockAttempt) (rest : List StoreEvent) :
    accessesLocked (false, false)
        ([.mkdirAll, .mutexLock] ++ (tryLockWithRetries attempts).2 ++ rest)
      = accessesLocked (true, (tryLockWithRetries attempts).1.1) rest ∧
    locksAfter (false, false)
        ([.mkdirAll, .mutexLock] ++ (tryLockWithRetries attempts).2 ++ rest)
      = locksAfter (true, (tryLockWithRetries attempts).1.1) rest := by
  obtain ⟨hr, hw, _, _, _, hlocks, _⟩ := tryLockWithRetries_events attempts
  constructor
  · rw [List.append_assoc, accessesLocked_append _ _ _ (by decide) (by decide),
      accessesLocked_append _ _ _ hr hw, hlocks]
    rfl
  · rw [List.append_assoc, locksAfter_append, locksAfter_append, hlocks]
    rfl

theorem GetSharedProviderConfig_locked (env : StoreEnv) :
    accessesLocked (false, false) (GetSharedProviderConfig env false).trace = true ∧
    locksAfter (false, false) (GetSharedProviderConfig env false).trace = (false, false) := by
  unfold GetSharedProviderConfig
  cases env.mkdirError with
  | some e => exact ⟨rfl, rfl⟩
  | none =>
    simp only [Bool.false_eq_true, if_false]
    rcases tryLockWithRetries_cases env.lockAttempts with h | h | ⟨e, h⟩
    · rw [h]
      simp only []
      rw [List.append_assoc, (trace_until_lock _ _).1, (trace_until_lock _ _).2, h]
      rcases loadProviderConfigFromFile_trace env with hl | hl <;> rw [hl] <;> exact ⟨rfl, rfl⟩
    · rw [h]
      simp only []
      rw [(trace_until_lock _ _).1, (trace_until_lock _ _).2, h]
      exact ⟨rfl, rfl⟩
    · rw [h]
      simp only []
      rw [(trace_until_lock _ _).1, (trace_until_lock _ _).2, h]
      exact ⟨rfl, rfl⟩

theorem saveProviderConfigToFile_locked (env : StoreEnv)
    (config : Option resourcenamingtoolProviderModel) :
    accessesLocked (false, false) (saveProviderConfigToFile env false config).trace = true ∧
    locksAfter (false, false) (saveProviderConfigToFile env false config).trace
      = (false, false) := by
  unfold saveProviderConfigToFile
  cases config with
  | none => exact ⟨rfl, rfl⟩
  | some config =>
    simp only []
    cases env.mkdirError with
    | some e => exact ⟨rfl, rfl⟩
    | none =>
      simp only [Bool.false_eq_true, if_false]
      rcases tryLockWithRetries_cases env.lockAttempts with h | h | ⟨e, h⟩
      · rw [h]
        simp only []
        cases env.marshalError with
        | some e =>
          simp only []
          rw [(trace_until_lock _ _).1, (trace_until_lock _ _).2, h]
          exact ⟨rfl, rfl⟩
        | none =>
          simp only []
          cases env.writeError with
          | some e =>
            simp only []
            rw [(trace_until_lock _ _).1, (trace_until_lock _ _).2, h]
            exact ⟨rfl, rfl⟩
          | none =>
            simp only []
            rw [(trace_until_lock _ _).1, (trace_until_lock _ _).2, h]
            exact ⟨rfl, rfl⟩
      · rw [h]
        simp only []
        rw [(trace_until_lock _ _).1, (trace_until_lock _ _).2, h]
        exact ⟨rfl, rfl⟩
      · rw [h]
        simp only []
        rw [(trace_until_lock _ _).1, (trace_until_lock _ _).2, h]
        exact ⟨rfl, rfl⟩

theorem tryLockWithRetries_acquired (attempts : List LockAttempt) :
    (tryLockWithRetries attempts).1.1 = false →
      StoreEvent.tryLock .acquired ∉ (tryLockWithRetries attempts).2 := by
  induction attempts with
  | nil => intro _; simp [tryLockWithRetries]
  | cons a rest ih =>
    cases a with
    | acquired => intro h; simp [tryLockWithRetries] at h
    | failed e => intro _; simp [tryLockWithRetries]
    | busy =>
      intro h
      simp only [tryLockWithRetries] at h ⊢
      simpa using ih h

/-- C21, part that holds, and the exception. Every `ReadFile` and `WriteFile`
made by `GetSharedProviderConfig` and by `saveProviderConfigToFile` (which
`ValidateConfig` calls) happens with the mutex and the file lock held; the
`ReadFile` of `Configure`, which calls `loadProviderConfigFromFile` directly,
happens with neither. -/
theorem file_access_lock_discipline :
    (∀ env, accessesLocked (false, false) (GetSharedProviderConfig env false).trace = true) ∧
    (∀ env config,
      accessesLocked (false, false) (saveProviderConfigToFile env false config).trace
        = true) ∧
    (Configure { readyEnv with file := some (.document []) }).trace = [.stat, .readFile] ∧
    accessesLocked (false, false)
      (Configure { readyEnv with file := some (.document []) }).trace = false :=
  ⟨fun env => (GetSharedProviderConfig_locked env).1,
    fun env config => (saveProviderConfigToFile_locked env config).1, rfl, rfl⟩

/-- C22. On every path of `GetSharedProviderConfig` and of
`saveProviderConfigToFile` no lock is held at the return. When the file lock
was acquired the trace ends with the release of the file lock followed by the
release of the mutex, and these are the only releases; when the mutex was
taken and the file lock was not acquired, the trace ends with the release of
the mutex, the only release. -/
theorem locks_released_in_order (env : StoreEnv) (config : resourcenamingtoolProviderModel) :
    locksAfter (false, false) (GetSharedProviderConfig env false).trace = (false, false) ∧
    locksAfter (false, false) (saveProviderConfigToFile env false (some config)).trace
      = (false, false) ∧
    locksAfter (false, false) (saveProviderConfigToFile env false none).trace
      = (false, false) ∧
    (env.mkdirError = none → (tryLockWithRetries env.lockAttempts).1 = (true, none) →
      (∃ pre, (GetSharedProviderConfig env false).trace = pre ++ [.fileUnlock, .mutexUnlock] ∧
        StoreEvent.fileUnlock ∉ pre ∧ StoreEvent.mutexUnlock ∉ pre) ∧
      (∃ pre, (saveProviderConfigToFile env false (some config)).trace
          = pre ++ [.fileUnlock, .mutexUnlock] ∧
        StoreEvent.fileUnlock ∉ pre ∧ StoreEvent.mutexUnlock ∉ pre)) ∧
    (env.mkdirError = none → (tryLockWithRetries env.lockAttempts).1.1 = false →
      (∃ pre, (GetSharedProviderConfig env false).trace = pre ++ [.mutexUnlock] ∧
        StoreEvent.tryLock .acquired ∉ pre ∧ StoreEvent.fileUnlock ∉ pre ∧
        StoreEvent.mutexUnlock ∉ pre) ∧
      (∃ pre, (saveProviderConfigToFile env false (some config)).trace
          = pre ++ [.mutexUnlock] ∧
        StoreEvent.tryLock .acquired ∉ pre ∧ StoreEvent.fileUnlock ∉ pre ∧
        StoreEvent.mutexUnlock ∉ pre)) := by
  obtain ⟨_, _, _, hfu, hmu, _, _⟩ := tryLockWithRetries_events env.lockAttempts
  refine ⟨(GetSharedProviderConfig_locked env).2,
    (saveProviderConfigToFile_locked env (some config)).2,
    (saveProviderConfigToFile_locked env none).2, ?_, ?_⟩
  · intro hmk hl
    constructor
    · refine ⟨[.mkdirAll, .mutexLock] ++ (tryLockWithRetries env.lockAttempts).2 ++
        (loadProviderConfigFromFile env).2, ?_, ?_, ?_⟩
      · unfold GetSharedProviderConfig
        rw [hmk]
        simp only [Bool.false_eq_true, if_false]
        rw [hl]
      · rcases loadProviderConfigFromFile_trace env with h | h <;> rw [h] <;>
          simpa using hfu
      · rcases loadProviderConfigFromFile_trace env with h | h <;> rw [h] <;>
          simpa using hmu
    · unfold saveProviderConfigToFile
      simp only []
      rw [hmk]
      simp only [Bool.false_eq_true, if_false]
      rw [hl]
      simp only []
      cases env.marshalError with
      | some e =>
        exact ⟨[.mkdirAll, .mutexLock] ++ (tryLockWithRetries env.lockAttempts).2 ++ [.marshal],
          by simp, by simpa using hfu, by simpa using hmu⟩
      | none =>
        simp only []
        cases env.writeError with
        | some e =>
          exact ⟨[.mkdirAll, .mutexLock] ++ (tryLockWithRetries env.lockAttempts).2 ++
            [.marshal, .writeFile], by simp, by simpa using hfu, by simpa using hmu⟩
        | none =>
          exact ⟨[.mkdirAll, .mutexLock] ++ (tryLockWithRetries env.lockAttempts).2 ++
            [.marshal, .writeFile, .readFile], by simp, by simpa using hfu,
            by simpa using hmu⟩
  · intro hmk hl
    have hacq := tryLockWithRetries_acquired env.lockAttempts hl
    have hres : (tryLockWithRetries env.lockAttempts).1 = (false, none) ∨
        ∃ err, (tryLockWithRetries env.lockAttempts).1 = (false, some err) := by
      rcases tryLockWithRetries_cases env.lockAttempts with h | h | h
      · rw [h] at hl; cases hl
      · exact Or.inl h
      · exact Or.inr h
    constructor
    · refine ⟨[.mkdirAll, .mutexLock] ++ (tryLockWithRetries env.lockAttempts).2, ?_,
        by simpa using hacq, by simpa using hfu, by simpa using hmu⟩
      unfold GetSharedProviderConfig
      rw [hmk]
      simp only [Bool.false_eq_true, if_false]
      rcases hres with h | ⟨e, h⟩ <;> rw [h]
    · refine ⟨[.mkdirAll, .mutexLock] ++ (tryLockWithRetries env.lockAttempts).2, ?_,
        by simpa using hacq, by simpa using hfu, by simpa using hmu⟩
      unfold saveProviderConfigToFile
      simp only []
      rw [hmk]
      simp only [Bool.false_eq_true, if_false]
      rcases hres with h | ⟨e, h⟩ <;> rw [h]

/-- C22 at a concrete input: with the lock acquired at the second attempt the
trace of the read ends with the release of the file lock, then of the mutex. -/
theorem locks_released_in_order_witness :
    ∃ pre, (GetSharedProviderConfig { readyEnv with lockAttempts := [.busy, .acquired] }
        false).trace = pre ++ [.fileUnlock, .mutexUnlock] ∧
      StoreEvent.fileUnlock ∉ pre ∧ StoreEvent.mutexUnlock ∉ pre :=
  ((locks_released_in_order { readyEnv with lockAttempts := [.busy, .acquired] }
    emptyConfig).2.2.2.1 rfl rfl).1

/-! ## The retry loop and the entry points -/

theorem tryLockWithRetries_busy_run (pre rest : List LockAttempt)
    (hpre : ∀ a ∈ pre, a = LockAttempt.busy) :
    tryLockWithRetries (pre ++ rest)
      = ((tryLockWithRetries rest).1,
          pre.map (fun _ => StoreEvent.tryLock .busy) ++ (tryLockWithRetries rest).2) := by
  induction pre with
  | nil => rfl
  | cons a pre ih =>
    have ha : a = .busy := hpre a (List.mem_cons_self _ _)
    subst ha
    have ih' := ih (fun b hb => hpre b (List.mem_cons_of_mem _ hb))
    show ((tryLockWithRetries (pre ++ rest)).1,
        StoreEvent.tryLock .busy :: (tryLockWithRetries (pre ++ rest)).2) = _
    rw [ih']
    rfl

/-- C23. `tryLockWithRetries` stops at the first attempt that is not busy: it
returns `(true, nil)` when that attempt succeeds and `(false, err)` when it
fails with `err`, having made no further call, and `(false, nil)` when every
attempt made before the timeout was busy. When it reports `(false, nil)`,
`saveProviderConfigToFile` returns the error `timeout acquiring lock`, its
trace has neither a marshal nor a write, and the snapshot file is as before. -/
theorem tryLockWithRetries_spec :
    (∀ pre rest, (∀ a ∈ pre, a = LockAttempt.busy) →
      tryLockWithRetries (pre ++ .acquired :: rest)
        = ((true, none),
            pre.map (fun _ => StoreEvent.tryLock .busy) ++ [.tryLock .acquired])) ∧
    (∀ pre rest err, (∀ a ∈ pre, a = LockAttempt.busy) →
      tryLockWithRetries (pre ++ .failed err :: rest)
        = ((false, some err),
            pre.map (fun _ => StoreEvent.tryLock .busy) ++ [.tryLock (.failed err)])) ∧
    (∀ pre, (∀ a ∈ pre, a = LockAttempt.busy) →
      tryLockWithRetries pre
        = ((false, none), pre.map (fun _ => StoreEvent.tryLock .busy))) ∧
    (∀ env config, env.mkdirError = none →
      (tryLockWithRetries env.lockAttempts).1 = (false, none) →
      (saveProviderConfigToFile env false (some config)).outcome
        = .returned (some (str "timeout acquiring lock")) ∧
      StoreEvent.marshal ∉ (saveProviderConfigToFile env false (some config)).trace ∧
      StoreEvent.writeFile ∉ (saveProviderConfigToFile env false (some config)).trace ∧
      (saveProviderConfigToFile env false (some config)).file = env.file) := by
  refine ⟨?_, ?_, ?_, ?_⟩
  · intro pre rest hpre
    rw [tryLockWithRetries_busy_run pre _ hpre]
    rfl
  · intro pre rest err hpre
    rw [tryLockWithRetries_busy_run pre _ hpre]
    rfl
  · intro pre hpre
    have h := tryLockWithRetries_busy_run pre [] hpre
    rw [List.append_nil] at h
    rw [h]
    simp [tryLockWithRetries]
  · intro env config hmk hl
    obtain ⟨_, hw, hm, _, _, _, _⟩ := tryLockWithRetries_events env.lockAttempts
    unfold saveProviderConfigToFile
    simp only []
    rw [hmk]
    simp only [Bool.false_eq_true, if_false]
    rw [hl]
    refine ⟨rfl, ?_, ?_, rfl⟩
    · simpa using hm
    · simpa using hw

/-- C23 at a concrete input: two busy attempts and then the timeout; the write
operation reports the timeout and leaves the file alone. -/
theorem tryLockWithRetries_spec_witness :
    (saveProviderConfigToFile { readyEnv with lockAttempts := [.busy, .busy] } false
        (some emptyConfig)).outcome = .returned (some (str "timeout acquiring lock")) ∧
    StoreEvent.marshal ∉ (saveProviderConfigToFile
      { readyEnv with lockAttempts := [.busy, .busy] } false (some emptyConfig)).trace ∧
    StoreEvent.writeFile ∉ (saveProviderConfigToFile
      { readyEnv with lockAttempts := [.busy, .busy] } false (some emptyConfig)).trace ∧
    (saveProviderConfigToFile { readyEnv with lockAttempts := [.busy, .busy] } false
        (some emptyConfig)).file = none :=
  tryLockWithRetries_spec.2.2.2 { readyEnv with lockAttempts := [.busy, .busy] }
    emptyConfig rfl rfl

/-- C24, part that holds, and the exception. `GetSharedProviderConfig` and
`saveProviderConfigToFile` always return. `SaveSharedProviderConfig` does not:
once it holds the mutex and the file lock it calls `saveProviderConfigToFile`,
which locks the same mutex again, so for every non-nil configuration the call
never returns. -/
theorem SaveSharedProviderConfig_blocks :
    (∀ env, ∃ result, (GetSharedProviderConfig env false).outcome = .returned result) ∧
    (∀ env config, ∃ err, (saveProviderConfigToFile env false config).outcome
      = .returned err) ∧
    (∀ (env : StoreEnv) (config : resourcenamingtoolProviderModel),
      (SaveSharedProviderConfig { env with mkdirError := none, lockAttempts := [.acquired] }
        false (some config)).outcome = .blocked ∧
      (SaveSharedProviderConfig { env with mkdirError := none, lockAttempts := [.acquired] }
        false (some config)).trace
        = [.mkdirAll, .mutexLock, .tryLock .acquired, .mkdirAll]) := by
  refine ⟨?_, ?_, ?_⟩
  · intro env
    unfold GetSharedProviderConfig
    cases env.mkdirError with
    | some e => exact ⟨_, rfl⟩
    | none =>
      simp only [Bool.false_eq_true, if_false]
      rcases tryLockWithRetries_cases env.lockAttempts with h | h | ⟨e, h⟩ <;> rw [h] <;>
        exact ⟨_, rfl⟩
  · intro env config
    unfold saveProviderConfigToFile
    cases config with
    | none => exact ⟨_, rfl⟩
    | some config =>
      simp only []
      cases env.mkdirError with
      | some e => exact ⟨_, rfl⟩
      | none =>
        simp only [Bool.false_eq_true, if_false]
        rcases tryLockWithRetries_cases env.lockAttempts with h | h | ⟨e, h⟩ <;> rw [h]
        · simp only []
          cases env.marshalError with
          | some e => exact ⟨_, rfl⟩
          | none =>
            simp only []
            cases env.writeError with
            | some e => exact ⟨_, rfl⟩
            | none => exact ⟨_, rfl⟩
        · exact ⟨_, rfl⟩
        · exact ⟨_, rfl⟩
  · intro env config
    exact ⟨rfl, rfl⟩

/-! ## The built-in table -/

/-- The built-in naming pattern table is empty, every entry of the source
being commented out: when neither the call nor the persisted configuration
holds a pattern for the effective resource type, `generateResourceName` finds
no template and returns the `Missing Pattern` error. -/
theorem builtin_table_empty (order : RangeOrder)
    (params : ResourceNamingParametersValue) (config : resourcenamingtoolProviderModel)
    (k : GoString) (hkey : effectiveResourceType params config = .ok k)
    (hconfig : patternEntry config.AdditionalNamingPatterns k = none)
    (hparams : patternEntry (callTimePatterns params) k = none) :
    builtin_NamingPatterns.entries = [] ∧
    generateResourceName order params config
      = ([], [⟨str "Missing Pattern",
          str "No naming pattern found for resource type: " ++ k⟩]) := by
  refine ⟨rfl, ?_⟩
  have hnone : patternByPrecedence builtin_NamingPatterns params config k = none := by
    unfold patternByPrecedence persistedOrBuiltin
    rw [hparams, hconfig]
    rfl
  unfold generateResourceName
  rw [hkey]
  simp only [generateForType]
  rw [mapGet_consolidatedPatterns, hnone]

/-- The empty table at a concrete input: with the defaults of the test suite
but no persisted or call-time pattern, the resource group has no template. -/
theorem builtin_table_empty_witness :
    builtin_NamingPatterns.entries = [] ∧
    generateResourceName RangeOrder.insertion (.known .empty)
        { providerConfig with AdditionalNamingPatterns := .null }
      = ([], [⟨str "Missing Pattern",
          str "No naming pattern found for resource type: " ++
            str "azurerm_resource_group"⟩]) :=
  builtin_table_empty RangeOrder.insertion (.known .empty)
    { providerConfig with AdditionalNamingPatterns := .null }
    (str "azurerm_resource_group") rfl rfl rfl

/-- C25 fails on the code: the built-in table, announced by its comment as the
default patterns of Azure, AWS and GCP and by the schema as what
`additional_naming_patterns` overrides, has no entry. For the resource type
`azurerm_resource_group`, which the commented-out source lines list, no
template is found when neither the persisted configuration nor the call
supplies a pattern, and the call ends with the `Missing Pattern` error. -/
theorem builtin_table_has_no_entry :
    builtin_NamingPatterns.entries.length = 0 ∧
    generateResourceName RangeOrder.insertion
        (singleParam (str "resource_type")
          (.component (componentOf "azurerm_resource_group" "rg" "r")))
        { providerConfig with AdditionalNamingPatterns := .null }
      = ([], [⟨str "Missing Pattern",
          str "No naming pattern found for resource type: azurerm_resource_group"⟩]) := by
  refine ⟨by decide, by decide⟩

/-! ## Independence of unused parts of the configuration -/

/-- Replacing `AdditionalComponents`, `DefaultLocation` and
`ProviderInstanceID` of the configuration changes nothing. -/
theorem generateResourceName_config_update (order : RangeOrder)
    (params : ResourceNamingParametersValue) (config : resourcenamingtoolProviderModel)
    (components : TfMap) (location : ComponentValueObject) (instanceID : TfString) :
    generateResourceName order params
        { config with
          AdditionalComponents := components
          DefaultLocation := location
          ProviderInstanceID := instanceID }
      = generateResourceName order params config := by
  rfl

/-- C29. `generateResourceName` reads neither `AdditionalComponents` nor
`DefaultLocation` nor `ProviderInstanceID` of the configuration: for every
parameter object, every iteration order and every two configurations that
agree on the other default slots and on `AdditionalNamingPatterns`, it returns
the same string and the same diagnostics. -/
theorem generateResourceName_ignores_unused_config (order : RangeOrder)
    (params : ResourceNamingParametersValue) (c1 c2 : resourcenamingtoolProviderModel)
    (hslots : ∀ field ∈ slotFields, field ≠ str "DefaultLocation" →
      snapshotSlot c1 field = snapshotSlot c2 field)
    (hpatterns : c1.AdditionalNamingPatterns = c2.AdditionalNamingPatterns) :
    generateResourceName order params c1 = generateResourceName order params c2 := by
  have h1 : c1.DefaultResourceType = c2.DefaultResourceType :=
    hslots (str "DefaultResourceType") (by decide) (by decide)
  have h2 : c1.DefaultResourcePrefix = c2.DefaultResourcePrefix :=
    hslots (str "DefaultResourcePrefix") (by decide) (by decide)
  have h3 : c1.DefaultBasename = c2.DefaultBasename :=
    hslots (str "DefaultBasename") (by decide) (by decide)
  have h4 : c1.DefaultEnvironment = c2.DefaultEnvironment :=
    hslots (str "DefaultEnvironment") (by decide) (by decide)
  have h5 : c1.DefaultRegion = c2.DefaultRegion :=
    hslots (str "DefaultRegion") (by decide) (by decide)
  have h6 : c1.DefaultInstance = c2.DefaultInstance :=
    hslots (str "DefaultInstance") (by decide) (by decide)
  have h7 : c1.DefaultOrganization = c2.DefaultOrganization :=
    hslots (str "DefaultOrganization") (by decide) (by decide)
  have h8 : c1.DefaultBusinessUnit = c2.DefaultBusinessUnit :=
    hslots (str "DefaultBusinessUnit") (by decide) (by decide)
  have h9 : c1.DefaultCostCenter = c2.DefaultCostCenter :=
    hslots (str "DefaultCostCenter") (by decide) (by decide)
  have h10 : c1.DefaultProject = c2.DefaultProject :=
    hslots (str "DefaultProject") (by decide) (by decide)
  have h11 : c1.DefaultApplication = c2.DefaultApplication :=
    hslots (str "DefaultApplication") (by decide) (by decide)
  have h12 : c1.DefaultWorkload = c2.DefaultWorkload :=
    hslots (str "DefaultWorkload") (by decide) (by decide)
  have h13 : c1.DefaultSubscription = c2.DefaultSubscription :=
    hslots (str "DefaultSubscription") (by decide) (by decide)
  have h14 : c1.DefaultDomain = c2.DefaultDomain :=
    hslots (str "DefaultDomain") (by decide) (by decide)
  have h15 : c1.DefaultCriticality = c2.DefaultCriticality :=
    hslots (str "DefaultCriticality") (by decide) (by decide)
  have h16 : c1.DefaultInitiative = c2.DefaultInitiative :=
    hslots (str "DefaultInitiative") (by decide) (by decide)
  have h17 : c1.DefaultSolution = c2.DefaultSolution :=
    hslots (str "DefaultSolution") (by decide) (by decide)
  have hc : c1 = { c2 with
      AdditionalComponents := c1.AdditionalComponents
      DefaultLocation := c1.DefaultLocation
      ProviderInstanceID := c1.ProviderInstanceID } := by
    cases c1
    cases c2
    simp only [] at h1 h2 h3 h4 h5 h6 h7 h8 h9 h10 h11 h12 h13 h14 h15 h16 h17 hpatterns
    simp only [h1, h2, h3, h4, h5, h6, h7, h8, h9, h10, h11, h12, h13, h14, h15, h16, h17,
      hpatterns]
  rw [hc]
  exact generateResourceName_config_update order params c2 _ _ _

/-- C29 at a concrete input: the test configuration, and the same with a
location, an additional component and an instance identifier. -/
theorem generateResourceName_ignores_unused_config_witness :
    generateResourceName RangeOrder.insertion (.known .empty) providerConfig
      = generateResourceName RangeOrder.insertion (.known .empty)
          { providerConfig with
            DefaultLocation := componentOf "eastus" "eus" "e"
            AdditionalComponents := flattenedElementConfig.AdditionalComponents
            ProviderInstanceID := .value (str "one") } :=
  generateResourceName_ignores_unused_config RangeOrder.insertion (.known .empty)
    providerConfig
    { providerConfig with
      DefaultLocation := componentOf "eastus" "eus" "e"
      AdditionalComponents := flattenedElementConfig.AdditionalComponents
      ProviderInstanceID := .value (str "one") }
    (by decide) rfl

/-! ## Shape of the placeholder map -/

theorem mem_mapSet {V : Type} (l : List (GoString × V)) (k : GoString) (v : V)
    (x : GoString × V) (h : x ∈ mapSet l k v) : x ∈ l ∨ x = (k, v) := by
  induction l with
  | nil => simp only [mapSet, List.mem_singleton] at h; exact Or.inr h
  | cons e rest ih =>
    obtain ⟨k0, v0⟩ := e
    by_cases hk : k0 = k
    · simp only [mapSet, hk, if_true, List.mem_cons] at h
      rcases h with h | h
      · exact Or.inr h
      · exact Or.inl (List.mem_cons_of_mem _ h)
    · simp only [mapSet, hk, if_false, List.mem_cons] at h
      rcases h with h | h
      · exact Or.inl (by rw [h]; exact List.mem_cons_self _ _)
      · rcases ih h with h1 | h1
        · exact Or.inl (List.mem_cons_of_mem _ h1)
        · exact Or.inr h1

theorem mem_foldl_mapSet {V : Type} (W P : List (GoString × V)) (x : GoString × V)
    (h : x ∈ W.foldl (fun P kv => mapSet P kv.1 kv.2) P) : x ∈ P ∨ x ∈ W := by
  induction W generalizing P with
  | nil => exact Or.inl h
  | cons w W ih =>
    rw [List.foldl_cons] at h
    rcases ih _ h with h1 | h1
    · rcases mem_mapSet _ _ _ _ h1 with h2 | h2
      · exact Or.inl h2
      · exact Or.inr (by rw [h2]; exact List.mem_cons_self _ _)
    · exact Or.inr (List.mem_cons_of_mem _ h1)

theorem nodup_foldl_mapSet {V : Type} (W P : List (GoString × V))
    (h : (P.map Prod.fst).Nodup) :
    ((W.foldl (fun P kv => mapSet P kv.1 kv.2) P).map Prod.fst).Nodup := by
  induction W generalizing P with
  | nil => exact h
  | cons w W ih => exact ih _ (nodup_keys_mapSet _ _ _ h)

theorem resolvePlaceholder_ne_nil (params : ResourceNamingParametersValue)
    (config : resourcenamingtoolProviderModel) (name placeholder : GoString)
    (valueType : Format) (v : GoString)
    (h : resolvePlaceholder params config name valueType placeholder = some v) : v ≠ [] := by
  unfold resolvePlaceholder at h
  cases hc : params.GetComponentValue name with
  | error d => rw [hc] at h; cases h
  | ok compValue =>
    rw [hc] at h
    simp only [] at h
    split_ifs at h with h1 h2
    · cases h; exact h2
    · cases h; assumption

/-- The placeholder loop stores non-empty values under distinct keys. -/
theorem fixedPlaceholders_entries (params : ResourceNamingParametersValue)
    (config : resourcenamingtoolProviderModel) (pattern : GoString) :
    ((fixedPlaceholders params config pattern).map Prod.fst).Nodup ∧
    ∀ kv ∈ fixedPlaceholders params config pattern, kv.2 ≠ [] := by
  rw [fixedPlaceholders_eq]
  have key : ∀ (F : List (GoString × Format × GoString)) (init : List (GoString × GoString)),
      (init.map Prod.fst).Nodup → (∀ kv ∈ init, kv.2 ≠ []) →
      ((F.foldl (placeholderStep params config) init).map Prod.fst).Nodup ∧
      ∀ kv ∈ F.foldl (placeholderStep params config) init, kv.2 ≠ [] := by
    intro F
    induction F with
    | nil => intro init h1 h2; exact ⟨h1, h2⟩
    | cons t rest ih =>
      intro init h1 h2
      rw [List.foldl_cons]
      apply ih
      · unfold placeholderStep
        cases resolvePlaceholder params config t.1 t.2.1 t.2.2 with
        | none => exact h1
        | some v => exact nodup_keys_mapSet _ _ _ h1
      · unfold placeholderStep
        cases hres : resolvePlaceholder params config t.1 t.2.1 t.2.2 with
        | none => exact h2
        | some v =>
          intro kv hkv
          rcases mem_mapSet _ _ _ _ hkv with h | h
          · exact h2 kv h
          · rw [h]; exact resolvePlaceholder_ne_nil _ _ _ _ _ _ hres
  exact key _ [] List.nodup_nil (fun kv h => by cases h)

/-- The additional-components stage either leaves the map as it is, or makes
the assignments of the groups of a known map. -/
theorem additionalPlaceholders_cases (order : RangeOrder)
    (params : ResourceNamingParametersValue) (P : List (GoString × GoString)) :
    (additionalPlaceholders order params P = P ∧ additionalNames params = []) ∨
    ∃ m : GoMap MapElem,
      mapGet params.Attributes (str "additional_components") = some (.map (.known m)) ∧
      additionalNames params = (groupAdditional m.entries).map Prod.fst := by
  unfold additionalPlaceholders additionalNames
  cases h : mapGet params.Attributes (str "additional_components") with
  | none => exact Or.inl ⟨rfl, rfl⟩
  | some a =>
    cases a with
    | component c => exact Or.inl ⟨rfl, rfl⟩
    | other t => exact Or.inl ⟨rfl, rfl⟩
    | object o => exact Or.inl ⟨rfl, rfl⟩
    | map m =>
      cases m with
      | null => exact Or.inl ⟨rfl, rfl⟩
      | unknown => exact Or.inl ⟨rfl, rfl⟩
      | known g => exact Or.inr ⟨g, rfl, rfl⟩

/-- The placeholder map of `generateResourceName`: distinct keys, non-empty
values, and brace tokens as keys when no name of a call-time additional
component contains a brace. -/
theorem placeholders_entries (order : RangeOrder) (params : ResourceNamingParametersValue)
    (config : resourcenamingtoolProviderModel) (pattern : GoString) :
    ((additionalPlaceholders order params
        (fixedPlaceholders params config pattern)).map Prod.fst).Nodup ∧
    (∀ kv ∈ additionalPlaceholders order params (fixedPlaceholders params config pattern),
      kv.2 ≠ []) ∧
    ((∀ name ∈ additionalNames params, lbrace ∉ name ∧ rbrace ∉ name) →
      ∀ x ∈ (additionalPlaceholders order params
        (fixedPlaceholders params config pattern)).map Prod.fst, isToken x = true) := by
  obtain ⟨hnd, hval⟩ := fixedPlaceholders_entries params config pattern
  rcases additionalPlaceholders_cases order params (fixedPlaceholders params config pattern)
    with ⟨h, _⟩ | ⟨m, hm, hk⟩
  · rw [h]
    exact ⟨hnd, hval, fun _ x hx =>
      allPlaceholders_tokens x (fixedPlaceholders_keys params config pattern x hx)⟩
  · refine ⟨?_, ?_, ?_⟩
    · rw [additionalPlaceholders_eq order params m hm]
      exact nodup_foldl_mapSet _ _ hnd
    · rw [additionalPlaceholders_eq order params m hm]
      intro kv hkv
      rcases mem_foldl_mapSet _ _ kv hkv with h | h
      · exact hval kv h
      · obtain ⟨g, _, hw⟩ := List.mem_flatMap.1 h
        obtain ⟨sb, _, v, _, hv, hkveq⟩ := (mem_groupWrites g.1 g.2 kv).1 hw
        rw [hkveq]; exact hv
    · intro hnames x hx
      rw [additionalPlaceholders_eq order params m hm] at hx
      rcases mem_keys_writes _ _ x hx with h | h
      · exact allPlaceholders_tokens x (fixedPlaceholders_keys params config pattern x h)
      · obtain ⟨kv, hkv, rfl⟩ := List.mem_map.1 h
        obtain ⟨g, hg, hw⟩ := List.mem_flatMap.1 hkv
        obtain ⟨sb, hsb, v, _, _, hkveq⟩ := (mem_groupWrites g.1 g.2 kv).1 hw
        have hgm : g ∈ groupAdditional m.entries := (order.groups_perm _).mem_iff.1 hg
        have hname := hnames g.1 (by rw [hk]; exact List.mem_map_of_mem Prod.fst hgm)
        rw [hkveq]
        exact isToken_placeholder g.1 hname.1 hname.2 sb hsb

theorem contains_mid (A K B : GoString) : contains (A ++ K ++ B) K = true := by
  rw [List.append_assoc]
  apply contains_append_left
  have h := startsWith_append K B
  cases hKB : K ++ B with
  | nil =>
    have hK : K = [] := (List.append_eq_nil.1 hKB).1
    rw [hK]; rfl
  | cons c rest =>
    rw [hKB] at h
    rw [contains, h]
    rfl

/-! ## Placeholders without a value -/

/-- C28, when no name of a call-time additional component contains a brace.
No entry of the placeholder map has an empty value. If the template contains a
placeholder of a fixed slot for which the call-time component and the
persisted default both give the empty string, and the additional components
leave the entry of that placeholder alone, then `generateResourceName` fails
with `Unresolved Components` and the placeholder is part of the reported
string. -/
theorem fixed_placeholder_never_empty (order : RangeOrder)
    (params : ResourceNamingParametersValue) (config : resourcenamingtoolProviderModel)
    (k A B : GoString) (compType : ComponentType) (placeholder : GoString)
    (hkey : effectiveResourceType params config = .ok k)
    (hpat : patternByPrecedence builtin_NamingPatterns params config k
      = some (A ++ placeholder ++ B))
    (hct : compType ∈ componentTypes) (hph : placeholder ∈ compType.Patterns)
    (hnames : ∀ name ∈ additionalNames params, lbrace ∉ name ∧ rbrace ∉ name)
    (hcall : ∀ compValue, params.GetComponentValue compType.Name = .ok compValue →
      callTimeValue compValue (placeholderFormat compType.ValueType placeholder) = [])
    (hdef : defaultValue (defaultComponent config compType.Name)
      (placeholderFormat compType.ValueType placeholder) = [])
    (hadd : ∀ P, mapGet (additionalPlaceholders order params P) placeholder
      = mapGet P placeholder) :
    (∀ kv ∈ additionalPlaceholders order params
        (fixedPlaceholders params config (A ++ placeholder ++ B)), kv.2 ≠ []) ∧
    ∃ result, generateResourceName order params config
        = ([], [⟨str "Unresolved Components",
            str "Resource name contains unrecognized components: " ++ result⟩]) ∧
      contains result placeholder = true := by
  obtain ⟨_, hval, htok⟩ := placeholders_entries order params config (A ++ placeholder ++ B)
  refine ⟨hval, ?_⟩
  have hres : resolvePlaceholder params config compType.Name compType.ValueType placeholder
      = none := by
    unfold resolvePlaceholder
    cases hc : params.GetComponentValue compType.Name with
    | error d => rfl
    | ok compValue =>
      simp only [hcall compValue hc, hdef, if_true]
      rfl
  have hK : isToken placeholder = true := by
    apply allPlaceholders_tokens
    unfold allPlaceholders
    rw [List.mem_map]
    exact ⟨(compType.Name, compType.ValueType, placeholder),
      List.mem_flatMap.2 ⟨compType, hct, List.mem_map_of_mem _ hph⟩, rfl⟩
  apply generateResourceName_token_unresolved order params config k A placeholder B hkey hpat
    hK (htok hnames)
  rw [hadd, mapGet_fixedPlaceholders params config _ compType placeholder hct hph
    (contains_mid A placeholder B), hres]

set_option maxRecDepth 8000 in
/-- C28 at a concrete input: the template `rg-{basename}` with no basename
anywhere fails, and the error names `{basename}`. -/
theorem fixed_placeholder_never_empty_witness :
    ∃ result, generateResourceName RangeOrder.insertion
        (singleParam (str "resource_type")
          (.component (.known (.value (str "t")) .null .null)))
        (literalPatternConfig (str "rg-{basename}"))
        = ([], [⟨str "Unresolved Components",
            str "Resource name contains unrecognized components: " ++ result⟩]) ∧
      contains result (str "{basename}") = true :=
  (fixed_placeholder_never_empty RangeOrder.insertion
    (singleParam (str "resource_type")
      (.component (.known (.value (str "t")) .null .null)))
    (literalPatternConfig (str "rg-{basename}")) (str "t") (str "rg-") []
    ⟨str "basename", [str "{basename}", str "{basename:full}", str "{basename:short}",
      str "{basename:char}"], .full⟩ (str "{basename}")
    rfl (by decide) (by decide) (by decide) (by decide)
    (by
      intro compValue h
      have hc : compValue = .null := by
        have h' : (Except.ok ComponentValueObject.null : Except Diagnostic _)
            = .ok compValue := h
        cases h'; rfl
      rw [hc]; decide)
    (by decide) (fun P => rfl)).2

set_option maxRecDepth 8000 in
/-- C28 does not hold for every input: an additional component may be named
`x}{basename`, its placeholder `{x}{basename}` then covers the placeholder
`{basename}` of the template, which has no value, and the name `abc` is
returned. -/
theorem fixed_placeholder_swallowed :
    contains (str "{x}{basename}") (str "{basename}") = true ∧
    resolvePlaceholder braceNameParams (literalPatternConfig (str "{x}{basename}"))
      (str "basename") .full (str "{basename}") = none ∧
    mapGet (additionalPlaceholders RangeOrder.insertion braceNameParams
      (fixedPlaceholders braceNameParams (literalPatternConfig (str "{x}{basename}"))
        (str "{x}{basename}"))) (str "{basename}") = none ∧
    generateResourceName RangeOrder.insertion braceNameParams
      (literalPatternConfig (str "{x}{basename}")) = (str "abc", []) := by
  decide

/-! ## Simultaneous substitution -/

/-- C30. When no value of the placeholder map contains an opening brace, no
name of a call-time additional component contains a brace, and the template is
a sequence of brace tokens and of texts without opening brace, the substitution
loop gives, for every order in which the placeholder map is processed, the
template in which each token that has an entry is replaced by its value and
everything else is left as it is. -/
theorem substitution_simultaneous (order : RangeOrder)
    (params : ResourceNamingParametersValue) (config : resourcenamingtoolProviderModel)
    (segs : List Seg) (hwf : ∀ seg ∈ segs, seg.WF)
    (hnames : ∀ name ∈ additionalNames params, lbrace ∉ name ∧ rbrace ∉ name)
    (hvals : ∀ kv ∈ additionalPlaceholders order params
      (fixedPlaceholders params config (flatten segs)), lbrace ∉ kv.2) :
    ∀ processed : List (GoString × GoString),
      processed.Perm (additionalPlaceholders order params
        (fixedPlaceholders params config (flatten segs))) →
      substitute (flatten segs) processed
        = flatten (segs.map (Seg.subst (additionalPlaceholders order params
            (fixedPlaceholders params config (flatten segs))))) := by
  intro processed hperm
  obtain ⟨hnd, _, htok⟩ := placeholders_entries order params config (flatten segs)
  rw [substitute_flatten processed segs hwf, subst_perm _ processed hperm hnd]
  intro kv hkv
  have hmem := hperm.mem_iff.1 hkv
  exact ⟨htok hnames kv.1 (List.mem_map_of_mem Prod.fst hmem), hvals kv hmem⟩

set_option maxRecDepth 8000 in
/-- C30 at a concrete input: the resource group template with the defaults of
the test suite, the placeholder map processed in reverse order. -/
theorem substitution_simultaneous_witness :
    substitute (flatten [.lit (str "rg-"), .tok (str "{basename}"), .lit (str "-"),
        .tok (str "{environment:short}"), .lit (str "-"), .tok (str "{region:short}")])
      [(str "{region:short}", str "we"), (str "{environment:short}", str "prd"),
        (str "{basename}", str "example")]
    = flatten ([.lit (str "rg-"), .tok (str "{basename}"), .lit (str "-"),
        .tok (str "{environment:short}"), .lit (str "-"), .tok (str "{region:short}")].map
        (Seg.subst (additionalPlaceholders RangeOrder.insertion (.known .empty)
          (fixedPlaceholders (.known .empty) providerConfig
            (flatten [.lit (str "rg-"), .tok (str "{basename}"), .lit (str "-"),
              .tok (str "{environment:short}"), .lit (str "-"),
              .tok (str "{region:short}")]))))) :=
  substitution_simultaneous RangeOrder.insertion (.known .empty) providerConfig
    [.lit (str "rg-"), .tok (str "{basename}"), .lit (str "-"),
      .tok (str "{environment:short}"), .lit (str "-"), .tok (str "{region:short}")]
    (wf_of_check _ (by decide)) (by decide) (by decide)
    [(str "{region:short}", str "we"), (str "{environment:short}", str "prd"),
      (str "{basename}", str "example")]
    (by decide)

theorem mem_validateComponentIfProvided (comp : ComponentValueObject)
    (attrName : GoString) (d : Diagnostic) :
    d ∈ validateComponentIfProvided comp attrName ↔
      (comp.isKnown = true ∧ comp.GetFullname = [] ∧ comp.GetShortcode = [] ∧
        comp.GetChar = [] ∧
        d = ⟨str "Invalid Component Configuration",
          str "At least one of fullname, shortcode, or char must be provided for " ++
            attrName⟩) := by
  unfold validateComponentIfProvided
  cases comp with
  | null => simp [ComponentValueObject.IsNull, ComponentValueObject.isKnown]
  | unknown =>
    simp [ComponentValueObject.IsNull, ComponentValueObject.IsUnknown,
      ComponentValueObject.isKnown]
  | known f s c =>
    simp only [ComponentValueObject.IsNull, ComponentValueObject.IsUnknown,
      ComponentValueObject.isKnown, Bool.or_self, Bool.false_eq_true, if_false, true_and]
    split
    · next h => simp [h]
    · next h =>
      simp only [List.not_mem_nil, false_iff]
      rintro ⟨h1, h2, h3, _⟩
      exact h ⟨h1, h2, h3⟩

theorem validateAdditionalComponents_summary (m : TfMap) (d : Diagnostic)
    (h : d ∈ validateAdditionalComponents m) :
    d.summary = str "Invalid Component Key Format" ∨ d.summary = str "Null Component Value" := by
  unfold validateAdditionalComponents at h
  obtain ⟨kv, _, hd⟩ := List.mem_flatMap.1 h
  split at hd
  · rw [List.mem_singleton] at hd; rw [hd]; exact Or.inl rfl
  · split at hd
    · rw [List.mem_singleton] at hd; rw [hd]; exact Or.inr rfl
    · cases hd

theorem validateAdditionalNamingPatterns_summary (m : TfMap) (d : Diagnostic)
    (h : d ∈ validateAdditionalNamingPatterns m) : d.summary = str "Null Pattern Value" := by
  unfold validateAdditionalNamingPatterns at h
  obtain ⟨kv, _, hd⟩ := List.mem_flatMap.1 h
  split at hd
  · rw [List.mem_singleton] at hd; rw [hd]
  · cases hd

/-- The component error of a slot is among the validation errors exactly when
the slot is known and its three attributes are empty. -/
theorem mem_validationErrors_slot (config : resourcenamingtoolProviderModel)
    (af : GoString × GoString) (haf : af ∈ slotAttributes) :
    (⟨str "Invalid Component Configuration",
        str "At least one of fullname, shortcode, or char must be provided for " ++ af.1⟩ :
        Diagnostic) ∈ validationErrors config ↔
      ((snapshotSlot config af.2).isKnown = true ∧
        (snapshotSlot config af.2).GetFullname = [] ∧
        (snapshotSlot config af.2).GetShortcode = [] ∧
        (snapshotSlot config af.2).GetChar = []) := by
  have hinj : ∀ a ∈ slotAttributes, ∀ b ∈ slotAttributes, a.1 = b.1 → a = b := by decide
  have hs1 : ¬ str "Invalid Component Configuration" = str "Invalid Component Key Format" := by
    decide
  have hs2 : ¬ str "Invalid Component Configuration" = str "Null Component Value" := by decide
  have hs3 : ¬ str "Invalid Component Configuration" = str "Null Pattern Value" := by decide
  unfold validationErrors
  constructor
  · intro h
    rw [List.mem_append, List.mem_append] at h
    rcases h with (h | h) | h
    · rcases validateAdditionalComponents_summary _ _ h with h' | h'
      · exact absurd h' hs1
      · exact absurd h' hs2
    · exact absurd (validateAdditionalNamingPatterns_summary _ _ h) hs3
    · obtain ⟨bf, hbf, hd⟩ := List.mem_flatMap.1 h
      obtain ⟨hk, h1, h2, h3, heq⟩ := (mem_validateComponentIfProvided _ _ _).1 hd
      have hname : af.1 = bf.1 := by
        have hdet := congrArg Diagnostic.detail heq
        exact List.append_cancel_left hdet
      have hab := hinj af haf bf hbf hname
      rw [hab]
      exact ⟨hk, h1, h2, h3⟩
  · rintro ⟨hk, h1, h2, h3⟩
    rw [List.mem_append]
    refine Or.inr (List.mem_flatMap.2 ⟨af, haf, ?_⟩)
    exact (mem_validateComponentIfProvided _ _ _).2 ⟨hk, h1, h2, h3, rfl⟩

/-- C26. For every default slot whose component is neither null nor unknown,
`ValidateConfig` reports the error `Invalid Component Configuration` for that
slot if and only if its fullname, shortcode and char are all empty. Whenever
the configuration could not be read or a validation error was reported, no
configuration is stored in the provider, the store is not called and the
snapshot file is left as it was. -/
theorem ValidateConfig_component_invariant (env : StoreEnv)
    (config : resourcenamingtoolProviderModel) :
    (∀ af ∈ slotAttributes, (snapshotSlot config af.2).isKnown = true →
      ((⟨str "Invalid Component Configuration",
          str "At least one of fullname, shortcode, or char must be provided for " ++ af.1⟩ :
          Diagnostic) ∈ (ValidateConfig env [] config).errors ↔
        ((snapshotSlot config af.2).GetFullname = [] ∧
          (snapshotSlot config af.2).GetShortcode = [] ∧
          (snapshotSlot config af.2).GetChar = []))) ∧
    (∀ getErrors, (getErrors ≠ [] ∨ validationErrors config ≠ []) →
      (ValidateConfig env getErrors config).stored = none ∧
      (ValidateConfig env getErrors config).trace = [] ∧
      (ValidateConfig env getErrors config).file = env.file) := by
  constructor
  · intro af haf hk
    have hmem := mem_validationErrors_slot config af haf
    have hp : ¬ str "Invalid Component Configuration" = str "Configuration Persistence Error" := by
      decide
    by_cases hv : validationErrors config = []
    · have hno : ¬ ((⟨str "Invalid Component Configuration",
          str "At least one of fullname, shortcode, or char must be provided for " ++ af.1⟩ :
          Diagnostic) ∈ validationErrors config) := by rw [hv]; simp
      have hcond : ¬ ((snapshotSlot config af.2).GetFullname = [] ∧
          (snapshotSlot config af.2).GetShortcode = [] ∧
          (snapshotSlot config af.2).GetChar = []) :=
        fun h => hno (hmem.2 ⟨hk, h⟩)
      constructor
      · intro h
        exfalso
        unfold ValidateConfig at h
        simp only [ne_eq, not_true_eq_false, if_false, hv] at h
        split at h
        · rw [List.mem_singleton] at h
          exact hp (congrArg Diagnostic.summary h)
        · cases h
      · intro h; exact absurd h hcond
    · have herr : (ValidateConfig env [] config).errors = validationErrors config := by
        unfold ValidateConfig
        simp only [ne_eq, not_true_eq_false, if_false]
        rw [if_pos hv]
      rw [herr, hmem]
      exact ⟨fun h => h.2, fun h => ⟨hk, h⟩⟩
  · intro getErrors h
    unfold ValidateConfig
    by_cases hg : getErrors = []
    · have hv : validationErrors config ≠ [] := by
        rcases h with h | h
        · exact absurd hg h
        · exact h
      simp only [hg, ne_eq, not_true_eq_false, if_false]
      rw [if_pos hv]
      exact ⟨rfl, rfl, rfl⟩
    · rw [if_pos hg]
      exact ⟨rfl, rfl, rfl⟩

set_option maxRecDepth 8000 in
/-- C26 at a concrete input: a basename with three empty attributes is
reported, and the configuration is neither stored nor written. -/
theorem ValidateConfig_component_invariant_witness :
    ((⟨str "Invalid Component Configuration",
        str "At least one of fullname, shortcode, or char must be provided for " ++
          str "default_basename"⟩ : Diagnostic)
        ∈ (ValidateConfig readyEnv [] emptyBasenameConfig).errors ↔
      ((snapshotSlot emptyBasenameConfig (str "DefaultBasename")).GetFullname = [] ∧
        (snapshotSlot emptyBasenameConfig (str "DefaultBasename")).GetShortcode = [] ∧
        (snapshotSlot emptyBasenameConfig (str "DefaultBasename")).GetChar = [])) ∧
    ((ValidateConfig readyEnv [] emptyBasenameConfig).stored = none ∧
      (ValidateConfig readyEnv [] emptyBasenameConfig).trace = [] ∧
      (ValidateConfig readyEnv [] emptyBasenameConfig).file = readyEnv.file) :=
  ⟨(ValidateConfig_component_invariant readyEnv emptyBasenameConfig).1
      (str "default_basename", str "DefaultBasename") (by decide) (by decide),
    (ValidateConfig_component_invariant readyEnv emptyBasenameConfig).2 []
      (Or.inr (by decide))⟩

/-! ## Two concurrent writes -/

theorem setFor_same {α : Type} (f : Bool → α) (w : Bool) (a : α) : setFor f w a w = a := by
  simp [setFor]

theorem setFor_other {α : Type} (f : Bool → α) (w v : Bool) (a : α) (h : v ≠ w) :
    setFor f w a v = f v := by
  simp [setFor, h]

theorem overwriteAt_first (first rest : GoString) :
    overwriteAt first first.length rest = first ++ rest := by
  simp [overwriteAt]

theorem writesLocked_of_accessesLocked (l : List StoreEvent) (m h : Bool)
    (hacc : accessesLocked (m, h) l = true) : writesLocked h l = true := by
  induction l generalizing m h with
  | nil => rfl
  | cons e rest ih =>
    cases e with
    | mkdirAll => exact ih m h hacc
    | mutexLock => exact ih true h hacc
    | mutexUnlock => exact ih false h hacc
    | tryLock o =>
      cases o with
      | acquired => exact ih m true hacc
      | busy => exact ih m h hacc
      | failed err => exact ih m h hacc
    | fileUnlock => exact ih m false hacc
    | stat => exact ih m h hacc
    | readFile =>
      simp only [accessesLocked, Bool.and_eq_true] at hacc
      exact ih m h hacc.2
    | marshal => exact ih m h hacc
    | writeFile =>
      simp only [accessesLocked, Bool.and_eq_true] at hacc
      simp only [writesLocked, Bool.and_eq_true]
      exact ⟨hacc.1.2, ih m h hacc.2⟩

/-- A call that is at a `WriteFile` event holds the file lock. -/
theorem holds_at_write (fails : Bool → Bool) (data : Bool → GoString × GoString)
    (program : Bool → List StoreEvent) (old : GoString) (s : WriterState)
    (h : WritersInvariant fails data program old s) (w : Bool) (rest : List StoreEvent)
    (htodo : s.todo w = .writeFile :: rest) :
    s.fileLock = some w ∧ writesLocked (decide (s.fileLock = some w)) rest = true := by
  have h1 := h.1 w
  rw [htodo] at h1
  simp only [writesLocked, Bool.and_eq_true, decide_eq_true_eq] at h1
  exact ⟨h1.1, h1.2⟩

/-- While a call is at a `WriteFile` event, the other call is not inside
`os.WriteFile`. -/
theorem other_not_midWrite (fails : Bool → Bool) (data : Bool → GoString × GoString)
    (program : Bool → List StoreEvent) (old : GoString) (s : WriterState)
    (h : WritersInvariant fails data program old s) (w : Bool) (rest : List StoreEvent)
    (htodo : s.todo w = .writeFile :: rest) (v : Bool) (hv : v ≠ w) :
    s.midWrite v = false := by
  cases hm : s.midWrite v with
  | false => rfl
  | true =>
    obtain ⟨⟨r, hr⟩, _⟩ := h.2.1 v hm
    have h1 := (holds_at_write fails data program old s h w rest htodo).1
    have h2 := (holds_at_write fails data program old s h v r hr).1
    rw [h1] at h2
    exact absurd (Option.some.inj h2).symm hv

/-- An event other than `WriteFile` leaves the invariant in place. -/
theorem invariant_event (fails : Bool → Bool) (data : Bool → GoString × GoString)
    (program : Bool → List StoreEvent) (old : GoString) (s s' : WriterState)
    (h : WritersInvariant fails data program old s) (w : Bool) (e : StoreEvent)
    (rest : List StoreEvent) (htodo : s.todo w = e :: rest) (hne : e ≠ .writeFile)
    (hfile : s'.file = s.file) (hmid : s'.midWrite = s.midWrite)
    (htodo' : s'.todo = setFor s.todo w rest)
    (hw : writesLocked (decide (s'.fileLock = some w)) rest = true)
    (hother : ∀ v, v ≠ w →
      decide (s'.fileLock = some v) = decide (s.fileLock = some v)) :
    WritersInvariant fails data program old s' := by
  refine ⟨?_, ?_, ?_⟩
  · intro v
    by_cases hv : v = w
    · subst hv
      rw [htodo', setFor_same]
      exact hw
    · rw [htodo', setFor_other _ _ _ _ hv, hother v hv]
      exact h.1 v
  · intro v hm
    rw [hmid] at hm
    obtain ⟨⟨r, hr⟩, hf⟩ := h.2.1 v hm
    have hv : v ≠ w := by
      intro e1
      subst e1
      rw [htodo] at hr
      exact hne (List.cons.inj hr).1
    rw [htodo', setFor_other _ _ _ _ hv, hfile]
    exact ⟨⟨r, hr⟩, hf⟩
  · intro hm hf
    rw [hmid] at hm
    rcases h.2.2 hm hf with hwhole | ⟨hold, hcount⟩
    · left
      rw [hfile]
      exact hwhole
    · right
      refine ⟨by rw [hfile]; exact hold, fun v => ?_⟩
      by_cases hv : v = w
      · subst hv
        rw [htodo', setFor_same, ← hcount v, htodo]
        exact (List.count_cons_of_ne (Ne.symm hne) rest).symm
      · rw [htodo', setFor_other _ _ _ _ hv]
        exact hcount v

theorem decide_lock_other (l : Option Bool) (w v : Bool) (hv : v ≠ w) (hl : l = none ∨ l = some w) :
    decide ((some w : Option Bool) = some v) = decide (l = some v) ∧
    decide ((none : Option Bool) = some v) = decide (l = some v) := by
  have hwv : ¬ w = v := fun e => hv e.symm
  rcases hl with hl | hl <;> subst hl <;> simp [hwv]

/-- Every step of a call leaves the invariant in place. -/
theorem writerStep_invariant (sameProcess : Bool) (fails : Bool → Bool)
    (data : Bool → GoString × GoString) (program : Bool → List StoreEvent) (old : GoString)
    (s : WriterState) (h : WritersInvariant fails data program old s) (w : Bool) :
    WritersInvariant fails data program old (writerStep sameProcess fails data s w) := by
  unfold writerStep
  cases htodo : s.todo w with
  | nil => exact h
  | cons e rest =>
    have h1 := h.1 w
    rw [htodo] at h1
    cases e with
    | mkdirAll =>
      exact invariant_event fails data program old s _ h w _ rest htodo (by decide) rfl rfl rfl
        h1 (fun _ _ => rfl)
    | stat =>
      exact invariant_event fails data program old s _ h w _ rest htodo (by decide) rfl rfl rfl
        h1 (fun _ _ => rfl)
    | readFile =>
      exact invariant_event fails data program old s _ h w _ rest htodo (by decide) rfl rfl rfl
        h1 (fun _ _ => rfl)
    | marshal =>
      exact invariant_event fails data program old s _ h w _ rest htodo (by decide) rfl rfl rfl
        h1 (fun _ _ => rfl)
    | mutexLock =>
      simp only []
      cases sameProcess with
      | false =>
        exact invariant_event fails data program old s _ h w _ rest htodo (by decide) rfl rfl
          rfl h1 (fun _ _ => rfl)
      | true =>
        simp only [if_true]
        cases s.mutex with
        | some _ => exact h
        | none =>
          exact invariant_event fails data program old s _ h w _ rest htodo (by decide) rfl
            rfl rfl h1 (fun _ _ => rfl)
    | mutexUnlock =>
      exact invariant_event fails data program old s _ h w _ rest htodo (by decide) rfl rfl rfl
        h1 (fun _ _ => rfl)
    | tryLock o =>
      cases o with
      | failed err =>
        exact invariant_event fails data program old s _ h w _ rest htodo (by simp) rfl rfl
          rfl h1 (fun _ _ => rfl)
      | busy =>
        simp only []
        cases hl : s.fileLock with
        | none => exact h
        | some x =>
          simp only []
          refine invariant_event fails data program old s _ h w _ rest htodo (by simp) rfl rfl
            rfl ?_ (fun _ _ => by simp [hl])
          simp only [hl] at h1 ⊢
          exact h1
      | acquired =>
        simp only []
        cases hl : s.fileLock with
        | some x => exact h
        | none =>
          simp only []
          refine invariant_event fails data program old s _ h w _ rest htodo (by simp) rfl rfl
            rfl ?_ (fun v hv => ?_)
          · simp only [decide_True]
            exact h1
          · show decide ((some w : Option Bool) = some v) = decide (s.fileLock = some v)
            rw [hl]
            exact (decide_lock_other none w v hv (Or.inl rfl)).1
    | fileUnlock =>
      refine invariant_event fails data program old s _ h w _ rest htodo (by decide) rfl rfl
        rfl ?_ (fun v hv => ?_)
      · have hfree : decide ((if s.fileLock = some w then none else s.fileLock) = some w)
            = false := by
          by_cases hl : s.fileLock = some w
          · simp [hl]
          · simp [hl]
        simp only [hfree]
        exact h1
      · by_cases hl : s.fileLock = some w
        · simp only [hl, if_true]
          exact (decide_lock_other (some w) w v hv (Or.inr rfl)).2.trans
            (decide_lock_other (some w) w v hv (Or.inr rfl)).1.symm
        · simp only [hl, if_false]
    | writeFile =>
      obtain ⟨hlock, hrest⟩ := holds_at_write fails data program old s h w rest htodo
      have hothers := other_not_midWrite fails data program old s h w rest htodo
      simp only []
      cases hmid : s.midWrite w with
      | true =>
        simp only [if_true]
        have hfile := (h.2.1 w hmid).2
        refine ⟨?_, ?_, ?_⟩
        · intro v
          by_cases hv : v = w
          · subst hv
            simp only [setFor_same]
            exact hrest
          · simp only [setFor_other _ _ _ _ hv]
            exact h.1 v
        · intro v hm
          by_cases hv : v = w
          · subst hv
            simp only [setFor_same] at hm
            cases hm
          · simp only [setFor_other _ _ _ _ hv] at hm
            rw [hothers v hv] at hm
            cases hm
        · intro _ _
          left
          simp only [hfile, overwriteAt_first]
          cases w
          · exact Or.inl rfl
          · exact Or.inr rfl
      | false =>
        simp only [Bool.false_eq_true, if_false]
        cases hfail : fails w with
        | true =>
          simp only [if_true]
          refine ⟨?_, ?_, ?_⟩
          · intro v
            by_cases hv : v = w
            · subst hv
              simp only [setFor_same]
              exact hrest
            · simp only [setFor_other _ _ _ _ hv]
              exact h.1 v
          · intro v hm
            by_cases hv : v = w
            · subst hv
              simp only [] at hm
              rw [hmid] at hm
              cases hm
            · simp only [] at hm
              rw [hothers v hv] at hm
              cases hm
          · intro _ hf
            rw [hf w] at hfail
            cases hfail
        | false =>
          simp only [Bool.false_eq_true, if_false]
          refine ⟨?_, ?_, ?_⟩
          · intro v
            exact h.1 v
          · intro v hm
            by_cases hv : v = w
            · subst hv
              exact ⟨⟨rest, htodo⟩, rfl⟩
            · simp only [setFor_other _ _ _ _ hv] at hm
              rw [hothers v hv] at hm
              cases hm
          · intro hm _
            have := hm w
            simp only [setFor_same] at this
            cases this

theorem runWriters_invariant (sameProcess : Bool) (fails : Bool → Bool)
    (data : Bool → GoString × GoString) (program : Bool → List StoreEvent) (old : GoString)
    (schedule : List Bool) (s : WriterState)
    (h : WritersInvariant fails data program old s) :
    WritersInvariant fails data program old (runWriters sameProcess fails data s schedule) := by
  induction schedule generalizing s with
  | nil => exact h
  | cons w rest ih =>
    exact ih _ (writerStep_invariant sameProcess fails data program old s h w)

/-- The start of two calls of `saveProviderConfigToFile` satisfies the
invariant: in the trace of the function every `WriteFile` is under the file
lock. -/
theorem initialWriters_invariant (fails : Bool → Bool) (data : Bool → GoString × GoString)
    (env : Bool → StoreEnv) (config : Bool → resourcenamingtoolProviderModel)
    (old : GoString) :
    WritersInvariant fails data
      (fun w => (saveProviderConfigToFile (env w) false (some (config w))).trace) old
      (initialWriters env config old) := by
  unfold WritersInvariant
  refine ⟨?_, ?_, ?_⟩
  · intro w
    exact writesLocked_of_accessesLocked _ false false
      (saveProviderConfigToFile_locked (env w) (some (config w))).1
  · intro w hm
    cases hm
  · intro _ _
    exact Or.inr ⟨rfl, fun w => rfl⟩

/-- A call of `saveProviderConfigToFile` that returns nil has written. -/
theorem saveProviderConfigToFile_success_writes (env : StoreEnv)
    (config : resourcenamingtoolProviderModel)
    (h : (saveProviderConfigToFile env false (some config)).outcome = .returned none) :
    StoreEvent.writeFile ∈ (saveProviderConfigToFile env false (some config)).trace := by
  unfold saveProviderConfigToFile at h ⊢
  simp only [] at h ⊢
  cases hmk : env.mkdirError with
  | some e => rw [hmk] at h; simp at h
  | none =>
    rw [hmk] at h
    simp only [Bool.false_eq_true, if_false] at h ⊢
    rcases tryLockWithRetries_cases env.lockAttempts with hl | hl | ⟨e, hl⟩ <;>
      rw [hl] at h ⊢
    · simp only [] at h ⊢
      cases hma : env.marshalError with
      | some e => rw [hma] at h; simp at h
      | none =>
        rw [hma] at h
        simp only [] at h ⊢
        cases hwe : env.writeError with
        | some e => rw [hwe] at h; simp at h
        | none => simp
    · simp at h
    · simp at h


/-- C27, when no write fails and one call at least returns nil. Two calls of
`saveProviderConfigToFile` on the same snapshot path, in one process or in
two, each making the events of the trace of the function, `os.WriteFile` being
a truncation with a first part of the bytes followed by the rest: under every
schedule and at every moment, a call that is inside `os.WriteFile` holds the
file lock, the other call is not inside `os.WriteFile`, and the file holds the
first part of the bytes of that call; and when both calls have made all their
events, no write has failed and one call at least has returned nil, the file
holds the whole text of one of the two snapshots. -/
theorem concurrent_writes_serialized (sameProcess : Bool) (env : Bool → StoreEnv)
    (config : Bool → resourcenamingtoolProviderModel) (render : JsonDoc → GoString)
    (cut : Bool → Nat) (old : GoString) (schedule : List Bool) :
    (∀ w, (concurrentSaves sameProcess env config render cut old schedule).midWrite w = true →
      (concurrentSaves sameProcess env config render cut old schedule).fileLock = some w ∧
      (concurrentSaves sameProcess env config render cut old schedule).midWrite (!w) = false ∧
      (concurrentSaves sameProcess env config render cut old schedule).file
        = (render (config w).MarshalJSON).take (cut w)) ∧
    ((∀ w, (concurrentSaves sameProcess env config render cut old schedule).todo w = []) →
      (∀ w, (env w).writeError = none) →
      (∃ w, (saveProviderConfigToFile (env w) false (some (config w))).outcome
        = .returned none) →
      (concurrentSaves sameProcess env config render cut old schedule).file
          = render (config false).MarshalJSON ∨
        (concurrentSaves sameProcess env config render cut old schedule).file
          = render (config true).MarshalJSON) := by
  have hinv := runWriters_invariant sameProcess (fun w => (env w).writeError.isSome)
    (fun w => writtenParts render (cut w) (config w))
    (fun w => (saveProviderConfigToFile (env w) false (some (config w))).trace) old schedule _
    (initialWriters_invariant _ _ env config old)
  constructor
  · intro w hm
    obtain ⟨⟨r, hr⟩, hf⟩ := hinv.2.1 w hm
    refine ⟨(holds_at_write _ _ _ _ _ hinv w r hr).1,
      other_not_midWrite _ _ _ _ _ hinv w r hr (!w) (by cases w <;> decide), hf⟩
  · intro hdone hnofail hret
    obtain ⟨w, hret⟩ := hret
    have hm : ∀ v, (concurrentSaves sameProcess env config render cut old schedule).midWrite v
        = false := by
      intro v
      cases hv : (concurrentSaves sameProcess env config render cut old schedule).midWrite v
        with
      | false => rfl
      | true =>
        obtain ⟨⟨r, hr⟩, _⟩ := hinv.2.1 v hv
        have hd := hdone v
        unfold concurrentSaves at hd
        rw [hd] at hr
        cases hr
    have hwhole : ∀ v, (writtenParts render (cut v) (config v)).1 ++
        (writtenParts render (cut v) (config v)).2 = render (config v).MarshalJSON := by
      intro v
      exact List.take_append_drop _ _
    rcases hinv.2.2 hm (fun v => by simp [hnofail v]) with (h0 | h1) | ⟨_, hcount⟩
    · left
      rw [← hwhole false]
      exact h0
    · right
      rw [← hwhole true]
      exact h1
    · have hc := hcount w
      have hd := hdone w
      unfold concurrentSaves at hd
      rw [hd] at hc
      have hmem := saveProviderConfigToFile_success_writes (env w) (config w) hret
      have hpos := List.count_pos_iff.2 hmem
      simp only [List.count_nil] at hc
      omega

set_option maxRecDepth 8000 in
/-- C27 at a concrete run in one process: call `false` takes the mutex and the
file lock first, call `true` waits at the mutex while `false` is inside
`os.WriteFile`, and writes afterwards; at the end the file holds the whole
text of one of the two snapshots. -/
theorem concurrent_writes_serialized_witness :
    (concurrentSaves true (fun _ => readyEnv) twoSnapshots memberNames (fun _ => 3)
        (str "old")
        [true, false, false, true, false, false, false, true, false, false, false, false,
          true, true, true, true, true, true, true, true]).file
      = memberNames (twoSnapshots false).MarshalJSON ∨
    (concurrentSaves true (fun _ => readyEnv) twoSnapshots memberNames (fun _ => 3)
        (str "old")
        [true, false, false, true, false, false, false, true, false, false, false, false,
          true, true, true, true, true, true, true, true]).file
      = memberNames (twoSnapshots true).MarshalJSON :=
  (concurrent_writes_serialized true (fun _ => readyEnv) twoSnapshots memberNames
      (fun _ => 3) (str "old")
      [true, false, false, true, false, false, false, true, false, false, false, false,
        true, true, true, true, true, true, true, true]).2
    (by decide) (fun _ => rfl) ⟨true, rfl⟩

set_option maxRecDepth 8000 in
/-- C27 does not hold for every pair of calls that complete. When the write of
call `false` fails after the first three bytes, both calls make all their
events and return, and the file holds those three bytes, which is the text of
neither snapshot; and when `TryLock` reports an error to both calls, both
return and the file is as it was. -/
theorem concurrent_writes_partial :
    ((concurrentSaves false failingWriteEnv twoSnapshots memberNames (fun _ => 3)
        (str "old")
        [true, true, true, true, true, true, true, true, true,
          false, false, false, false, false, false, false]).todo false = [] ∧
      (concurrentSaves false failingWriteEnv twoSnapshots memberNames (fun _ => 3)
        (str "old")
        [true, true, true, true, true, true, true, true, true,
          false, false, false, false, false, false, false]).todo true = [] ∧
      (concurrentSaves false failingWriteEnv twoSnapshots memberNames (fun _ => 3)
        (str "old")
        [true, true, true, true, true, true, true, true, true,
          false, false, false, false, false, false, false]).file = str "Def" ∧
      memberNames (twoSnapshots false).MarshalJSON = str "DefaultBasename" ∧
      memberNames (twoSnapshots true).MarshalJSON = str "DefaultRegion") ∧
    ((concurrentSaves false lockErrorEnv twoSnapshots memberNames (fun _ => 3)
        (str "old") [true, true, true, true, false, false, false, false]).todo false = [] ∧
      (concurrentSaves false lockErrorEnv twoSnapshots memberNames (fun _ => 3)
        (str "old") [true, true, true, true, false, false, false, false]).todo true = [] ∧
      (concurrentSaves false lockErrorEnv twoSnapshots memberNames (fun _ => 3)
        (str "old") [true, true, true, true, false, false, false, false]).file
        = str "old") := by
  decide

set_option maxRecDepth 8000 in
/-- The concrete run in one process, step by step: after eight steps call
`false` is inside `os.WriteFile` with the file lock and the mutex, the file
holds the first three bytes of its text, and call `true` still waits at
`globalConfigMutex.Lock`; at the end the file holds the text of the snapshot
of `true`, which wrote last. -/
theorem concurrent_saves_run :
    (concurrentSaves true (fun _ => readyEnv) twoSnapshots memberNames (fun _ => 3)
        (str "old") [true, false, false, true, false, false, false, true]).midWrite false
      = true ∧
    (concurrentSaves true (fun _ => readyEnv) twoSnapshots memberNames (fun _ => 3)
        (str "old") [true, false, false, true, false, false, false, true]).fileLock
      = some false ∧
    (concurrentSaves true (fun _ => readyEnv) twoSnapshots memberNames (fun _ => 3)
        (str "old") [true, false, false, true, false, false, false, true]).file = str "Def" ∧
    ((concurrentSaves true (fun _ => readyEnv) twoSnapshots memberNames (fun _ => 3)
        (str "old") [true, false, false, true, false, false, false, true]).todo true).head?
      = some .mutexLock ∧
    (concurrentSaves true (fun _ => readyEnv) twoSnapshots memberNames (fun _ => 3)
        (str "old")
        [true, false, false, true, false, false, false, true, false, false, false, false,
          true, true, true, true, true, true, true, true]).file = str "DefaultRegion" := by
  decide

/-! ## The test inputs through the normalizer -/

/-- The parameter objects used for the two additional-components tests are
what the normalizer builds from the arguments of the tests; for the region
override `Run` then adds the default resource type. -/
theorem normalizer_test_inputs :
    setWithNestedMapsToResourceNamingParametersValue instanceOverrideSet
      = .ok instanceOverrideParams ∧
    setWithNestedMapsToResourceNamingParametersValue
        (rawAdditional
          ⟨[(str "region.fullname", .string (.value (str "Germany West Central"))),
            (str "region.shortcode", .string (.value (str "gwc"))),
            (str "region.char", .string (.value (str "g")))], by decide⟩)
      = .ok (.known ⟨[(str "additional_components", .map (.known regionOverrideComponents))],
          List.nodup_singleton _⟩) :=
  ⟨rfl, rfl⟩

/-! ## Call-time values in the generated name -/

theorem flatten_append (a b : List Seg) : flatten (a ++ b) = flatten a ++ flatten b := by
  induction a with
  | nil => rfl
  | cons s rest ih => simp [flatten, ih]

theorem flatten_subst_token (P : List (GoString × GoString)) (pre post : List Seg)
    (K : GoString) :
    flatten ((pre ++ .tok K :: post).map (Seg.subst P))
      = flatten (pre.map (Seg.subst P)) ++
          (match mapGet P K with
            | some v => v
            | none => K) ++ flatten (post.map (Seg.subst P)) := by
  rw [List.map_append, flatten_append, List.map_cons]
  simp only [flatten, Seg.subst]
  cases mapGet P K <;> simp [Seg.text]

/-- The name generated for a template given in pieces around a placeholder of
a fixed slot that no additional component supplies. -/
theorem generateResourceName_slot_token (order : RangeOrder)
    (params : ResourceNamingParametersValue) (config : resourcenamingtoolProviderModel)
    (k : GoString) (pre post : List Seg) (compType : ComponentType) (placeholder : GoString)
    (hkey : effectiveResourceType params config = .ok k)
    (hpat : patternByPrecedence builtin_NamingPatterns params config k
      = some (flatten (pre ++ .tok placeholder :: post)))
    (hwf : ∀ seg ∈ pre ++ post, seg.WF)
    (hct : compType ∈ componentTypes) (hph : placeholder ∈ compType.Patterns)
    (hnames : ∀ name ∈ additionalNames params, lbrace ∉ name ∧ rbrace ∉ name)
    (hvals : ∀ kv ∈ additionalPlaceholders order params
      (fixedPlaceholders params config (flatten (pre ++ .tok placeholder :: post))),
      lbrace ∉ kv.2)
    (hadd : ∀ P, mapGet (additionalPlaceholders order params P) placeholder
      = mapGet P placeholder) :
    generateResourceName order params config
      = validateResult
          (flatten (pre.map (Seg.subst (additionalPlaceholders order params
              (fixedPlaceholders params config (flatten (pre ++ .tok placeholder :: post)))))) ++
            (match resolvePlaceholder params config compType.Name compType.ValueType
                placeholder with
              | some v => v
              | none => placeholder) ++
            flatten (post.map (Seg.subst (additionalPlaceholders order params
              (fixedPlaceholders params config
                (flatten (pre ++ .tok placeholder :: post))))))) := by
  have hK : isToken placeholder = true := by
    apply allPlaceholders_tokens
    unfold allPlaceholders
    rw [List.mem_map]
    exact ⟨(compType.Name, compType.ValueType, placeholder),
      List.mem_flatMap.2 ⟨compType, hct, List.mem_map_of_mem _ hph⟩, rfl⟩
  have hwf' : ∀ seg ∈ pre ++ .tok placeholder :: post, seg.WF := by
    intro seg hseg
    rcases List.mem_append.1 hseg with h | h
    · exact hwf seg (List.mem_append_left _ h)
    · rcases List.mem_cons.1 h with h | h
      · subst h; exact hK
      · exact hwf seg (List.mem_append_right _ h)
  have hfound : contains (flatten (pre ++ .tok placeholder :: post)) placeholder = true := by
    have e : flatten (pre ++ .tok placeholder :: post)
        = flatten pre ++ placeholder ++ flatten post := by
      rw [flatten_append]
      simp [flatten, Seg.text]
    rw [e]
    exact contains_mid _ _ _
  obtain ⟨hnd, _, htok⟩ := placeholders_entries order params config
    (flatten (pre ++ .tok placeholder :: post))
  unfold generateResourceName
  rw [hkey]
  simp only []
  rw [generateForType_segments builtin_NamingPatterns order params config k _ _ _ hpat rfl hwf'
    rfl hnd (fun kv hkv => ⟨htok hnames kv.1 (List.mem_map_of_mem Prod.fst hkv), hvals kv hkv⟩),
    flatten_subst_token, hadd,
    mapGet_fixedPlaceholders params config _ compType placeholder hct hph hfound]


/-- C6, when no additional component supplies the placeholder. For every fixed
slot, every placeholder of the slot standing in a template made of brace
tokens and of texts without opening brace, and every provider configuration:
if the call-time component of the slot yields a non-empty value for the
requested format (after its own fallback chain), the generated name has that
value in the place of the placeholder, whatever the persisted default of the
slot is; if the call-time value is empty the place is taken by the persisted
default of the slot, and the placeholder stays when that is empty too. The
names of call-time additional components and the values of the placeholder
map are taken to be free of braces. -/
theorem callTime_value_overrides_default (order : RangeOrder)
    (params : ResourceNamingParametersValue) (config : resourcenamingtoolProviderModel)
    (k : GoString) (pre post : List Seg) (compType : ComponentType) (placeholder : GoString)
    (compValue : ComponentValueObject)
    (hkey : effectiveResourceType params config = .ok k)
    (hpat : patternByPrecedence builtin_NamingPatterns params config k
      = some (flatten (pre ++ .tok placeholder :: post)))
    (hwf : ∀ seg ∈ pre ++ post, seg.WF)
    (hct : compType ∈ componentTypes) (hph : placeholder ∈ compType.Patterns)
    (hcomp : params.GetComponentValue compType.Name = .ok compValue)
    (hnames : ∀ name ∈ additionalNames params, lbrace ∉ name ∧ rbrace ∉ name)
    (hvals : ∀ kv ∈ additionalPlaceholders order params
      (fixedPlaceholders params config (flatten (pre ++ .tok placeholder :: post))),
      lbrace ∉ kv.2)
    (hadd : ∀ P, mapGet (additionalPlaceholders order params P) placeholder
      = mapGet P placeholder) :
    (callTimeValue compValue (placeholderFormat compType.ValueType placeholder) ≠ [] →
      generateResourceName order params config
        = validateResult
            (flatten (pre.map (Seg.subst (additionalPlaceholders order params
                (fixedPlaceholders params config
                  (flatten (pre ++ .tok placeholder :: post)))))) ++
              callTimeValue compValue (placeholderFormat compType.ValueType placeholder) ++
              flatten (post.map (Seg.subst (additionalPlaceholders order params
                (fixedPlaceholders params config
                  (flatten (pre ++ .tok placeholder :: post)))))))) ∧
    (callTimeValue compValue (placeholderFormat compType.ValueType placeholder) = [] →
      generateResourceName order params config
        = validateResult
            (flatten (pre.map (Seg.subst (additionalPlaceholders order params
                (fixedPlaceholders params config
                  (flatten (pre ++ .tok placeholder :: post)))))) ++
              (if defaultValue (defaultComponent config compType.Name)
                  (placeholderFormat compType.ValueType placeholder) = [] then placeholder
                else defaultValue (defaultComponent config compType.Name)
                  (placeholderFormat compType.ValueType placeholder)) ++
              flatten (post.map (Seg.subst (additionalPlaceholders order params
                (fixedPlaceholders params config
                  (flatten (pre ++ .tok placeholder :: post)))))))) := by
  have hname := generateResourceName_slot_token order params config k pre post compType
    placeholder hkey hpat hwf hct hph hnames hvals hadd
  constructor
  · intro hne
    rw [hname, resolvePlaceholder_callTime params config _ _ _ _ hcomp hne]
  · intro he
    have hres : resolvePlaceholder params config compType.Name compType.ValueType placeholder
        = if defaultValue (defaultComponent config compType.Name)
              (placeholderFormat compType.ValueType placeholder) = [] then none
          else some (defaultValue (defaultComponent config compType.Name)
              (placeholderFormat compType.ValueType placeholder)) := by
      unfold resolvePlaceholder
      rw [hcomp]
      simp only [he, if_true]
      split <;> simp_all
    rw [hname, hres]
    split_ifs <;> rfl

set_option maxRecDepth 8000 in
/-- C6 at a concrete input: with the call-time environment `staging`/`stg`/`s`
the template `rg-{environment:short}` gives `rg-stg` although the provider
default says `prd`. -/
theorem callTime_value_overrides_default_witness :
    generateResourceName RangeOrder.insertion environmentParams
        { literalPatternConfig (str "rg-{environment:short}") with
          DefaultEnvironment := componentOf "production" "prd" "p" }
      = (str "rg-stg", []) :=
  ((callTime_value_overrides_default RangeOrder.insertion environmentParams
    { literalPatternConfig (str "rg-{environment:short}") with
      DefaultEnvironment := componentOf "production" "prd" "p" }
    (str "t") [.lit (str "rg-")] []
    ⟨str "environment", [str "{environment}", str "{environment:full}",
      str "{environment:short}", str "{environment:char}", str "{env}", str "{e}"], .full⟩
    (str "{environment:short}") (componentOf "staging" "stg" "s")
    rfl (by decide) (wf_of_check _ (by decide)) (by decide) (by decide) rfl (by decide)
    (by decide) (fun P => rfl)).1 (by decide)).trans (by decide)

set_option maxRecDepth 8000 in
/-- C6 does not hold for every call: the call-time environment yields the
non-empty short code `stg`, and `rg-{environment:short}` gives `rg-stg`, but
when the call also passes an additional component named `environment` with the
short code `zzz`, the placeholder is filled with `zzz` and the name is
`rg-zzz`. -/
theorem additional_component_overrides_callTime :
    callTimeValue (componentOf "staging" "stg" "s") .short = str "stg" ∧
    generateResourceName RangeOrder.insertion environmentParams
        (literalPatternConfig (str "rg-{environment:short}")) = (str "rg-stg", []) ∧
    generateResourceName RangeOrder.insertion environmentOverrideParams
        (literalPatternConfig (str "rg-{environment:short}")) = (str "rg-zzz", []) := by
  decide

/-! ## Precedence of the pattern sources at concrete inputs -/

set_option maxRecDepth 8000 in
/-- C5 at concrete inputs, over a built-in table with an entry for the resource
group: a call-time pattern passed in a plain object wins over the persisted
and the built-in pattern, and so does one passed in a map; without a call-time
pattern the persisted pattern wins over the built-in one, and without either
the built-in pattern is used. With the table of the source the two calls are
named by their call-time pattern. -/
theorem naming_pattern_precedence_witness :
    mapGet (consolidatedPatterns sampleBuiltin objectPatternParams providerConfig
        (str "azurerm_resource_group")) (str "azurerm_resource_group")
      = some (str "obj-{basename}") ∧
    mapGet (consolidatedPatterns sampleBuiltin mapPatternParams providerConfig
        (str "azurerm_resource_group")) (str "azurerm_resource_group")
      = some (str "map-{basename}") ∧
    mapGet (consolidatedPatterns sampleBuiltin (.known .empty) providerConfig
        (str "azurerm_resource_group")) (str "azurerm_resource_group")
      = some (str "rg-{basename}-{environment:short}-{region:short}") ∧
    mapGet (consolidatedPatterns sampleBuiltin (.known .empty) emptyConfig
        (str "azurerm_resource_group")) (str "azurerm_resource_group")
      = some (str "builtin-{basename}") ∧
    generateResourceName RangeOrder.insertion objectPatternParams providerConfig
      = (str "obj-example", []) ∧
    generateResourceName RangeOrder.insertion mapPatternParams providerConfig
      = (str "map-example", []) :=
  ⟨((naming_pattern_precedence sampleBuiltin RangeOrder.insertion objectPatternParams
      providerConfig (str "azurerm_resource_group")).1 _).trans (by decide),
   ((naming_pattern_precedence sampleBuiltin RangeOrder.insertion mapPatternParams
      providerConfig (str "azurerm_resource_group")).1 _).trans (by decide),
   ((naming_pattern_precedence sampleBuiltin RangeOrder.insertion (.known .empty)
      providerConfig (str "azurerm_resource_group")).1 _).trans (by decide),
   ((naming_pattern_precedence sampleBuiltin RangeOrder.insertion (.known .empty)
      emptyConfig (str "azurerm_resource_group")).1 _).trans (by decide),
   ((naming_pattern_precedence builtin_NamingPatterns RangeOrder.insertion
      objectPatternParams providerConfig (str "azurerm_resource_group")).2).trans (by decide),
   ((naming_pattern_precedence builtin_NamingPatterns RangeOrder.insertion
      mapPatternParams providerConfig (str "azurerm_resource_group")).2).trans (by decide)⟩

end ResourceNamingTool
